import Mathlib

/-!
# SurrealPilot patch applier: shallow embedding and verified properties

The development embeds `UPatchApplier` (PatchApplier.cpp) and the part of
`FSurrealPilotErrorHandler` (SurrealPilotErrorHandler.cpp) it calls.  The member
functions become pure functions over an explicit `EditorState`; a function that
returns `bool` and mutates the subsystem returns `Bool × EditorState`.  It also
embeds the capture state of `FSurrealPilotOutputDevice` (BuildErrorCapture.cpp)
and `FHttpClient::ParseSSEData` (HttpClient.cpp).

Engine types are modelled as follows.
* `FString` / `FName` are `String`; the comparison `==` of the engine ignores
  case (`FStringEquals`).  In the HTTP client the prefix test and the comparison
  are parameters.
* `TSharedPtr<T>` and raw pointers to engine objects are `Option`; a pointer into
  a container is the index of the element.
* A `double` is a whole number times a power of two (`FDouble`); a JSON value
  carries what the conversions of the engine make of it.
* `FJsonSerializer::Deserialize` is a parameter of the functions that parse text.
-/

namespace SurrealPilot

/-! ## JSON documents (Dom/JsonObject.h) -/

/-- A `double`: the number `Mantissa` times two to the power `Exponent`. -/
structure FDouble where
  Mantissa : Int
  Exponent : Int
  deriving DecidableEq

/-- The `double` that is the whole number `n`. -/
def FDouble.OfInt (n : Int) : FDouble :=
  { Mantissa := n, Exponent := 0 }

/-- The `double` is the whole number `n`. -/
def FDouble.IsInt (Value : FDouble) (n : Int) : Prop :=
  if 0 ≤ Value.Exponent then n = Value.Mantissa * 2 ^ Value.Exponent.toNat
  else n * 2 ^ (-Value.Exponent).toNat = Value.Mantissa

instance FDouble.IsInt.decidable (Value : FDouble) (n : Int) : Decidable (Value.IsInt n) := by
  unfold FDouble.IsInt
  exact inferInstance

/-- The conversion of a `double` to `int32` that an assignment performs: the
fraction is cut off (toward zero). The language defines the result only when it
fits 32 bits; outside that range the model gives the least `int32`, which is
what the conversion instruction of the x86 processors gives. -/
def DoubleToInt32 (Value : FDouble) : Int :=
  let Truncated :=
    if 0 ≤ Value.Exponent then Value.Mantissa * 2 ^ Value.Exponent.toNat
    else Int.tdiv Value.Mantissa (2 ^ (-Value.Exponent).toNat)
  if -2147483648 ≤ Truncated ∧ Truncated ≤ 2147483647 then Truncated else -2147483648

/-- A JSON value (`FJsonValue`). An object is its list of fields; the first
binding of a key is the one the map holds. A number is the `double` the reader
made, with the text the engine prints for it (what `TryGetString` answers); a
string is its text, with the `double` the engine reads from it when the text is
numeric (what `TryGetNumber` answers) and `none` when it is not. -/
inductive FJsonValue where
  | Null : FJsonValue
  | Boolean : Bool → FJsonValue
  | Number : FDouble → String → FJsonValue
  | String : String → Option FDouble → FJsonValue
  | Array : List FJsonValue → FJsonValue
  | Object : List (String × FJsonValue) → FJsonValue

/-- A JSON object (`FJsonObject`): the fields in document order. -/
abbrev FJsonObject := List (String × FJsonValue)

/-- A shared pointer that may be null. -/
abbrev TSharedPtr (α : Type) := Option α

/-- The type of `FJsonSerializer::Deserialize(Reader, JsonObject)`: the returned
flag and the object pointer it fills in. -/
abbrev FDeserialize := String → Bool × TSharedPtr FJsonObject

/-- Look a field up by name (`Values.Find`). -/
def FindField : FJsonObject → String → Option FJsonValue
  | [], _ => none
  | (k, v) :: rest, FieldName => if k = FieldName then some v else FindField rest FieldName

/-- Embeds `FJsonObject::HasField`. -/
def HasField (Obj : FJsonObject) (FieldName : String) : Bool :=
  (FindField Obj FieldName).isSome

/-- Embeds `FJsonValue::TryGetString`: a string gives its text, a number the text
the engine prints for it, a boolean `true` or `false`; null, arrays and objects
give nothing. -/
def TryGetString : FJsonValue → Option String
  | FJsonValue.String Value _ => some Value
  | FJsonValue.Number _ Text => some Text
  | FJsonValue.Boolean Value => some (if Value then "true" else "false")
  | _ => none

/-- Embeds `FJsonValue::TryGetNumber`: a number gives its `double`, a string the
`double` read from a numeric text, a boolean one or zero; null, arrays and
objects give nothing. -/
def TryGetNumber : FJsonValue → Option FDouble
  | FJsonValue.Number Value _ => some Value
  | FJsonValue.String _ Numeric => Numeric
  | FJsonValue.Boolean Value => some (FDouble.OfInt (if Value then 1 else 0))
  | _ => none

/-- Embeds `FJsonObject::TryGetStringField`: the field exists and can be read as
text. -/
def TryGetStringField (Obj : FJsonObject) (FieldName : String) : Option String :=
  match FindField Obj FieldName with
  | some Field => TryGetString Field
  | none => none

/-- Embeds `FJsonObject::TryGetNumberField`: the field exists and can be read as
a number. -/
def TryGetNumberField (Obj : FJsonObject) (FieldName : String) : Option FDouble :=
  match FindField Obj FieldName with
  | some Field => TryGetNumber Field
  | none => none

/-- Embeds `FJsonObject::TryGetArrayField`: the field exists and holds an array. -/
def TryGetArrayField (Obj : FJsonObject) (FieldName : String) : Option (List FJsonValue) :=
  match FindField Obj FieldName with
  | some (FJsonValue.Array xs) => some xs
  | _ => none

/-- Embeds `FJsonObject::TryGetObjectField`: the field exists and holds an object. -/
def TryGetObjectField (Obj : FJsonObject) (FieldName : String) : Option FJsonObject :=
  match FindField Obj FieldName with
  | some (FJsonValue.Object o) => some o
  | _ => none

/-- Embeds `FJsonValue::AsObject`: the object of an object value; for every other
value the engine returns a valid pointer to an empty object, never a null
pointer. -/
def AsObject : FJsonValue → TSharedPtr FJsonObject
  | FJsonValue.Object o => some o
  | _ => some []

/-! ## Engine strings -/

/-- The characters of a text with every capital letter made small: what the
comparisons of the engine look at. -/
def FoldCase (Text : String) : List Char :=
  Text.toList.map Char.toLower

/-- Embeds the comparison `==` of `FString` with an `FString` or a literal, and
of `FName` with `FName`: it ignores case. -/
def FStringEquals (A B : String) : Prop :=
  FoldCase A = FoldCase B

instance FStringEquals.decidable (A B : String) : Decidable (FStringEquals A B) :=
  inferInstanceAs (Decidable (_ = _))

/-! ## The Blueprint object model -/

/-- The node classes the patch applier distinguishes with `Cast<>`. `K2Node` is
any other `UK2Node`, `EdGraphNode` a node that is not a `UK2Node`. -/
inductive ENodeClass where
  | K2Node_VariableGet
  | K2Node_VariableSet
  | K2Node_CallFunction
  | K2Node
  | EdGraphNode
  deriving DecidableEq

/-- A graph node (`UEdGraphNode`). `MemberName` is the variable or function the
node refers to (`GetVarName` / `SetFromFunction`); `Reconstructions` counts the
calls of `ReconstructNode`. -/
structure UEdGraphNode where
  Name : String
  NodeGuid : String
  Class : ENodeClass
  MemberName : String
  NodePosX : Int
  NodePosY : Int
  DefaultPinsAllocated : Bool
  Reconstructions : Nat
  deriving DecidableEq

/-- A graph (`UEdGraph`). -/
structure UEdGraph where
  Name : String
  Nodes : List UEdGraphNode
  deriving DecidableEq

/-- A member variable of a Blueprint (`FBPVariableDescription`). -/
structure FBPVariableDescription where
  VarName : String
  VarType : String
  deriving DecidableEq

/-- A Blueprint (`UBlueprint`). `Graphs` is what `GetAllGraphs` collects, in its
order; `Modified` is set by `FBlueprintEditorUtils::MarkBlueprintAsModified`. -/
structure UBlueprint where
  Name : String
  PathName : String
  NewVariables : List FBPVariableDescription
  Graphs : List UEdGraph
  Modified : Bool
  deriving DecidableEq

/-- An asset registry entry (`FAssetData`). `Asset` is the index of the Blueprint
the asset is, or `none` when the asset is not a `UBlueprint`. -/
structure FAssetData where
  ObjectPath : String
  Asset : Option Nat
  deriving DecidableEq

/-- The graph model the patch applier reads and mutates: the asset registry and
the loaded Blueprints in object-iterator order. -/
structure GraphModel where
  AssetRegistry : List FAssetData
  Blueprints : List UBlueprint
  deriving DecidableEq

/-! ## Editor services -/

/-- What the transaction system was asked to do. -/
inductive ETransactionEvent where
  | Begin : String → ETransactionEvent
  | End : ETransactionEvent
  | Cancel : ETransactionEvent
  deriving DecidableEq

/-- Modelled from the spec: the editor transaction primitive `FScopedTransaction`
(ScopedTransaction.h), the TransactionScope collaborator `begin(label)`,
`commit()`, `rollback()`. Its source is not part of the repository. A scope
records the graph model when it is begun; rollback (`Cancel`) discards all
mutations made since, commit (destruction without `Cancel`) keeps them. -/
structure FScopedTransaction where
  Description : String
  Saved : GraphModel
  deriving DecidableEq

/-- Log verbosity levels used with `UE_LOG`. -/
inductive ELogVerbosity where
  | Fatal
  | Error
  | Warning
  | Log
  | Verbose
  deriving DecidableEq

/-- A notification handed to `FSlateNotificationManager` (`FNotificationInfo`).
Durations are whole seconds. -/
structure FNotificationInfo where
  Text : String
  bFireAndForget : Bool
  FadeOutDuration : Nat
  ExpireDuration : Nat
  Image : String
  ButtonDetails : List String
  deriving DecidableEq

/-- The patch applier subsystem (`LastErrorMessage`, `CurrentTransaction`)
together with the editor state it works on. `Transactions` is the history of the
transaction system, `OutputLog` the lines written with `UE_LOG`, `Notifications`
the notifications shown, `GEditor` whether the editor pointer is set, and
`ObjectCounter` the number used to name the next object made with `NewObject`. -/
structure EditorState where
  LastErrorMessage : String
  CurrentTransaction : Option FScopedTransaction
  Model : GraphModel
  Transactions : List ETransactionEvent
  OutputLog : List (ELogVerbosity × String)
  Notifications : List FNotificationInfo
  GEditor : Bool
  ObjectCounter : Nat
  deriving DecidableEq

/-- Embeds `UE_LOG(LogTemp, Verbosity, Message)`: the line is appended to the log. -/
def UE_LOG (s : EditorState) (Verbosity : ELogVerbosity) (Message : String) : EditorState :=
  { s with OutputLog := s.OutputLog ++ [(Verbosity, Message)] }

/-! ## FSurrealPilotErrorHandler (SurrealPilotErrorHandler.cpp) -/

/-- Embeds `FString::Contains`, which ignores case when no search case is given. -/
def Contains (Text SubStr : String) : Bool :=
  decide (FoldCase SubStr <:+: FoldCase Text)

/-- Embeds `FSurrealPilotErrorHandler::ShowUserNotification`. -/
def ShowUserNotification (s : EditorState) (Message : String) (Duration : Nat)
    (NotificationType : String) : EditorState :=
  if s.GEditor = false then s
  else
    let Image :=
      if FStringEquals NotificationType "Error" then "MessageLog.Error"
      else if FStringEquals NotificationType "Warning" then "MessageLog.Warning"
      else "MessageLog.Note"
    let ButtonDetails :=
      if FStringEquals NotificationType "Error" ∧ Contains Message "credits" = true then
        ["Purchase Credits"]
      else []
    { s with Notifications := s.Notifications ++
        [{ Text := Message, bFireAndForget := decide (0 < Duration), FadeOutDuration := 1,
           ExpireDuration := Duration, Image := Image, ButtonDetails := ButtonDetails }] }

/-- Embeds `FSurrealPilotErrorHandler::LogError`. -/
def LogError (s : EditorState) (Error : String) (Severity : String) : EditorState :=
  if FStringEquals Severity "Error" then UE_LOG s ELogVerbosity.Error ("SurrealPilot: " ++ Error)
  else if FStringEquals Severity "Warning" then
    UE_LOG s ELogVerbosity.Warning ("SurrealPilot: " ++ Error)
  else if FStringEquals Severity "Verbose" then
    UE_LOG s ELogVerbosity.Verbose ("SurrealPilot: " ++ Error)
  else UE_LOG s ELogVerbosity.Log ("SurrealPilot: " ++ Error)

/-- Embeds `FSurrealPilotErrorHandler::HandlePatchError`. -/
def HandlePatchError (s : EditorState) (PatchJson : String) (Error : String) : EditorState :=
  let ErrorMessage := "Failed to apply AI patch: " ++ Error
  let s1 := LogError s ErrorMessage "Error"
  let s2 := LogError s1 ("Patch JSON: " ++ PatchJson) "Verbose"
  let s3 := ShowUserNotification s2 ErrorMessage 15 "Error"
  let DetailedMessage := "Patch application failed: " ++ Error ++
    "\n\nSuggestions:\n• Check if the target Blueprint is open\n• Verify the Blueprint hasn\x27t been modified\n• Try exporting fresh context from UE"
  ShowUserNotification s3 DetailedMessage 20 "Warning"

/-! ## UPatchApplier (PatchApplier.cpp) -/

/-- Embeds `UPatchApplier::SetLastError`. -/
def SetLastError (s : EditorState) (ErrorMessage : String) : EditorState :=
  UE_LOG { s with LastErrorMessage := ErrorMessage } ELogVerbosity.Error
    ("PatchApplier Error: " ++ ErrorMessage)

/-- Embeds `UPatchApplier::GetLastError`. -/
def GetLastError (s : EditorState) : String :=
  s.LastErrorMessage

/-- Embeds `UPatchApplier::EndTransaction`: destroying the scope without `Cancel`
commits it. -/
def EndTransaction (s : EditorState) : EditorState :=
  match s.CurrentTransaction with
  | some _ => { s with CurrentTransaction := none,
                       Transactions := s.Transactions ++ [ETransactionEvent.End] }
  | none => s

/-- Embeds `UPatchApplier::BeginTransaction`. -/
def BeginTransaction (s : EditorState) (Description : String) : EditorState :=
  let s1 := if s.CurrentTransaction.isSome then EndTransaction s else s
  { s1 with CurrentTransaction := some { Description := Description, Saved := s1.Model },
            Transactions := s1.Transactions ++ [ETransactionEvent.Begin Description] }

/-- Embeds `UPatchApplier::CancelTransaction`: `Cancel()` rolls the scope back, then the
pointer is reset. -/
def CancelTransaction (s : EditorState) : EditorState :=
  match s.CurrentTransaction with
  | some Transaction => { s with Model := Transaction.Saved, CurrentTransaction := none,
                                 Transactions := s.Transactions ++ [ETransactionEvent.Cancel] }
  | none => s

/-- Embeds `UPatchApplier::LogPatchOperation`. -/
def LogPatchOperation (s : EditorState) (Operation : TSharedPtr FJsonObject)
    (Success : Bool) : EditorState :=
  match Operation with
  | none => s
  | some Op =>
    let OperationType := (TryGetStringField Op "type").getD ""
    let BlueprintPath := (TryGetStringField Op "blueprint").getD ""
    if Success then
      UE_LOG s ELogVerbosity.Log ("Successfully applied patch operation \x27" ++ OperationType ++
        "\x27 to blueprint \x27" ++ BlueprintPath ++ "\x27")
    else
      UE_LOG s ELogVerbosity.Warning ("Failed to apply patch operation \x27" ++ OperationType ++
        "\x27 to blueprint \x27" ++ BlueprintPath ++ "\x27")

/-- The loop over `*OperationsArray` in `ParsePatchOperations`. -/
def CollectOperations : List FJsonValue → List (TSharedPtr FJsonObject)
  | [] => []
  | OpValue :: rest =>
    match AsObject OpValue with
    | some OpObject => some OpObject :: CollectOperations rest
    | none => CollectOperations rest

/-- Embeds `UPatchApplier::ParsePatchOperations`. -/
def ParsePatchOperations (Deserialize : FDeserialize) (s : EditorState) (PatchJson : String) :
    List (TSharedPtr FJsonObject) × EditorState :=
  match Deserialize PatchJson with
  | (true, some JsonObject) =>
    if HasField JsonObject "operations" then
      match TryGetArrayField JsonObject "operations" with
      | some OperationsArray => (CollectOperations OperationsArray, s)
      | none => ([], s)
    else if HasField JsonObject "type" then ([some JsonObject], s)
    else ([], s)
  | _ => ([], SetLastError s "Invalid JSON format")

/-- The search of `FindBlueprint` through the loaded Blueprints; `i` is the index
of the head of the list. -/
def FindLoadedBlueprint : List UBlueprint → Nat → String → Option (Nat × UBlueprint)
  | [], _, _ => none
  | Blueprint :: rest, i, BlueprintPath =>
    if FStringEquals Blueprint.Name BlueprintPath ∨
        FStringEquals Blueprint.PathName BlueprintPath then some (i, Blueprint)
    else FindLoadedBlueprint rest (i + 1) BlueprintPath

/-- Embeds `IAssetRegistry::GetAssetByObjectPath`; object paths are names and
compare ignoring case. -/
def GetAssetByObjectPath : List FAssetData → String → Option FAssetData
  | [], _ => none
  | AssetData :: rest, ObjectPath =>
    if FStringEquals AssetData.ObjectPath ObjectPath then some AssetData
    else GetAssetByObjectPath rest ObjectPath

/-- Embeds `UPatchApplier::FindBlueprint`: the Blueprint pointer is the index of the
Blueprint together with the Blueprint it points to. -/
def FindBlueprint (m : GraphModel) (BlueprintPath : String) : Option (Nat × UBlueprint) :=
  match GetAssetByObjectPath m.AssetRegistry BlueprintPath with
  | some AssetData =>
    match AssetData.Asset with
    | some i => m.Blueprints[i]?.map (fun Blueprint => (i, Blueprint))
    | none => none
  | none => FindLoadedBlueprint m.Blueprints 0 BlueprintPath

/-- The loop of `FindVariable` over `NewVariables`: the index of the first
variable with the name. -/
def FindVariableIn : List FBPVariableDescription → String → Option Nat
  | [], _ => none
  | Variable :: rest, VariableName =>
    if FStringEquals Variable.VarName VariableName then some 0
    else (FindVariableIn rest VariableName).map (· + 1)

/-- Embeds `UPatchApplier::FindVariable`. -/
def FindVariable (Blueprint : Option UBlueprint) (VariableName : String) : Option Nat :=
  match Blueprint with
  | none => none
  | some bp => FindVariableIn bp.NewVariables VariableName

/-- The inner loop of `FindNode` over `Graph->Nodes`: the index of the first
`UK2Node` whose name or GUID is the identifier. -/
def FindNodeIn : List UEdGraphNode → String → Option Nat
  | [], _ => none
  | Node :: rest, NodeIdentifier =>
    if Node.Class ≠ ENodeClass.EdGraphNode ∧
        (FStringEquals Node.Name NodeIdentifier ∨
          FStringEquals Node.NodeGuid NodeIdentifier) then some 0
    else (FindNodeIn rest NodeIdentifier).map (· + 1)

/-- The outer loop of `FindNode` over the graphs: the graph index and the node
index of the first match. -/
def FindNodeInGraphs : List UEdGraph → String → Option (Nat × Nat)
  | [], _ => none
  | Graph :: rest, NodeIdentifier =>
    match FindNodeIn Graph.Nodes NodeIdentifier with
    | some n => some (0, n)
    | none => (FindNodeInGraphs rest NodeIdentifier).map (fun p => (p.1 + 1, p.2))

/-- Embeds `UPatchApplier::FindNode`. -/
def FindNode (Blueprint : Option UBlueprint) (NodeIdentifier : String) : Option (Nat × Nat) :=
  match Blueprint with
  | none => none
  | some bp => FindNodeInGraphs bp.Graphs NodeIdentifier

/-- Embeds `FBlueprintEditorUtils::MarkBlueprintAsModified`. -/
def MarkBlueprintAsModified (Blueprint : UBlueprint) : UBlueprint :=
  { Blueprint with Modified := true }

/-- Store a Blueprint back through its pointer. -/
def StoreBlueprint (s : EditorState) (i : Nat) (Blueprint : UBlueprint) : EditorState :=
  { s with Model := { s.Model with Blueprints := s.Model.Blueprints.set i Blueprint } }

/-- The body of the node loop in `ApplyVariableRename`: a variable-get or
variable-set node that refers to the old name is pointed at the new name and
reconstructed. -/
def UpdateVariableReference (OldName NewName : String) (Node : UEdGraphNode) : UEdGraphNode :=
  if Node.Class = ENodeClass.K2Node_VariableGet then
    if FStringEquals Node.MemberName OldName then
      { Node with MemberName := NewName, Reconstructions := Node.Reconstructions + 1 }
    else Node
  else if Node.Class = ENodeClass.K2Node_VariableSet then
    if FStringEquals Node.MemberName OldName then
      { Node with MemberName := NewName, Reconstructions := Node.Reconstructions + 1 }
    else Node
  else Node

/-- The loops of `ApplyVariableRename` over all graphs and their nodes. -/
def UpdateVariableReferences (OldName NewName : String) (AllGraphs : List UEdGraph) :
    List UEdGraph :=
  AllGraphs.map (fun Graph =>
    { Graph with Nodes := Graph.Nodes.map (UpdateVariableReference OldName NewName) })

/-- The assignment `Variable->VarName = FName(*NewName)` through the pointer
`FindVariable` returned. -/
def SetVarName (Variables : List FBPVariableDescription) (Variable : Nat) (NewName : String) :
    List FBPVariableDescription :=
  match Variables[Variable]? with
  | some v => Variables.set Variable { v with VarName := NewName }
  | none => Variables

/-- Embeds `UPatchApplier::ApplyVariableRename`. -/
def ApplyVariableRename (s : EditorState) (Operation : FJsonObject) : Bool × EditorState :=
  match TryGetStringField Operation "blueprint", TryGetStringField Operation "old_name",
      TryGetStringField Operation "new_name" with
  | some BlueprintPath, some OldName, some NewName =>
    match FindBlueprint s.Model BlueprintPath with
    | none => (false, SetLastError s ("Blueprint not found: " ++ BlueprintPath))
    | some (i, Blueprint) =>
      match FindVariable (some Blueprint) OldName with
      | none => (false, SetLastError s ("Variable not found: " ++ OldName))
      | some Variable =>
        let Blueprint1 :=
          { Blueprint with NewVariables := SetVarName Blueprint.NewVariables Variable NewName }
        let Blueprint2 :=
          { Blueprint1 with Graphs := UpdateVariableReferences OldName NewName Blueprint1.Graphs }
        let s1 := StoreBlueprint s i (MarkBlueprintAsModified Blueprint2)
        (true, UE_LOG s1 ELogVerbosity.Log ("Renamed variable \x27" ++ OldName ++ "\x27 to \x27" ++
          NewName ++ "\x27 in blueprint \x27" ++ BlueprintPath ++ "\x27"))
  | _, _, _ => (false, SetLastError s "Variable rename operation missing required fields")

/-- The graph search of `ApplyNodeAddition`: the first graph with the name, as
its index and the graph; `g` is the index of the head of the list. -/
def FindGraphIn : List UEdGraph → Nat → String → Option (Nat × UEdGraph)
  | [], _, _ => none
  | Graph :: rest, g, GraphName =>
    if FStringEquals Graph.Name GraphName then some (g, Graph)
    else FindGraphIn rest (g + 1) GraphName

/-- Embeds `NewObject<Class>(TargetGraph)` followed by `SetFromFunction(Name)`: a fresh
node of the class, named after the class and the object counter, with an unset
GUID, referring to the given member. -/
def NewObject (s : EditorState) (Class : ENodeClass) (ClassName : String)
    (MemberName : String) : UEdGraphNode × EditorState :=
  ({ Name := ClassName ++ "_" ++ toString s.ObjectCounter,
     NodeGuid := "00000000000000000000000000000000",
     Class := Class, MemberName := MemberName, NodePosX := 0, NodePosY := 0,
     DefaultPinsAllocated := false, Reconstructions := 0 },
   { s with ObjectCounter := s.ObjectCounter + 1 })

/-- The node creation part of `ApplyNodeAddition`: the new node, or a null
pointer when the type is not supported or its name field is missing. -/
def CreateNode (s : EditorState) (Operation : FJsonObject) (NodeType : String) :
    Option UEdGraphNode × EditorState :=
  if FStringEquals NodeType "VariableGet" then
    match TryGetStringField Operation "variable_name" with
    | some VariableName =>
      let r := NewObject s ENodeClass.K2Node_VariableGet "K2Node_VariableGet" VariableName
      (some r.1, r.2)
    | none => (none, s)
  else if FStringEquals NodeType "VariableSet" then
    match TryGetStringField Operation "variable_name" with
    | some VariableName =>
      let r := NewObject s ENodeClass.K2Node_VariableSet "K2Node_VariableSet" VariableName
      (some r.1, r.2)
    | none => (none, s)
  else if FStringEquals NodeType "FunctionCall" then
    match TryGetStringField Operation "function_name" with
    | some FunctionName =>
      let r := NewObject s ENodeClass.K2Node_CallFunction "K2Node_CallFunction" FunctionName
      (some r.1, r.2)
    | none => (none, s)
  else (none, s)

/-- The position of the new node in `ApplyNodeAddition` (an `FVector2D`, a pair
of `double`): the `position` object when both its `x` and its `y` can be read as
numbers, the origin otherwise. -/
def NodePosition (Operation : FJsonObject) : FDouble × FDouble :=
  match TryGetObjectField Operation "position" with
  | some PositionObj =>
    match TryGetNumberField PositionObj "x", TryGetNumberField PositionObj "y" with
    | some X, some Y => (X, Y)
    | _, _ => (FDouble.OfInt 0, FDouble.OfInt 0)
  | none => (FDouble.OfInt 0, FDouble.OfInt 0)

/-- Embeds `UPatchApplier::ApplyNodeAddition`. The assignments to the `int32`
members `NodePosX` and `NodePosY` convert the `double` coordinates. -/
def ApplyNodeAddition (s : EditorState) (Operation : FJsonObject) : Bool × EditorState :=
  match TryGetStringField Operation "blueprint", TryGetStringField Operation "node_type" with
  | some BlueprintPath, some NodeType =>
    let GraphName := (TryGetStringField Operation "graph").getD "EventGraph"
    match FindBlueprint s.Model BlueprintPath with
    | none => (false, SetLastError s ("Blueprint not found: " ++ BlueprintPath))
    | some (i, Blueprint) =>
      match FindGraphIn Blueprint.Graphs 0 GraphName with
      | none => (false, SetLastError s ("Graph not found: " ++ GraphName))
      | some (g, TargetGraph) =>
        let Position := NodePosition Operation
        let Created := CreateNode s Operation NodeType
        match Created.1 with
        | none => (false, SetLastError Created.2 ("Failed to create node of type: " ++ NodeType))
        | some NewNode =>
          let Node : UEdGraphNode :=
            { NewNode with NodePosX := DoubleToInt32 Position.1,
                           NodePosY := DoubleToInt32 Position.2,
                           DefaultPinsAllocated := true,
                           Reconstructions := NewNode.Reconstructions + 1 }
          let Graph : UEdGraph := { TargetGraph with Nodes := TargetGraph.Nodes ++ [Node] }
          let Blueprint1 := { Blueprint with Graphs := Blueprint.Graphs.set g Graph }
          let s1 := StoreBlueprint Created.2 i (MarkBlueprintAsModified Blueprint1)
          (true, UE_LOG s1 ELogVerbosity.Log ("Added node of type \x27" ++ NodeType ++
            "\x27 to graph \x27" ++ GraphName ++ "\x27 in blueprint \x27" ++ BlueprintPath ++ "\x27"))
  | _, _ => (false, SetLastError s "Node addition operation missing required fields")

/-- Embeds `UPatchApplier::ApplyNodeModification`. -/
def ApplyNodeModification (s : EditorState) (_Operation : FJsonObject) : Bool × EditorState :=
  (false, SetLastError s "Node modification not yet implemented")

/-- Embeds `UPatchApplier::ApplyNodeDeletion`. The node pointer is the pair of the graph
index and the node index; `GetGraph()` is the graph the node was found in. -/
def ApplyNodeDeletion (s : EditorState) (Operation : FJsonObject) : Bool × EditorState :=
  match TryGetStringField Operation "blueprint", TryGetStringField Operation "node_id" with
  | some BlueprintPath, some NodeId =>
    match FindBlueprint s.Model BlueprintPath with
    | none => (false, SetLastError s ("Blueprint not found: " ++ BlueprintPath))
    | some (i, Blueprint) =>
      match FindNode (some Blueprint) NodeId with
      | none => (false, SetLastError s ("Node not found: " ++ NodeId))
      | some NodeToDelete =>
        match Blueprint.Graphs[NodeToDelete.1]? with
        | some Graph =>
          let Graph1 : UEdGraph := { Graph with Nodes := Graph.Nodes.eraseIdx NodeToDelete.2 }
          let Blueprint1 := { Blueprint with Graphs := Blueprint.Graphs.set NodeToDelete.1 Graph1 }
          let s1 := StoreBlueprint s i (MarkBlueprintAsModified Blueprint1)
          (true, UE_LOG s1 ELogVerbosity.Log ("Deleted node \x27" ++ NodeId ++
            "\x27 from blueprint \x27" ++ BlueprintPath ++ "\x27"))
        | none => (false, SetLastError s "Failed to remove node from graph")
  | _, _ => (false, SetLastError s "Node deletion operation missing required fields")

/-- Embeds `UPatchApplier::ApplyConnectionOperation`. -/
def ApplyConnectionOperation (s : EditorState) (_Operation : FJsonObject) : Bool × EditorState :=
  (false, SetLastError s "Connection operations not yet implemented")

/-- Embeds `UPatchApplier::ApplyPatchOperation`. -/
def ApplyPatchOperation (s : EditorState) (Operation : TSharedPtr FJsonObject) :
    Bool × EditorState :=
  match Operation with
  | none => (false, SetLastError s "Invalid operation object")
  | some Op =>
    match TryGetStringField Op "type" with
    | none => (false, SetLastError s "Operation missing \x27type\x27 field")
    | some OperationType =>
      let s1 := LogPatchOperation s Operation false
      if FStringEquals OperationType "variable_rename" then
        let r := ApplyVariableRename s1 Op
        (r.1, LogPatchOperation r.2 Operation r.1)
      else if FStringEquals OperationType "node_add" then
        let r := ApplyNodeAddition s1 Op
        (r.1, LogPatchOperation r.2 Operation r.1)
      else if FStringEquals OperationType "node_modify" then
        let r := ApplyNodeModification s1 Op
        (r.1, LogPatchOperation r.2 Operation r.1)
      else if FStringEquals OperationType "node_delete" then
        let r := ApplyNodeDeletion s1 Op
        (r.1, LogPatchOperation r.2 Operation r.1)
      else if FStringEquals OperationType "connection_add" ∨
          FStringEquals OperationType "connection_remove" then
        let r := ApplyConnectionOperation s1 Op
        (r.1, LogPatchOperation r.2 Operation r.1)
      else (false, SetLastError s1 ("Unknown operation type: " ++ OperationType))

/-- Embeds `UPatchApplier::ValidatePatchOperation`. -/
def ValidatePatchOperation (s : EditorState) (Operation : TSharedPtr FJsonObject) :
    Bool × EditorState :=
  match Operation with
  | none => (false, SetLastError s "Invalid operation object")
  | some Op =>
    match TryGetStringField Op "type" with
    | none => (false, SetLastError s "Operation missing \x27type\x27 field")
    | some OperationType =>
      match TryGetStringField Op "blueprint" with
      | none => (false, SetLastError s "Operation missing \x27blueprint\x27 field")
      | some BlueprintPath =>
        match FindBlueprint s.Model BlueprintPath with
        | none => (false, SetLastError s ("Blueprint not found: " ++ BlueprintPath))
        | some (_, Blueprint) =>
          if FStringEquals OperationType "variable_rename" then
            match TryGetStringField Op "old_name", TryGetStringField Op "new_name" with
            | some OldName, some _ =>
              match FindVariable (some Blueprint) OldName with
              | none => (false, SetLastError s ("Variable not found: " ++ OldName))
              | some _ => (true, s)
            | _, _ =>
              (false, SetLastError s "Variable rename operation missing old_name or new_name")
          else if FStringEquals OperationType "node_add" then
            match TryGetStringField Op "node_type" with
            | none => (false, SetLastError s "Node addition operation missing node_type")
            | some _ => (true, s)
          else (true, s)

/-- The loop of `ApplyJsonPatch` over the operations: it stops at the first
operation that fails. The flag is `bAllSucceeded`. -/
def ApplyOperations : EditorState → List (TSharedPtr FJsonObject) → Bool × EditorState
  | s, [] => (true, s)
  | s, Operation :: rest =>
    let r := ApplyPatchOperation s Operation
    if r.1 then ApplyOperations r.2 rest
    else (false, UE_LOG r.2 ELogVerbosity.Error "Failed to apply patch operation")

/-- Embeds `UPatchApplier::ApplyJsonPatch`. -/
def ApplyJsonPatch (Deserialize : FDeserialize) (s : EditorState) (PatchJson : String) :
    Bool × EditorState :=
  let s0 := { s with LastErrorMessage := "" }
  let Parsed := ParsePatchOperations Deserialize s0 PatchJson
  if Parsed.1.length = 0 then
    (false, SetLastError Parsed.2 "No valid operations found in patch JSON")
  else
    let s1 := BeginTransaction Parsed.2 "Apply AI Patch"
    let r := ApplyOperations s1 Parsed.1
    if r.1 then
      let s2 := EndTransaction r.2
      let s3 := UE_LOG s2 ELogVerbosity.Log
        ("Successfully applied patch with " ++ toString Parsed.1.length ++ " operations")
      (true, ShowUserNotification s3
        ("Successfully applied AI patch with " ++ toString Parsed.1.length ++ " operations")
        5 "Info")
    else
      let s2 := CancelTransaction r.2
      (false, HandlePatchError s2 PatchJson s2.LastErrorMessage)

/-- The loop of `CanApplyPatch` over the operations: it returns at the first
operation that does not validate. -/
def ValidateOperations : EditorState → List (TSharedPtr FJsonObject) → Bool × EditorState
  | s, [] => (true, s)
  | s, Operation :: rest =>
    let r := ValidatePatchOperation s Operation
    if r.1 then ValidateOperations r.2 rest
    else (false, r.2)

/-- Embeds `UPatchApplier::CanApplyPatch`. -/
def CanApplyPatch (Deserialize : FDeserialize) (s : EditorState) (PatchJson : String) :
    Bool × EditorState :=
  let s0 := { s with LastErrorMessage := "" }
  let Parsed := ParsePatchOperations Deserialize s0 PatchJson
  if Parsed.1.length = 0 then
    (false, SetLastError Parsed.2 "No valid operations found in patch JSON")
  else ValidateOperations Parsed.2 Parsed.1

/-! ## Sample documents and states -/

/-- A Blueprint `TestBlueprint` with the variable `OldVar`, and an `EventGraph`
holding a variable-get node on `OldVar`, a variable-set node on `Health` and an
event node. -/
def SampleBlueprint : UBlueprint :=
  { Name := "TestBlueprint", PathName := "/Game/TestBlueprint.TestBlueprint",
    NewVariables := [{ VarName := "OldVar", VarType := "float" },
                     { VarName := "Health", VarType := "int" }],
    Graphs := [{ Name := "EventGraph",
                 Nodes := [{ Name := "K2Node_VariableGet_0", NodeGuid := "A1", 
                             Class := ENodeClass.K2Node_VariableGet, MemberName := "OldVar",
                             NodePosX := 0, NodePosY := 0, DefaultPinsAllocated := true,
                             Reconstructions := 0 },
                           { Name := "K2Node_VariableSet_0", NodeGuid := "A2",
                             Class := ENodeClass.K2Node_VariableSet, MemberName := "Health",
                             NodePosX := 10, NodePosY := 0, DefaultPinsAllocated := true,
                             Reconstructions := 0 },
                           { Name := "K2Node_Event_0", NodeGuid := "A3",
                             Class := ENodeClass.K2Node, MemberName := "",
                             NodePosX := 20, NodePosY := 0, DefaultPinsAllocated := true,
                             Reconstructions := 0 }] }],
    Modified := false }

/-- An editor with `SampleBlueprint` loaded, no open transaction and a stale
error message left by an earlier call. -/
def SampleState : EditorState :=
  { LastErrorMessage := "stale", CurrentTransaction := none,
    Model := { AssetRegistry := [], Blueprints := [SampleBlueprint] },
    Transactions := [], OutputLog := [], Notifications := [], GEditor := true,
    ObjectCounter := 1 }

/-- The operation `variable_rename` of `OldVar` to `NewVar` on `TestBlueprint`. -/
def RenameOp : FJsonObject :=
  [("type", FJsonValue.String "variable_rename" none), ("blueprint", FJsonValue.String "TestBlueprint" none),
   ("old_name", FJsonValue.String "OldVar" none), ("new_name", FJsonValue.String "NewVar" none)]

/-- The operation `node_delete` of a node that does not exist. -/
def DeleteMissingOp : FJsonObject :=
  [("type", FJsonValue.String "node_delete" none), ("blueprint", FJsonValue.String "TestBlueprint" none),
   ("node_id", FJsonValue.String "NoSuchNode" none)]

/-- The operation `variable_rename` of `Health` to `OldVar` on `TestBlueprint`:
the new name is the name of another variable. -/
def RenameHealthOp : FJsonObject :=
  [("type", FJsonValue.String "variable_rename" none), ("blueprint", FJsonValue.String "TestBlueprint" none),
   ("old_name", FJsonValue.String "Health" none), ("new_name", FJsonValue.String "OldVar" none)]

/-- The names in the variable tables of the Blueprints of a state. -/
def VariableNames (s : EditorState) : List (List String) :=
  s.Model.Blueprints.map (fun Blueprint => Blueprint.NewVariables.map (fun v => v.VarName))

/-- A deserializer for the sample documents: `"rename"` is the single rename
operation, `"rename+delete"` the batch of the rename and the deletion of a
missing node, `"delete+rename"` the batch of that
deletion and the rename, `"\x7b\x7d"` the empty object; every other text is
rejected. -/
def SampleDeserialize : FDeserialize := fun PatchJson =>
  if PatchJson = "rename" then (true, some RenameOp)
  else if PatchJson = "rename+delete" then
    (true, some [("operations", FJsonValue.Array
      [FJsonValue.Object RenameOp, FJsonValue.Object DeleteMissingOp])])
  else if PatchJson = "delete+rename" then
    (true, some [("operations", FJsonValue.Array
      [FJsonValue.Object DeleteMissingOp, FJsonValue.Object RenameOp])])
  else if PatchJson = "\x7b\x7d" then (true, some [])
  else (false, none)

/-! ## Notions used to state the properties -/

/-- The state with another last error. -/
abbrev WithError (s : EditorState) (e : String) : EditorState :=
  { s with LastErrorMessage := e }

/-- The operations `ApplyJsonPatch` and `CanApplyPatch` obtain from the patch
text: what `ParsePatchOperations` returns once the last error is cleared. -/
def ParsedOperations (Deserialize : FDeserialize) (s : EditorState) (PatchJson : String) :
    List (TSharedPtr FJsonObject) :=
  (ParsePatchOperations Deserialize (WithError s "") PatchJson).1

/-- The state in which `ApplyJsonPatch` applies the first operation: the last
error is cleared, the text is parsed and the transaction is begun. -/
def ApplyStart (Deserialize : FDeserialize) (s : EditorState) (PatchJson : String) :
    EditorState :=
  BeginTransaction (ParsePatchOperations Deserialize (WithError s "") PatchJson).2 "Apply AI Patch"

/-- The state in which `CanApplyPatch` validates the first operation: the last
error is cleared and the text is parsed. -/
def ValidateStart (Deserialize : FDeserialize) (s : EditorState) (PatchJson : String) :
    EditorState :=
  (ParsePatchOperations Deserialize (WithError s "") PatchJson).2

/-- The object-valued elements of a JSON array, in array order. -/
def ObjectElements (Values : List FJsonValue) : List FJsonObject :=
  Values.filterMap (fun v => match v with
    | FJsonValue.Object o => some o
    | _ => none)

/-- Every operation of the list succeeds when the operations are applied in
order, each to the state the one before it left. -/
def AllSucceed : EditorState → List (TSharedPtr FJsonObject) → Prop
  | _, [] => True
  | s, Operation :: rest =>
    (ApplyPatchOperation s Operation).1 = true ∧ AllSucceed (ApplyPatchOperation s Operation).2 rest

instance AllSucceed.decidable : (s : EditorState) → (ops : List (TSharedPtr FJsonObject)) →
    Decidable (AllSucceed s ops)
  | _, [] => isTrue trivial
  | s, Operation :: rest =>
    @instDecidableAnd _ _ _ (AllSucceed.decidable (ApplyPatchOperation s Operation).2 rest)

/-- The state after the operations of the list have been applied in order, while
they succeed. -/
def StateAfter : EditorState → List (TSharedPtr FJsonObject) → EditorState
  | s, [] => s
  | s, Operation :: rest => StateAfter (ApplyPatchOperation s Operation).2 rest

/-- What a routine does to the last error: when it succeeds it leaves it, when
it fails it sets a non-empty reason. -/
def KeepsOrSetsError (s : EditorState) (r : Bool × EditorState) : Prop :=
  (r.1 = true → r.2.LastErrorMessage = s.LastErrorMessage) ∧
  (r.1 = false → r.2.LastErrorMessage ≠ "")

/-- The outcome of a routine started with another last error: the same verdict,
and on failure the same state, on success the state with the other error. -/
def OutcomeWithError (r : Bool × EditorState) (e : String) : Bool × EditorState :=
  (r.1, if r.1 then WithError r.2 e else r.2)

/-- The editor services no apply or validate routine touches: the open
transaction, the transaction history, the notifications and the editor pointer. -/
def SameServices (s t : EditorState) : Prop :=
  t.CurrentTransaction = s.CurrentTransaction ∧ t.Transactions = s.Transactions ∧
  t.Notifications = s.Notifications ∧ t.GEditor = s.GEditor

/-! ## Further sample documents and notions -/

/-- A deserializer that reads every text as the given document. -/
def DeserializeAs (Document : FJsonObject) : FDeserialize :=
  fun _ => (true, some Document)

/-- The bindings of the nodes of a Blueprint: for every graph, in order, the
names its nodes refer to, in order. -/
def NodeBindings (Blueprint : UBlueprint) : List (List String) :=
  Blueprint.Graphs.map (fun Graph => Graph.Nodes.map (fun Node => Node.MemberName))

/-- The test of `FindNode` on one node: the node is a `UK2Node` and its name or
its GUID is the identifier, as the engine compares texts. -/
def IsNodeMatch (NodeIdentifier : String) (Node : UEdGraphNode) : Prop :=
  Node.Class ≠ ENodeClass.EdGraphNode ∧
    (FStringEquals Node.Name NodeIdentifier ∨ FStringEquals Node.NodeGuid NodeIdentifier)

instance IsNodeMatch.decidable (NodeIdentifier : String) (Node : UEdGraphNode) :
    Decidable (IsNodeMatch NodeIdentifier Node) :=
  inferInstanceAs (Decidable (_ ∧ _))

/-- The graph name a `node_add` operation targets: the `graph` field, or
`EventGraph` when there is none. -/
def TargetGraphName (Operation : FJsonObject) : String :=
  (TryGetStringField Operation "graph").getD "EventGraph"

/-- The node type of a `node_add` operation is supported and the name field it
needs is there: `VariableGet` or `VariableSet` with `variable_name`, or
`FunctionCall` with `function_name`. -/
def IsSupportedNode (Operation : FJsonObject) (NodeType : String) : Prop :=
  ((FStringEquals NodeType "VariableGet" ∨ FStringEquals NodeType "VariableSet") ∧
      (TryGetStringField Operation "variable_name").isSome = true) ∨
    (FStringEquals NodeType "FunctionCall" ∧
      (TryGetStringField Operation "function_name").isSome = true)

instance IsSupportedNode.decidable (Operation : FJsonObject) (NodeType : String) :
    Decidable (IsSupportedNode Operation NodeType) :=
  inferInstanceAs (Decidable (_ ∨ _))

/-- The operation `variable_rename` of `Health` to `PlayerHealth` on
`TestBlueprint`. -/
def HealthRenameOp : FJsonObject :=
  [("type", FJsonValue.String "variable_rename" none), ("blueprint", FJsonValue.String "TestBlueprint" none),
   ("old_name", FJsonValue.String "Health" none), ("new_name", FJsonValue.String "PlayerHealth" none),
   ("description", FJsonValue.String "Rename for clarity" none)]

/-- The operation `node_add` of a variable-get node on `Health` in `EventGraph`
at position (100, 200). -/
def NodeAddOp : FJsonObject :=
  [("type", FJsonValue.String "node_add" none), ("blueprint", FJsonValue.String "TestBlueprint" none),
   ("node_type", FJsonValue.String "VariableGet" none), ("variable_name", FJsonValue.String "Health" none),
   ("graph", FJsonValue.String "EventGraph" none),
   ("position", FJsonValue.Object [("x", FJsonValue.Number (FDouble.OfInt 100) "100"),
     ("y", FJsonValue.Number (FDouble.OfInt 200) "200")])]

/-- The operation `node_add` of a variable-get node in a graph the Blueprint
does not have. -/
def NodeAddNoGraphOp : FJsonObject :=
  [("type", FJsonValue.String "node_add" none), ("blueprint", FJsonValue.String "TestBlueprint" none),
   ("node_type", FJsonValue.String "VariableGet" none), ("variable_name", FJsonValue.String "Health" none),
   ("graph", FJsonValue.String "NoSuchGraph" none)]

/-- The operation `node_modify` on `TestBlueprint`. -/
def NodeModifyOp : FJsonObject :=
  [("type", FJsonValue.String "node_modify" none), ("blueprint", FJsonValue.String "TestBlueprint" none),
   ("node_id", FJsonValue.String "K2Node_VariableGet_0" none)]

/-- The operation `node_delete` of the variable-set node of the sample Blueprint. -/
def DeleteSetNodeOp : FJsonObject :=
  [("type", FJsonValue.String "node_delete" none), ("blueprint", FJsonValue.String "TestBlueprint" none),
   ("node_id", FJsonValue.String "K2Node_VariableSet_0" none)]

/-- The operation `node_delete` of the node named `EdGraphNode_Comment_0`. -/
def DeleteCommentOp : FJsonObject :=
  [("type", FJsonValue.String "node_delete" none), ("blueprint", FJsonValue.String "TestBlueprint" none),
   ("node_id", FJsonValue.String "EdGraphNode_Comment_0" none)]

/-- An operation whose type is not one of the six kinds. -/
def UnknownTypeOp : FJsonObject :=
  [("type", FJsonValue.String "frobnicate" none), ("blueprint", FJsonValue.String "TestBlueprint" none)]

/-- An operation that names a Blueprint that does not exist, and lacks the name
fields a rename needs. -/
def MissingBlueprintOp : FJsonObject :=
  [("type", FJsonValue.String "variable_rename" none), ("blueprint", FJsonValue.String "/Game/Nowhere" none)]

/-- A comment box named `EdGraphNode_Comment_0`: a graph node that is not a
`UK2Node`. -/
def CommentNode : UEdGraphNode :=
  { Name := "EdGraphNode_Comment_0", NodeGuid := "C0", Class := ENodeClass.EdGraphNode,
    MemberName := "", NodePosX := 0, NodePosY := 0, DefaultPinsAllocated := false,
    Reconstructions := 0 }

/-- The sample editor with a comment box in front of the nodes of `EventGraph`. -/
def CommentState : EditorState :=
  { SampleState with
    Model := { AssetRegistry := [],
               Blueprints := [{ SampleBlueprint with
                 Graphs := SampleBlueprint.Graphs.map (fun Graph =>
                   { Graph with Nodes := CommentNode :: Graph.Nodes }) }] } }

/-! ## FSurrealPilotOutputDevice and UBuildErrorCapture (BuildErrorCapture.cpp) -/

/-- The output device that captures build messages
(`FSurrealPilotOutputDevice`). `Registered` tells whether `GLog` holds the
device (`AddOutputDevice` / `RemoveOutputDevice`); `BuildLog` is what was
written with `UE_LOG(LogSurrealPilotBuild, ...)`. -/
structure FSurrealPilotOutputDevice where
  CapturedErrors : List String
  CapturedWarnings : List String
  bIsCapturing : Bool
  Registered : Bool
  BuildLog : List (ELogVerbosity × String)
  deriving DecidableEq

/-- The constructor of `FSurrealPilotOutputDevice`: not capturing, nothing
captured. -/
def FSurrealPilotOutputDevice.Construct : FSurrealPilotOutputDevice :=
  { CapturedErrors := [], CapturedWarnings := [], bIsCapturing := false, Registered := false,
    BuildLog := [] }

/-- Embeds `FSurrealPilotOutputDevice::IsCapturing`. -/
def FSurrealPilotOutputDevice.IsCapturing (Device : FSurrealPilotOutputDevice) : Bool :=
  Device.bIsCapturing

/-- Embeds `FSurrealPilotOutputDevice::Serialize`. The test `IsBuildMessage` and
the time stamp `FDateTime::Now().ToString()` are parameters. The log line the
device writes about a captured message has verbosity `Log`, which the device
does not capture, so it is only appended to the log. -/
def FSurrealPilotOutputDevice.Serialize (IsBuildMessage : String → String → Bool) (Now : String)
    (Device : FSurrealPilotOutputDevice) (V : String) (Verbosity : ELogVerbosity)
    (Category : String) : FSurrealPilotOutputDevice :=
  if Device.bIsCapturing = false then Device
  else if IsBuildMessage Category V = false then Device
  else if Verbosity = ELogVerbosity.Error ∨ Verbosity = ELogVerbosity.Fatal then
    let FormattedError := "[" ++ Now ++ "] " ++ Category ++ ": " ++ V
    { Device with CapturedErrors := Device.CapturedErrors ++ [FormattedError],
                  BuildLog := Device.BuildLog ++
                    [(ELogVerbosity.Log, "Captured build error: " ++ FormattedError)] }
  else if Verbosity = ELogVerbosity.Warning then
    let FormattedWarning := "[" ++ Now ++ "] " ++ Category ++ ": " ++ V
    { Device with CapturedWarnings := Device.CapturedWarnings ++ [FormattedWarning],
                  BuildLog := Device.BuildLog ++
                    [(ELogVerbosity.Log, "Captured build warning: " ++ FormattedWarning)] }
  else Device

/-- Writes a line with `UE_LOG(LogSurrealPilotBuild, Verbosity, Message)`: the
line is appended to the log, and `GLog` hands it to the device when the device
is registered. -/
def FSurrealPilotOutputDevice.LogBuild (IsBuildMessage : String → String → Bool) (Now : String)
    (Device : FSurrealPilotOutputDevice) (Verbosity : ELogVerbosity) (Message : String) :
    FSurrealPilotOutputDevice :=
  let Device1 := { Device with BuildLog := Device.BuildLog ++ [(Verbosity, Message)] }
  if Device1.Registered then
    FSurrealPilotOutputDevice.Serialize IsBuildMessage Now Device1 Message Verbosity
      "LogSurrealPilotBuild"
  else Device1

/-- Embeds `FSurrealPilotOutputDevice::ClearCaptured`. -/
def FSurrealPilotOutputDevice.ClearCaptured (Device : FSurrealPilotOutputDevice) :
    FSurrealPilotOutputDevice :=
  { Device with CapturedErrors := [], CapturedWarnings := [] }

/-- Embeds `FSurrealPilotOutputDevice::StartCapture`. -/
def FSurrealPilotOutputDevice.StartCapture (IsBuildMessage : String → String → Bool)
    (Now : String) (Device : FSurrealPilotOutputDevice) : FSurrealPilotOutputDevice :=
  if Device.bIsCapturing = false then
    let Device1 := { Device with bIsCapturing := true }
    let Device2 := FSurrealPilotOutputDevice.ClearCaptured Device1
    let Device3 := { Device2 with Registered := true }
    FSurrealPilotOutputDevice.LogBuild IsBuildMessage Now Device3 ELogVerbosity.Log
      "Started capturing build messages"
  else Device

/-- Embeds `FSurrealPilotOutputDevice::StopCapture`. -/
def FSurrealPilotOutputDevice.StopCapture (IsBuildMessage : String → String → Bool)
    (Now : String) (Device : FSurrealPilotOutputDevice) : FSurrealPilotOutputDevice :=
  if Device.bIsCapturing = true then
    let Device1 := { Device with bIsCapturing := false }
    let Device2 := { Device1 with Registered := false }
    FSurrealPilotOutputDevice.LogBuild IsBuildMessage Now Device2 ELogVerbosity.Log
      ("Stopped capturing build messages. Captured " ++
        toString Device2.CapturedErrors.length ++ " errors and " ++
        toString Device2.CapturedWarnings.length ++ " warnings")
  else Device

/-- The build error capture subsystem (`UBuildErrorCapture`): the pointer to its
output device, null before `Initialize`. -/
structure UBuildErrorCapture where
  OutputDevice : Option FSurrealPilotOutputDevice
  deriving DecidableEq

/-- Embeds `UBuildErrorCapture::Initialize`: the output device is made, and
`BindCompilationEvents` and `Initialize` each write a line to the log (the
subsystem belongs to the editor, so `GEditor` is set). The device is not yet
registered, so it does not see these lines. -/
def UBuildErrorCapture.Initialize (_Self : UBuildErrorCapture) : UBuildErrorCapture :=
  { OutputDevice := some
      { FSurrealPilotOutputDevice.Construct with
        BuildLog := [(ELogVerbosity.Log, "Build error capture events bound"),
                     (ELogVerbosity.Log, "BuildErrorCapture subsystem initialized")] } }

/-- Embeds `UBuildErrorCapture::StartCapture`. -/
def UBuildErrorCapture.StartCapture (IsBuildMessage : String → String → Bool) (Now : String)
    (Self : UBuildErrorCapture) : UBuildErrorCapture :=
  match Self.OutputDevice with
  | some Device =>
    { OutputDevice := some (FSurrealPilotOutputDevice.StartCapture IsBuildMessage Now Device) }
  | none => Self

/-- Embeds `UBuildErrorCapture::StopCapture`. -/
def UBuildErrorCapture.StopCapture (IsBuildMessage : String → String → Bool) (Now : String)
    (Self : UBuildErrorCapture) : UBuildErrorCapture :=
  match Self.OutputDevice with
  | some Device =>
    { OutputDevice := some (FSurrealPilotOutputDevice.StopCapture IsBuildMessage Now Device) }
  | none => Self

/-- Embeds `UBuildErrorCapture::IsCapturing`. -/
def UBuildErrorCapture.IsCapturing (Self : UBuildErrorCapture) : Bool :=
  match Self.OutputDevice with
  | some Device => Device.IsCapturing
  | none => false

/-! ## FHttpClient (HttpClient.cpp) -/

/-- Embeds `FString::Mid(Start)`: the text from position `Start` on. -/
def Mid (Text : String) (Start : Nat) : String :=
  String.mk (Text.toList.drop Start)

/-- The loop of `ParseSSEData` over the lines. The prefix test
`FString::StartsWith` and the comparison of `FString` with a literal (`!=` is
its negation) are engine functions and are parameters. -/
def CollectChunks (StartsWith Equals : String → String → Bool) : List String → List String
  | [] => []
  | Line :: rest =>
    if StartsWith Line "data: " = true then
      let Data := Mid Line 6
      if Data ≠ "" ∧ Equals Data "[DONE]" = false then
        Data :: CollectChunks StartsWith Equals rest
      else CollectChunks StartsWith Equals rest
    else CollectChunks StartsWith Equals rest

/-- Embeds `FHttpClient::ParseSSEData`. The line splitter
`FString::ParseIntoArrayLines` is a parameter, as are the prefix test and the
comparison. -/
def ParseSSEData (ParseIntoArrayLines : String → List String)
    (StartsWith Equals : String → String → Bool) (ResponseData : String) : List String :=
  CollectChunks StartsWith Equals (ParseIntoArrayLines ResponseData)

/-- The payloads of a list of lines, as a server-sent-events reader takes them:
of the lines that start with `data: `, in order, what follows these six
characters, leaving out the payloads that are empty or equal to `[DONE]`. -/
def DataPayloads (StartsWith Equals : String → String → Bool) (Lines : List String) :
    List String :=
  ((Lines.filter (fun Line => StartsWith Line "data: ")).map (fun Line => Mid Line 6)).filter
    (fun Data => decide (Data ≠ "" ∧ Equals Data "[DONE]" = false))

/-- A prefix test that ignores case, the way of the engine when no search case
is given. -/
def StartsWithIgnoreCase (Text Start : String) : Bool :=
  (Start.toList.map Char.toLower).isPrefixOf (Text.toList.map Char.toLower)

/-- A comparison that ignores case. -/
def EqualsIgnoreCase (A B : String) : Bool :=
  decide (A.toList.map Char.toLower = B.toList.map Char.toLower)

/-- A prefix test that compares the characters as they are. -/
def StartsWithCaseSensitive (Text Start : String) : Bool :=
  Start.toList.isPrefixOf Text.toList

/-- A comparison of the characters as they are. -/
def EqualsCaseSensitive (A B : String) : Bool :=
  decide (A = B)

/-- The lines of a list of characters, cut at every line feed; `Line` holds the
characters of the line being read, last first. -/
def SplitCharsAtLineFeeds : List Char → List Char → List String
  | [], Line => [String.mk Line.reverse]
  | c :: rest, Line =>
    if c = Char.ofNat 10 then String.mk Line.reverse :: SplitCharsAtLineFeeds rest []
    else SplitCharsAtLineFeeds rest (c :: Line)

/-- A splitter for the sample response: the text is cut at every line feed. -/
def SplitAtLineFeeds (Text : String) : List String :=
  SplitCharsAtLineFeeds Text.toList []

/-- A response of a streaming endpoint: two events, an empty line, a comment
line, an empty payload, an event line, a line with the prefix in capitals and
the end marker. -/
def SampleResponse : String :=
  "data: Hello\n\n: keep-alive\ndata: world\ndata: \nevent: done\nDATA: up\ndata: [DONE]"

/-! ## Notions and samples for the last claims -/

/-- The number of transaction scopes that are open after a history: every begin
opens one, every end and every cancel closes one. -/
def OpenScopes : List ETransactionEvent → Int
  | [] => 0
  | ETransactionEvent.Begin _ :: rest => OpenScopes rest + 1
  | ETransactionEvent.End :: rest => OpenScopes rest - 1
  | ETransactionEvent.Cancel :: rest => OpenScopes rest - 1

/-- The patch applier holds the scopes it opened: as many scopes are open as its
transaction pointer holds, one or none. -/
def HoldsItsScopes (s : EditorState) : Prop :=
  OpenScopes s.Transactions = if s.CurrentTransaction.isSome then 1 else 0

/-- A document whose `operations` array holds the rename, the number 7 and the
deletion of a missing node. -/
def MixedArrayDoc : FJsonObject :=
  [("operations", FJsonValue.Array
    [FJsonValue.Object RenameOp, FJsonValue.Number (FDouble.OfInt 7) "7",
     FJsonValue.Object DeleteMissingOp])]

/-- A document whose `operations` array holds the rename and the number 7. -/
def RenameAndNumberDoc : FJsonObject :=
  [("operations", FJsonValue.Array
    [FJsonValue.Object RenameOp, FJsonValue.Number (FDouble.OfInt 7) "7"])]

/-- A document with an `operations` field that is not an array and a `type`
field. -/
def OperationsNotArrayDoc : FJsonObject :=
  [("operations", FJsonValue.String "none" none), ("type", FJsonValue.String "variable_rename" none),
   ("blueprint", FJsonValue.String "TestBlueprint" none), ("old_name", FJsonValue.String "OldVar" none),
   ("new_name", FJsonValue.String "NewVar" none)]

/-- The operation `variable_rename` of `NewVar` to `FinalVar` on `TestBlueprint`. -/
def RenameAgainOp : FJsonObject :=
  [("type", FJsonValue.String "variable_rename" none), ("blueprint", FJsonValue.String "TestBlueprint" none),
   ("old_name", FJsonValue.String "NewVar" none), ("new_name", FJsonValue.String "FinalVar" none)]

/-- The batch of the rename of `OldVar` to `NewVar` and the rename of `NewVar` to
`FinalVar`. -/
def RenameChainDoc : FJsonObject :=
  [("operations", FJsonValue.Array [FJsonValue.Object RenameOp, FJsonValue.Object RenameAgainOp])]

/-- The node is a variable-get or a variable-set node. -/
def IsVariableNode (Node : UEdGraphNode) : Prop :=
  Node.Class = ENodeClass.K2Node_VariableGet ∨ Node.Class = ENodeClass.K2Node_VariableSet

instance IsVariableNode.decidable (Node : UEdGraphNode) : Decidable (IsVariableNode Node) :=
  inferInstanceAs (Decidable (_ ∨ _))

/-! ## Facts on the comparison of the engine -/

@[simp] theorem FStringEquals_refl (A : String) : FStringEquals A A :=
  rfl

theorem FStringEquals_symm {A B : String} (h : FStringEquals A B) : FStringEquals B A :=
  Eq.symm h

theorem FStringEquals_trans {A B C : String} (h1 : FStringEquals A B) (h2 : FStringEquals B C) :
    FStringEquals A C :=
  Eq.trans h1 h2

theorem FStringEquals_congr_left {A B : String} (h : FStringEquals A B) (C : String) :
    FStringEquals A C ↔ FStringEquals B C :=
  ⟨fun h1 => h.symm.trans h1, fun h1 => h.trans h1⟩

theorem FStringEquals_congr_right {A B : String} (h : FStringEquals A B) (C : String) :
    FStringEquals C A ↔ FStringEquals C B :=
  ⟨fun h1 => h1.trans h, fun h1 => h1.trans h.symm⟩

@[simp] theorem FStringEquals_node_add_variable_rename : ¬ FStringEquals "node_add" "variable_rename" := by
  decide

@[simp] theorem FStringEquals_node_modify_variable_rename : ¬ FStringEquals "node_modify" "variable_rename" := by
  decide

@[simp] theorem FStringEquals_node_modify_node_add : ¬ FStringEquals "node_modify" "node_add" := by
  decide

@[simp] theorem FStringEquals_node_delete_variable_rename : ¬ FStringEquals "node_delete" "variable_rename" := by
  decide

@[simp] theorem FStringEquals_node_delete_node_add : ¬ FStringEquals "node_delete" "node_add" := by
  decide

@[simp] theorem FStringEquals_node_delete_node_modify : ¬ FStringEquals "node_delete" "node_modify" := by
  decide

@[simp] theorem FStringEquals_connection_add_variable_rename : ¬ FStringEquals "connection_add" "variable_rename" := by
  decide

@[simp] theorem FStringEquals_connection_add_node_add : ¬ FStringEquals "connection_add" "node_add" := by
  decide

@[simp] theorem FStringEquals_connection_add_node_modify : ¬ FStringEquals "connection_add" "node_modify" := by
  decide

@[simp] theorem FStringEquals_connection_add_node_delete : ¬ FStringEquals "connection_add" "node_delete" := by
  decide

@[simp] theorem FStringEquals_connection_remove_variable_rename : ¬ FStringEquals "connection_remove" "variable_rename" := by
  decide

@[simp] theorem FStringEquals_connection_remove_node_add : ¬ FStringEquals "connection_remove" "node_add" := by
  decide

@[simp] theorem FStringEquals_connection_remove_node_modify : ¬ FStringEquals "connection_remove" "node_modify" := by
  decide

@[simp] theorem FStringEquals_connection_remove_node_delete : ¬ FStringEquals "connection_remove" "node_delete" := by
  decide

@[simp] theorem FStringEquals_connection_remove_connection_add : ¬ FStringEquals "connection_remove" "connection_add" := by
  decide

@[simp] theorem FStringEquals_VariableSet_VariableGet : ¬ FStringEquals "VariableSet" "VariableGet" := by
  decide

@[simp] theorem FStringEquals_FunctionCall_VariableGet : ¬ FStringEquals "FunctionCall" "VariableGet" := by
  decide

@[simp] theorem FStringEquals_FunctionCall_VariableSet : ¬ FStringEquals "FunctionCall" "VariableSet" := by
  decide

@[simp] theorem FStringEquals_Warning_Error : ¬ FStringEquals "Warning" "Error" := by
  decide

@[simp] theorem FStringEquals_Verbose_Error : ¬ FStringEquals "Verbose" "Error" := by
  decide

@[simp] theorem FStringEquals_Verbose_Warning : ¬ FStringEquals "Verbose" "Warning" := by
  decide

@[simp] theorem FStringEquals_Info_Error : ¬ FStringEquals "Info" "Error" := by
  decide

@[simp] theorem FStringEquals_Info_Warning : ¬ FStringEquals "Info" "Warning" := by
  decide

@[simp] theorem FStringEquals_Info_Verbose : ¬ FStringEquals "Info" "Verbose" := by
  decide

/-! ## Frame lemmas -/

@[simp] theorem UE_LOG_Model (s : EditorState) (v : ELogVerbosity) (m : String) :
    (UE_LOG s v m).Model = s.Model := rfl
@[simp] theorem UE_LOG_LastErrorMessage (s : EditorState) (v : ELogVerbosity) (m : String) :
    (UE_LOG s v m).LastErrorMessage = s.LastErrorMessage := rfl
@[simp] theorem UE_LOG_CurrentTransaction (s : EditorState) (v : ELogVerbosity) (m : String) :
    (UE_LOG s v m).CurrentTransaction = s.CurrentTransaction := rfl
@[simp] theorem UE_LOG_Transactions (s : EditorState) (v : ELogVerbosity) (m : String) :
    (UE_LOG s v m).Transactions = s.Transactions := rfl
@[simp] theorem UE_LOG_Notifications (s : EditorState) (v : ELogVerbosity) (m : String) :
    (UE_LOG s v m).Notifications = s.Notifications := rfl
@[simp] theorem UE_LOG_GEditor (s : EditorState) (v : ELogVerbosity) (m : String) :
    (UE_LOG s v m).GEditor = s.GEditor := rfl
@[simp] theorem UE_LOG_OutputLog (s : EditorState) (v : ELogVerbosity) (m : String) :
    (UE_LOG s v m).OutputLog = s.OutputLog ++ [(v, m)] := rfl

@[simp] theorem SetLastError_Model (s : EditorState) (m : String) :
    (SetLastError s m).Model = s.Model := rfl
@[simp] theorem SetLastError_LastErrorMessage (s : EditorState) (m : String) :
    (SetLastError s m).LastErrorMessage = m := rfl
@[simp] theorem SetLastError_CurrentTransaction (s : EditorState) (m : String) :
    (SetLastError s m).CurrentTransaction = s.CurrentTransaction := rfl
@[simp] theorem SetLastError_Transactions (s : EditorState) (m : String) :
    (SetLastError s m).Transactions = s.Transactions := rfl
@[simp] theorem SetLastError_Notifications (s : EditorState) (m : String) :
    (SetLastError s m).Notifications = s.Notifications := rfl
@[simp] theorem SetLastError_GEditor (s : EditorState) (m : String) :
    (SetLastError s m).GEditor = s.GEditor := rfl

@[simp] theorem StoreBlueprint_LastErrorMessage (s : EditorState) (i : Nat) (b : UBlueprint) :
    (StoreBlueprint s i b).LastErrorMessage = s.LastErrorMessage := rfl
@[simp] theorem StoreBlueprint_CurrentTransaction (s : EditorState) (i : Nat) (b : UBlueprint) :
    (StoreBlueprint s i b).CurrentTransaction = s.CurrentTransaction := rfl
@[simp] theorem StoreBlueprint_Transactions (s : EditorState) (i : Nat) (b : UBlueprint) :
    (StoreBlueprint s i b).Transactions = s.Transactions := rfl
@[simp] theorem StoreBlueprint_Notifications (s : EditorState) (i : Nat) (b : UBlueprint) :
    (StoreBlueprint s i b).Notifications = s.Notifications := rfl
@[simp] theorem StoreBlueprint_GEditor (s : EditorState) (i : Nat) (b : UBlueprint) :
    (StoreBlueprint s i b).GEditor = s.GEditor := rfl

theorem LogPatchOperation_eq (s : EditorState) (op : TSharedPtr FJsonObject) (b : Bool) :
    LogPatchOperation s op b = s ∨ ∃ v m, LogPatchOperation s op b = UE_LOG s v m := by
  unfold LogPatchOperation
  cases op with
  | none => exact Or.inl rfl
  | some o =>
    right
    cases b
    · exact ⟨_, _, rfl⟩
    · exact ⟨_, _, rfl⟩

@[simp] theorem LogPatchOperation_Model (s : EditorState) (op : TSharedPtr FJsonObject)
    (b : Bool) : (LogPatchOperation s op b).Model = s.Model := by
  rcases LogPatchOperation_eq s op b with h | ⟨v, m, h⟩ <;> simp [h]
@[simp] theorem LogPatchOperation_LastErrorMessage (s : EditorState)
    (op : TSharedPtr FJsonObject) (b : Bool) :
    (LogPatchOperation s op b).LastErrorMessage = s.LastErrorMessage := by
  rcases LogPatchOperation_eq s op b with h | ⟨v, m, h⟩ <;> simp [h]
@[simp] theorem LogPatchOperation_CurrentTransaction (s : EditorState)
    (op : TSharedPtr FJsonObject) (b : Bool) :
    (LogPatchOperation s op b).CurrentTransaction = s.CurrentTransaction := by
  rcases LogPatchOperation_eq s op b with h | ⟨v, m, h⟩ <;> simp [h]
@[simp] theorem LogPatchOperation_Transactions (s : EditorState)
    (op : TSharedPtr FJsonObject) (b : Bool) :
    (LogPatchOperation s op b).Transactions = s.Transactions := by
  rcases LogPatchOperation_eq s op b with h | ⟨v, m, h⟩ <;> simp [h]
@[simp] theorem LogPatchOperation_Notifications (s : EditorState)
    (op : TSharedPtr FJsonObject) (b : Bool) :
    (LogPatchOperation s op b).Notifications = s.Notifications := by
  rcases LogPatchOperation_eq s op b with h | ⟨v, m, h⟩ <;> simp [h]
@[simp] theorem LogPatchOperation_GEditor (s : EditorState)
    (op : TSharedPtr FJsonObject) (b : Bool) :
    (LogPatchOperation s op b).GEditor = s.GEditor := by
  rcases LogPatchOperation_eq s op b with h | ⟨v, m, h⟩ <;> simp [h]

theorem ApplyVariableRename_services (s : EditorState) (op : FJsonObject) :
    SameServices s (ApplyVariableRename s op).2 := by
  unfold ApplyVariableRename
  repeat' split
  all_goals simp [SameServices]

theorem CreateNode_services (s : EditorState) (op : FJsonObject) (t : String) :
    SameServices s (CreateNode s op t).2 := by
  unfold CreateNode NewObject
  repeat' split
  all_goals simp [SameServices]

theorem ApplyNodeAddition_services (s : EditorState) (op : FJsonObject) :
    SameServices s (ApplyNodeAddition s op).2 := by
  have hc := CreateNode_services s op
  simp only [SameServices] at hc ⊢
  simp only [ApplyNodeAddition]
  repeat' split
  all_goals simp [hc]

theorem ApplyNodeDeletion_services (s : EditorState) (op : FJsonObject) :
    SameServices s (ApplyNodeDeletion s op).2 := by
  unfold ApplyNodeDeletion
  repeat' split
  all_goals simp [SameServices]

theorem SameServices.trans {s t u : EditorState} (h1 : SameServices s t)
    (h2 : SameServices t u) : SameServices s u := by
  obtain ⟨a1, a2, a3, a4⟩ := h1
  obtain ⟨b1, b2, b3, b4⟩ := h2
  exact ⟨b1.trans a1, b2.trans a2, b3.trans a3, b4.trans a4⟩

theorem LogPatchOperation_services (s : EditorState) (op : TSharedPtr FJsonObject) (b : Bool) :
    SameServices s (LogPatchOperation s op b) := by
  simp [SameServices]

theorem ApplyPatchOperation_services (s : EditorState) (op : TSharedPtr FJsonObject) :
    SameServices s (ApplyPatchOperation s op).2 := by
  unfold ApplyPatchOperation
  repeat' split
  all_goals first
    | exact ⟨rfl, rfl, rfl, rfl⟩
    | exact (LogPatchOperation_services _ _ _).trans
        ((ApplyVariableRename_services _ _).trans (LogPatchOperation_services _ _ _))
    | exact (LogPatchOperation_services _ _ _).trans
        ((ApplyNodeAddition_services _ _).trans (LogPatchOperation_services _ _ _))
    | exact (LogPatchOperation_services _ _ _).trans
        ((ApplyNodeDeletion_services _ _).trans (LogPatchOperation_services _ _ _))

theorem ApplyOperations_services (ops : List (TSharedPtr FJsonObject)) (s : EditorState) :
    SameServices s (ApplyOperations s ops).2 := by
  induction ops generalizing s with
  | nil => simp [ApplyOperations, SameServices]
  | cons op rest ih =>
    unfold ApplyOperations
    simp only
    split
    · exact (ApplyPatchOperation_services s op).trans (ih _)
    · exact (ApplyPatchOperation_services s op).trans (by simp [SameServices])

/-! ## The last error -/

theorem append_ne_empty (a b : String) (h : a ≠ "") : a ++ b ≠ "" := by
  intro hab
  apply h
  have hd : (a ++ b).data = [] := by rw [hab]
  rw [String.data_append] at hd
  exact String.ext (List.append_eq_nil.mp hd).1

/-- Validation of one operation depends on the graph model only: either it
passes in every state with this model and leaves the state as it is, or it fails
in every such state with one and the same non-empty reason. -/
theorem ValidatePatchOperation_cases (m : GraphModel) (op : TSharedPtr FJsonObject) :
    (∀ s : EditorState, s.Model = m → ValidatePatchOperation s op = (true, s)) ∨
    (∃ msg : String, msg ≠ "" ∧
      ∀ s : EditorState, s.Model = m → ValidatePatchOperation s op = (false, SetLastError s msg)) := by
  cases op with
  | none => exact Or.inr ⟨"Invalid operation object", by decide, fun s _ => rfl⟩
  | some Op =>
    cases hty : TryGetStringField Op "type" with
    | none =>
      exact Or.inr ⟨"Operation missing \x27type\x27 field", by decide,
        fun s _ => by simp [ValidatePatchOperation, hty]⟩
    | some OperationType =>
      cases hbp : TryGetStringField Op "blueprint" with
      | none =>
        exact Or.inr ⟨"Operation missing \x27blueprint\x27 field", by decide,
          fun s _ => by simp [ValidatePatchOperation, hty, hbp]⟩
      | some BlueprintPath =>
        cases hfb : FindBlueprint m BlueprintPath with
        | none =>
          exact Or.inr ⟨"Blueprint not found: " ++ BlueprintPath,
            append_ne_empty _ _ (by decide),
            fun s hs => by simp [ValidatePatchOperation, hty, hbp, hs, hfb]⟩
        | some found =>
          obtain ⟨i, Blueprint⟩ := found
          by_cases h1 : FStringEquals OperationType "variable_rename"
          · cases hold : TryGetStringField Op "old_name" with
            | none =>
              exact Or.inr ⟨"Variable rename operation missing old_name or new_name", by decide,
                fun s hs => by simp [ValidatePatchOperation, hty, hbp, hs, hfb, h1, hold]⟩
            | some OldName =>
              cases hnew : TryGetStringField Op "new_name" with
              | none =>
                exact Or.inr ⟨"Variable rename operation missing old_name or new_name",
                  by decide,
                  fun s hs => by simp [ValidatePatchOperation, hty, hbp, hs, hfb, h1, hold, hnew]⟩
              | some NewName =>
                cases hv : FindVariable (some Blueprint) OldName with
                | none =>
                  exact Or.inr ⟨"Variable not found: " ++ OldName,
                    append_ne_empty _ _ (by decide),
                    fun s hs => by
                      simp [ValidatePatchOperation, hty, hbp, hs, hfb, h1, hold, hnew, hv]⟩
                | some v =>
                  exact Or.inl fun s hs => by
                    simp [ValidatePatchOperation, hty, hbp, hs, hfb, h1, hold, hnew, hv]
          · by_cases h2 : FStringEquals OperationType "node_add"
            · cases hnt : TryGetStringField Op "node_type" with
              | none =>
                exact Or.inr ⟨"Node addition operation missing node_type", by decide,
                  fun s hs => by simp [ValidatePatchOperation, hty, hbp, hs, hfb, h1, h2, hnt]⟩
              | some NodeType =>
                exact Or.inl fun s hs => by
                  simp [ValidatePatchOperation, hty, hbp, hs, hfb, h1, h2, hnt]
            · exact Or.inl fun s hs => by
                simp [ValidatePatchOperation, hty, hbp, hs, hfb, h1, h2]

theorem ValidatePatchOperation_true (s : EditorState) (op : TSharedPtr FJsonObject)
    (h : (ValidatePatchOperation s op).1 = true) : ValidatePatchOperation s op = (true, s) := by
  rcases ValidatePatchOperation_cases s.Model op with hc | ⟨msg, _, hc⟩
  · exact hc s rfl
  · rw [hc s rfl] at h
    simp at h

theorem ValidatePatchOperation_false (s : EditorState) (op : TSharedPtr FJsonObject)
    (h : (ValidatePatchOperation s op).1 = false) :
    ∃ msg : String, msg ≠ "" ∧ ValidatePatchOperation s op = (false, SetLastError s msg) := by
  rcases ValidatePatchOperation_cases s.Model op with hc | ⟨msg, hne, hc⟩
  · rw [hc s rfl] at h
    simp at h
  · exact ⟨msg, hne, hc s rfl⟩

/-- The verdict of validation is the same in two states with the same model. -/
theorem ValidatePatchOperation_model (s t : EditorState) (op : TSharedPtr FJsonObject)
    (h : s.Model = t.Model) :
    (ValidatePatchOperation s op).1 = (ValidatePatchOperation t op).1 := by
  rcases ValidatePatchOperation_cases s.Model op with hc | ⟨msg, _, hc⟩
  · rw [hc s rfl, hc t h.symm]
  · rw [hc s rfl, hc t h.symm]

theorem append_eq_empty_iff (a b : String) : a ++ b = "" ↔ a = "" ∧ b = "" := by
  constructor
  · intro hab
    have hd : (a ++ b).data = [] := by rw [hab]
    rw [String.data_append] at hd
    exact ⟨String.ext (List.append_eq_nil.mp hd).1, String.ext (List.append_eq_nil.mp hd).2⟩
  · rintro ⟨rfl, rfl⟩
    rfl

theorem ApplyVariableRename_error (s : EditorState) (op : FJsonObject) :
    KeepsOrSetsError s (ApplyVariableRename s op) := by
  simp only [ApplyVariableRename, KeepsOrSetsError]
  repeat' split
  all_goals simp [append_eq_empty_iff]

theorem ApplyVariableRename_WithError (s : EditorState) (op : FJsonObject) (e : String) :
    ApplyVariableRename (WithError s e) op = OutcomeWithError (ApplyVariableRename s op) e := by
  simp only [ApplyVariableRename, OutcomeWithError]
  repeat' split
  all_goals simp_all [SetLastError, UE_LOG, StoreBlueprint]

theorem CreateNode_LastErrorMessage (s : EditorState) (op : FJsonObject) (t : String) :
    (CreateNode s op t).2.LastErrorMessage = s.LastErrorMessage := by
  simp only [CreateNode, NewObject]
  repeat' split
  all_goals rfl

theorem CreateNode_WithError (s : EditorState) (op : FJsonObject) (t : String) (e : String) :
    CreateNode (WithError s e) op t = ((CreateNode s op t).1, WithError (CreateNode s op t).2 e) := by
  simp only [CreateNode, NewObject]
  repeat' split
  all_goals rfl

theorem ApplyNodeAddition_error (s : EditorState) (op : FJsonObject) :
    KeepsOrSetsError s (ApplyNodeAddition s op) := by
  have hc := CreateNode_LastErrorMessage s op
  simp only [ApplyNodeAddition, KeepsOrSetsError]
  repeat' split
  all_goals simp [append_eq_empty_iff, hc]

theorem ApplyNodeAddition_WithError (s : EditorState) (op : FJsonObject) (e : String) :
    ApplyNodeAddition (WithError s e) op = OutcomeWithError (ApplyNodeAddition s op) e := by
  simp only [ApplyNodeAddition, OutcomeWithError, CreateNode_WithError]
  repeat' split
  all_goals simp_all [SetLastError, UE_LOG, StoreBlueprint]

theorem ApplyNodeDeletion_error (s : EditorState) (op : FJsonObject) :
    KeepsOrSetsError s (ApplyNodeDeletion s op) := by
  simp only [ApplyNodeDeletion, KeepsOrSetsError]
  repeat' split
  all_goals simp [append_eq_empty_iff]

theorem ApplyNodeDeletion_WithError (s : EditorState) (op : FJsonObject) (e : String) :
    ApplyNodeDeletion (WithError s e) op = OutcomeWithError (ApplyNodeDeletion s op) e := by
  simp only [ApplyNodeDeletion, OutcomeWithError]
  repeat' split
  all_goals simp_all [SetLastError, UE_LOG, StoreBlueprint]

theorem LogPatchOperation_WithError (s : EditorState) (op : TSharedPtr FJsonObject) (b : Bool)
    (e : String) : LogPatchOperation (WithError s e) op b = WithError (LogPatchOperation s op b) e := by
  simp only [LogPatchOperation]
  repeat' split
  all_goals rfl

theorem KeepsOrSetsError_log {s : EditorState} {r : Bool × EditorState}
    (op : TSharedPtr FJsonObject) (b b2 : Bool)
    (h : KeepsOrSetsError (LogPatchOperation s op b) r) :
    KeepsOrSetsError s (r.1, LogPatchOperation r.2 op b2) := by
  simpa [KeepsOrSetsError] using h

theorem OutcomeWithError_log (r : Bool × EditorState) (op : TSharedPtr FJsonObject) (e : String) :
    ((OutcomeWithError r e).1, LogPatchOperation (OutcomeWithError r e).2 op (OutcomeWithError r e).1)
      = OutcomeWithError (r.1, LogPatchOperation r.2 op r.1) e := by
  obtain ⟨b, t⟩ := r
  cases b <;> simp [OutcomeWithError, LogPatchOperation_WithError]

theorem ApplyPatchOperation_error (s : EditorState) (op : TSharedPtr FJsonObject) :
    KeepsOrSetsError s (ApplyPatchOperation s op) := by
  simp only [ApplyPatchOperation]
  repeat' split
  all_goals first
    | exact KeepsOrSetsError_log _ _ _ (ApplyVariableRename_error _ _)
    | exact KeepsOrSetsError_log _ _ _ (ApplyNodeAddition_error _ _)
    | exact KeepsOrSetsError_log _ _ _ (ApplyNodeDeletion_error _ _)
    | simp [KeepsOrSetsError, ApplyNodeModification, ApplyConnectionOperation,
        append_eq_empty_iff]

theorem ApplyPatchOperation_WithError (s : EditorState) (op : TSharedPtr FJsonObject)
    (e : String) :
    ApplyPatchOperation (WithError s e) op = OutcomeWithError (ApplyPatchOperation s op) e := by
  simp only [ApplyPatchOperation, LogPatchOperation_WithError, ApplyVariableRename_WithError,
    ApplyNodeAddition_WithError, ApplyNodeDeletion_WithError, OutcomeWithError_log]
  repeat' split
  all_goals rfl

/-! ## Parsing and the loops -/

theorem ParsePatchOperations_state (D : FDeserialize) (s : EditorState) (json : String) :
    (ParsePatchOperations D s json).2 = s ∨
    ParsePatchOperations D s json = ([], SetLastError s "Invalid JSON format") := by
  simp only [ParsePatchOperations]
  repeat' split
  all_goals simp

theorem ParsePatchOperations_nonempty (D : FDeserialize) (s : EditorState) (json : String)
    (h : (ParsePatchOperations D s json).1 ≠ []) : (ParsePatchOperations D s json).2 = s := by
  rcases ParsePatchOperations_state D s json with h1 | h1
  · exact h1
  · rw [h1] at h
    exact absurd rfl h

theorem ParsePatchOperations_services (D : FDeserialize) (s : EditorState) (json : String) :
    SameServices s (ParsePatchOperations D s json).2 ∧
    (ParsePatchOperations D s json).2.Model = s.Model := by
  rcases ParsePatchOperations_state D s json with h1 | h1
  · rw [h1]
    exact ⟨⟨rfl, rfl, rfl, rfl⟩, rfl⟩
  · rw [h1]
    exact ⟨⟨rfl, rfl, rfl, rfl⟩, rfl⟩

theorem ParsePatchOperations_rejected (D : FDeserialize) (s : EditorState) (json : String)
    (h : (D json).1 = false ∨ (D json).2 = none) : (ParsePatchOperations D s json).1 = [] := by
  simp only [ParsePatchOperations]
  split
  · rename_i heq
    rw [heq] at h
    simp at h
  · rfl

theorem ApplyStart_Model (D : FDeserialize) (s : EditorState) (json : String) :
    (ApplyStart D s json).Model = s.Model := by
  have h := (ParsePatchOperations_services D (WithError s "") json).2
  obtain ⟨⟨h1, _, _, _⟩, _⟩ := ParsePatchOperations_services D (WithError s "") json
  simp only [ApplyStart, BeginTransaction, EndTransaction, h1]
  cases hc : s.CurrentTransaction <;> simp [hc, h]

theorem ApplyStart_CurrentTransaction (D : FDeserialize) (s : EditorState) (json : String) :
    (ApplyStart D s json).CurrentTransaction =
      some { Description := "Apply AI Patch", Saved := s.Model } := by
  have h := (ParsePatchOperations_services D (WithError s "") json).2
  obtain ⟨⟨h1, _, _, _⟩, _⟩ := ParsePatchOperations_services D (WithError s "") json
  simp only [ApplyStart, BeginTransaction, EndTransaction, h1]
  cases hc : s.CurrentTransaction <;> simp [hc, h]

theorem ApplyStart_Transactions (D : FDeserialize) (s : EditorState) (json : String) :
    (ApplyStart D s json).Transactions =
      s.Transactions ++ (if s.CurrentTransaction.isSome then [ETransactionEvent.End] else []) ++
        [ETransactionEvent.Begin "Apply AI Patch"] := by
  obtain ⟨⟨h1, h2, _, _⟩, _⟩ := ParsePatchOperations_services D (WithError s "") json
  simp only [ApplyStart, BeginTransaction, EndTransaction, h1, h2]
  cases hc : s.CurrentTransaction <;> simp [hc, h1, h2]

theorem ApplyStart_Notifications (D : FDeserialize) (s : EditorState) (json : String) :
    (ApplyStart D s json).Notifications = s.Notifications ∧
    (ApplyStart D s json).GEditor = s.GEditor := by
  obtain ⟨⟨h1, _, h3, h4⟩, _⟩ := ParsePatchOperations_services D (WithError s "") json
  simp only [ApplyStart, BeginTransaction, EndTransaction, h1]
  cases hc : s.CurrentTransaction <;> simp [hc, h3, h4]

theorem ApplyStart_LastErrorMessage (D : FDeserialize) (s : EditorState) (json : String)
    (h : ParsedOperations D s json ≠ []) : (ApplyStart D s json).LastErrorMessage = "" := by
  have h1 := ParsePatchOperations_nonempty D (WithError s "") json h
  simp only [ApplyStart, BeginTransaction, EndTransaction, h1]
  cases hc : s.CurrentTransaction <;> simp [hc]

theorem ApplyOperations_true_iff (ops : List (TSharedPtr FJsonObject)) (s : EditorState) :
    (ApplyOperations s ops).1 = true ↔ AllSucceed s ops := by
  induction ops generalizing s with
  | nil => simp [ApplyOperations, AllSucceed]
  | cons op rest ih =>
    simp only [ApplyOperations, AllSucceed]
    cases h : (ApplyPatchOperation s op).1 <;> simp [ih]

theorem ApplyOperations_StateAfter (ops : List (TSharedPtr FJsonObject)) (s : EditorState)
    (h : AllSucceed s ops) : ApplyOperations s ops = (true, StateAfter s ops) := by
  induction ops generalizing s with
  | nil => rfl
  | cons op rest ih =>
    obtain ⟨h1, h2⟩ := h
    simp only [ApplyOperations, StateAfter, h1, if_true]
    exact ih _ h2

/-- The loop stops at the first operation that fails: what follows it has no
part in the outcome. -/
theorem ApplyOperations_first_failure (pre post : List (TSharedPtr FJsonObject))
    (bad : TSharedPtr FJsonObject) (s : EditorState) (hpre : AllSucceed s pre)
    (hbad : (ApplyPatchOperation (StateAfter s pre) bad).1 = false) :
    ApplyOperations s (pre ++ bad :: post) =
      (false, UE_LOG (ApplyPatchOperation (StateAfter s pre) bad).2 ELogVerbosity.Error
        "Failed to apply patch operation") := by
  induction pre generalizing s with
  | nil =>
    simp only [StateAfter] at hbad
    simp [ApplyOperations, StateAfter, hbad]
  | cons op rest ih =>
    obtain ⟨h1, h2⟩ := hpre
    simp only [List.cons_append, ApplyOperations, StateAfter, h1, if_true]
    exact ih _ h2 hbad

theorem ApplyOperations_error (ops : List (TSharedPtr FJsonObject)) (s : EditorState) :
    KeepsOrSetsError s (ApplyOperations s ops) := by
  induction ops generalizing s with
  | nil => simp [ApplyOperations, KeepsOrSetsError]
  | cons op rest ih =>
    have h1 := ApplyPatchOperation_error s op
    simp only [ApplyOperations]
    cases h : (ApplyPatchOperation s op).1
    · simpa [KeepsOrSetsError, h] using h1.2 h
    · have h2 := ih (ApplyPatchOperation s op).2
      simp only [if_true]
      exact ⟨fun ht => (h2.1 ht).trans (h1.1 h), h2.2⟩

/-- Not all operations succeed exactly when the list splits at a first failing
operation. -/
theorem not_AllSucceed_split (ops : List (TSharedPtr FJsonObject)) (s : EditorState)
    (h : ¬ AllSucceed s ops) :
    ∃ pre bad post, ops = pre ++ bad :: post ∧ AllSucceed s pre ∧
      (ApplyPatchOperation (StateAfter s pre) bad).1 = false := by
  induction ops generalizing s with
  | nil => exact absurd trivial h
  | cons op rest ih =>
    cases h1 : (ApplyPatchOperation s op).1 with
    | false => exact ⟨[], op, rest, rfl, trivial, by simpa [StateAfter] using h1⟩
    | true =>
      have h2 : ¬ AllSucceed (ApplyPatchOperation s op).2 rest := fun h3 => h ⟨h1, h3⟩
      obtain ⟨pre, bad, post, e1, e2, e3⟩ := ih _ h2
      exact ⟨op :: pre, bad, post, by simp [e1], ⟨h1, e2⟩, by simpa [StateAfter] using e3⟩

/-! ## Reporting -/

theorem ShowUserNotification_frame (s : EditorState) (msg : String) (d : Nat) (t : String) :
    (ShowUserNotification s msg d t).Model = s.Model ∧
    (ShowUserNotification s msg d t).LastErrorMessage = s.LastErrorMessage ∧
    (ShowUserNotification s msg d t).CurrentTransaction = s.CurrentTransaction ∧
    (ShowUserNotification s msg d t).Transactions = s.Transactions ∧
    (ShowUserNotification s msg d t).OutputLog = s.OutputLog ∧
    (ShowUserNotification s msg d t).GEditor = s.GEditor := by
  unfold ShowUserNotification
  split <;> simp

theorem LogError_frame (s : EditorState) (msg : String) (sev : String) :
    (LogError s msg sev).Model = s.Model ∧
    (LogError s msg sev).LastErrorMessage = s.LastErrorMessage ∧
    (LogError s msg sev).CurrentTransaction = s.CurrentTransaction ∧
    (LogError s msg sev).Transactions = s.Transactions ∧
    (LogError s msg sev).Notifications = s.Notifications ∧
    (LogError s msg sev).GEditor = s.GEditor := by
  unfold LogError
  repeat' split
  all_goals simp

theorem HandlePatchError_frame (s : EditorState) (json : String) (err : String) :
    (HandlePatchError s json err).Model = s.Model ∧
    (HandlePatchError s json err).LastErrorMessage = s.LastErrorMessage ∧
    (HandlePatchError s json err).CurrentTransaction = s.CurrentTransaction ∧
    (HandlePatchError s json err).Transactions = s.Transactions := by
  simp only [HandlePatchError]
  obtain ⟨a1, a2, a3, a4, _, _⟩ := ShowUserNotification_frame
    (ShowUserNotification (LogError (LogError s ("Failed to apply AI patch: " ++ err) "Error")
      ("Patch JSON: " ++ json) "Verbose") ("Failed to apply AI patch: " ++ err) 15 "Error")
    ("Patch application failed: " ++ err ++
    "\n\nSuggestions:\n• Check if the target Blueprint is open\n• Verify the Blueprint hasn\x27t been modified\n• Try exporting fresh context from UE")
    20 "Warning"
  obtain ⟨b1, b2, b3, b4, _, _⟩ := ShowUserNotification_frame
    (LogError (LogError s ("Failed to apply AI patch: " ++ err) "Error")
      ("Patch JSON: " ++ json) "Verbose") ("Failed to apply AI patch: " ++ err) 15 "Error"
  obtain ⟨c1, c2, c3, c4, _, _⟩ := LogError_frame
    (LogError s ("Failed to apply AI patch: " ++ err) "Error") ("Patch JSON: " ++ json) "Verbose"
  obtain ⟨d1, d2, d3, d4, _, _⟩ := LogError_frame s ("Failed to apply AI patch: " ++ err) "Error"
  exact ⟨a1.trans (b1.trans (c1.trans d1)), a2.trans (b2.trans (c2.trans d2)),
    a3.trans (b3.trans (c3.trans d3)), a4.trans (b4.trans (c4.trans d4))⟩

/-- The two log lines of `HandlePatchError`: the reason, and the raw patch text. -/
theorem HandlePatchError_OutputLog (s : EditorState) (json : String) (err : String) :
    (HandlePatchError s json err).OutputLog = s.OutputLog ++
      [(ELogVerbosity.Error, "SurrealPilot: " ++ ("Failed to apply AI patch: " ++ err)),
       (ELogVerbosity.Verbose, "SurrealPilot: " ++ ("Patch JSON: " ++ json))] := by
  simp [HandlePatchError, (ShowUserNotification_frame _ _ _ _).2.2.2.2.1, LogError]

/-- The notifications of `HandlePatchError` when the editor is there: both carry
the reason. -/
theorem HandlePatchError_Notifications (s : EditorState) (json : String) (err : String)
    (h : s.GEditor = true) :
    (HandlePatchError s json err).Notifications.map (fun n => (n.Text, n.ExpireDuration)) =
      s.Notifications.map (fun n => (n.Text, n.ExpireDuration)) ++
      [("Failed to apply AI patch: " ++ err, 15),
       ("Patch application failed: " ++ err ++
        "\n\nSuggestions:\n• Check if the target Blueprint is open\n• Verify the Blueprint hasn\x27t been modified\n• Try exporting fresh context from UE", 20)] := by
  simp [HandlePatchError, ShowUserNotification, LogError, h]

theorem HandlePatchError_Notifications_none (s : EditorState) (json : String) (err : String)
    (h : s.GEditor = false) :
    (HandlePatchError s json err).Notifications = s.Notifications := by
  simp [HandlePatchError, ShowUserNotification, LogError, h]

/-! ## The outcomes of `ApplyJsonPatch` and `CanApplyPatch` -/

theorem ApplyJsonPatch_empty (D : FDeserialize) (s : EditorState) (json : String)
    (h : ParsedOperations D s json = []) :
    ApplyJsonPatch D s json =
      (false, SetLastError (ValidateStart D s json) "No valid operations found in patch JSON") := by
  unfold ParsedOperations at h
  simp [ApplyJsonPatch, ValidateStart, h]

theorem CanApplyPatch_empty (D : FDeserialize) (s : EditorState) (json : String)
    (h : ParsedOperations D s json = []) :
    CanApplyPatch D s json =
      (false, SetLastError (ValidateStart D s json) "No valid operations found in patch JSON") := by
  unfold ParsedOperations at h
  simp [CanApplyPatch, ValidateStart, h]

theorem CanApplyPatch_nonempty (D : FDeserialize) (s : EditorState) (json : String)
    (h : ParsedOperations D s json ≠ []) :
    CanApplyPatch D s json = ValidateOperations (WithError s "") (ParsedOperations D s json) := by
  have h1 := ParsePatchOperations_nonempty D (WithError s "") json h
  unfold ParsedOperations at h
  simp [CanApplyPatch, ParsedOperations, h, h1]

theorem ValidateStart_frame (D : FDeserialize) (s : EditorState) (json : String) :
    (ValidateStart D s json).Model = s.Model ∧
    (ValidateStart D s json).CurrentTransaction = s.CurrentTransaction ∧
    (ValidateStart D s json).Transactions = s.Transactions := by
  obtain ⟨⟨h1, h2, _, _⟩, h3⟩ := ParsePatchOperations_services D (WithError s "") json
  exact ⟨h3, h1, h2⟩

theorem not_AllSucceed_ne_nil {s : EditorState} {ops : List (TSharedPtr FJsonObject)}
    (h : ¬ AllSucceed s ops) : ops ≠ [] := by
  rintro rfl
  exact h trivial

theorem ApplyJsonPatch_failure (D : FDeserialize) (s : EditorState) (json : String)
    (h : ¬ AllSucceed (ApplyStart D s json) (ParsedOperations D s json)) :
    ApplyJsonPatch D s json =
      (false, HandlePatchError
        (CancelTransaction (ApplyOperations (ApplyStart D s json) (ParsedOperations D s json)).2)
        json
        (CancelTransaction
          (ApplyOperations (ApplyStart D s json) (ParsedOperations D s json)).2).LastErrorMessage) := by
  have hne := not_AllSucceed_ne_nil h
  have hf : (ApplyOperations (ApplyStart D s json) (ParsedOperations D s json)).1 = false := by
    cases hb : (ApplyOperations (ApplyStart D s json) (ParsedOperations D s json)).1
    · rfl
    · exact absurd ((ApplyOperations_true_iff _ _).mp hb) h
  unfold ParsedOperations ApplyStart at hf
  unfold ParsedOperations at hne
  simp [ApplyJsonPatch, ParsedOperations, ApplyStart, hne, hf]

theorem ApplyJsonPatch_success (D : FDeserialize) (s : EditorState) (json : String)
    (h : AllSucceed (ApplyStart D s json) (ParsedOperations D s json))
    (hne : ParsedOperations D s json ≠ []) :
    ApplyJsonPatch D s json =
      (true, ShowUserNotification
        (UE_LOG (EndTransaction (StateAfter (ApplyStart D s json) (ParsedOperations D s json)))
          ELogVerbosity.Log
          ("Successfully applied patch with " ++ toString (ParsedOperations D s json).length ++
            " operations"))
        ("Successfully applied AI patch with " ++ toString (ParsedOperations D s json).length ++
          " operations") 5 "Info") := by
  have hf := ApplyOperations_StateAfter _ _ h
  unfold ParsedOperations ApplyStart at hf
  unfold ParsedOperations at hne
  simp [ApplyJsonPatch, ParsedOperations, ApplyStart, hne, hf]

theorem CancelTransaction_LastErrorMessage (s : EditorState) :
    (CancelTransaction s).LastErrorMessage = s.LastErrorMessage := by
  unfold CancelTransaction
  split <;> rfl

/-- Cancelling after the loop restores the model recorded when the transaction
was begun, whatever the operations did. -/
theorem CancelTransaction_after_loop (D : FDeserialize) (s : EditorState) (json : String)
    (ops : List (TSharedPtr FJsonObject)) :
    (CancelTransaction (ApplyOperations (ApplyStart D s json) ops).2).Model = s.Model ∧
    (CancelTransaction (ApplyOperations (ApplyStart D s json) ops).2).CurrentTransaction = none ∧
    (CancelTransaction (ApplyOperations (ApplyStart D s json) ops).2).Transactions =
      (ApplyStart D s json).Transactions ++ [ETransactionEvent.Cancel] := by
  obtain ⟨h1, h2, _, _⟩ := ApplyOperations_services ops (ApplyStart D s json)
  rw [ApplyStart_CurrentTransaction] at h1
  simp [CancelTransaction, h1, h2]

/-! ## C1: atomicity of `ApplyJsonPatch` -/

/-- C1. Atomicity of applyPatch: for every state and every patch in which some
operation fails (not all parsed operations succeed when applied in order after
the transaction is begun), `ApplyJsonPatch` returns false and the graph model
after the call is the graph model before the call: the mutations of the
operations that succeeded earlier in the batch are rolled back. -/
theorem ApplyJsonPatch_atomic (Deserialize : FDeserialize) (s : EditorState) (PatchJson : String)
    (hfail : ¬ AllSucceed (ApplyStart Deserialize s PatchJson)
      (ParsedOperations Deserialize s PatchJson)) :
    (ApplyJsonPatch Deserialize s PatchJson).1 = false ∧
    (ApplyJsonPatch Deserialize s PatchJson).2.Model = s.Model := by
  rw [ApplyJsonPatch_failure Deserialize s PatchJson hfail]
  refine ⟨rfl, ?_⟩
  rw [(HandlePatchError_frame _ _ _).1]
  exact (CancelTransaction_after_loop Deserialize s PatchJson _).1

/-- C1 at the batch of a rename that succeeds and a deletion of a node that does
not exist: the rename changes the model, the batch fails, and the model after the
call is the one before it. -/
theorem ApplyJsonPatch_atomic_witness :
    ParsedOperations SampleDeserialize SampleState "rename+delete" =
      [some RenameOp, some DeleteMissingOp] ∧
    (ApplyPatchOperation (ApplyStart SampleDeserialize SampleState "rename+delete")
      (some RenameOp)).1 = true ∧
    (ApplyPatchOperation (ApplyStart SampleDeserialize SampleState "rename+delete")
      (some RenameOp)).2.Model ≠ SampleState.Model ∧
    (ApplyJsonPatch SampleDeserialize SampleState "rename+delete").1 = false ∧
    (ApplyJsonPatch SampleDeserialize SampleState "rename+delete").2.Model = SampleState.Model :=
  ⟨rfl, by decide, by decide,
    ApplyJsonPatch_atomic SampleDeserialize SampleState "rename+delete" (by decide)⟩

/-! ## C2: texts without operations -/

/-- C2. For every text that the deserializer rejects (empty text, text that is
not a JSON object) or that otherwise parses to zero operations, `CanApplyPatch`
and `ApplyJsonPatch` both return false, `ApplyJsonPatch` opens no transaction
(the transaction history and the transaction pointer are as before), and the
graph model is untouched by both. -/
theorem no_operations_rejected (Deserialize : FDeserialize) (s : EditorState)
    (PatchJson : String)
    (h : (Deserialize PatchJson).1 = false ∨ (Deserialize PatchJson).2 = none ∨
      ParsedOperations Deserialize s PatchJson = []) :
    (CanApplyPatch Deserialize s PatchJson).1 = false ∧
    (ApplyJsonPatch Deserialize s PatchJson).1 = false ∧
    (ApplyJsonPatch Deserialize s PatchJson).2.Transactions = s.Transactions ∧
    (ApplyJsonPatch Deserialize s PatchJson).2.CurrentTransaction = s.CurrentTransaction ∧
    (ApplyJsonPatch Deserialize s PatchJson).2.Model = s.Model ∧
    (CanApplyPatch Deserialize s PatchJson).2.Model = s.Model := by
  have h0 : ParsedOperations Deserialize s PatchJson = [] := by
    rcases h with h | h | h
    · exact ParsePatchOperations_rejected _ _ _ (Or.inl h)
    · exact ParsePatchOperations_rejected _ _ _ (Or.inr h)
    · exact h
  obtain ⟨f1, f2, f3⟩ := ValidateStart_frame Deserialize s PatchJson
  rw [ApplyJsonPatch_empty _ _ _ h0, CanApplyPatch_empty _ _ _ h0]
  exact ⟨rfl, rfl, f3, f2, f1, f1⟩

/-- C2 at the text `"\x7b invalid json \x7d"`, which the deserializer rejects. -/
theorem no_operations_rejected_witness :
    (SampleDeserialize "\x7b invalid json \x7d").1 = false ∧
    (CanApplyPatch SampleDeserialize SampleState "\x7b invalid json \x7d").1 = false ∧
    (ApplyJsonPatch SampleDeserialize SampleState "\x7b invalid json \x7d").1 = false ∧
    (ApplyJsonPatch SampleDeserialize SampleState "\x7b invalid json \x7d").2.Transactions = [] ∧
    (ApplyJsonPatch SampleDeserialize SampleState "\x7b invalid json \x7d").2.Model =
      SampleState.Model :=
  have h := no_operations_rejected SampleDeserialize SampleState "\x7b invalid json \x7d"
    (Or.inl (by decide))
  ⟨by decide, h.1, h.2.1, h.2.2.1, h.2.2.2.2.1⟩

/-! ## C3: when `ApplyJsonPatch` returns true -/

/-- C3. `ApplyJsonPatch` returns true exactly when the patch parses to at least
one operation and every parsed operation, applied in array order, succeeds. In
that case the transaction is committed and not cancelled (the history grows by
the begin and the end of the scope, the pointer is reset, the model is the one
the operations left), and success is reported with the number of parsed
operations: as the last log line and, when the editor is there, as a
notification. -/
theorem ApplyJsonPatch_true_iff (Deserialize : FDeserialize) (s : EditorState)
    (PatchJson : String) :
    ((ApplyJsonPatch Deserialize s PatchJson).1 = true ↔
      (ParsedOperations Deserialize s PatchJson ≠ [] ∧
        AllSucceed (ApplyStart Deserialize s PatchJson)
          (ParsedOperations Deserialize s PatchJson))) ∧
    ((ApplyJsonPatch Deserialize s PatchJson).1 = true →
      (ApplyJsonPatch Deserialize s PatchJson).2.Transactions =
        s.Transactions ++ (if s.CurrentTransaction.isSome then [ETransactionEvent.End] else []) ++
          [ETransactionEvent.Begin "Apply AI Patch", ETransactionEvent.End] ∧
      (ApplyJsonPatch Deserialize s PatchJson).2.CurrentTransaction = none ∧
      (ApplyJsonPatch Deserialize s PatchJson).2.Model =
        (StateAfter (ApplyStart Deserialize s PatchJson)
          (ParsedOperations Deserialize s PatchJson)).Model ∧
      (ApplyJsonPatch Deserialize s PatchJson).2.OutputLog.getLast? =
        some (ELogVerbosity.Log, "Successfully applied patch with " ++
          toString (ParsedOperations Deserialize s PatchJson).length ++ " operations") ∧
      (ApplyJsonPatch Deserialize s PatchJson).2.Notifications =
        s.Notifications ++
          (if s.GEditor = true then
            [{ Text := "Successfully applied AI patch with " ++
                 toString (ParsedOperations Deserialize s PatchJson).length ++ " operations",
               bFireAndForget := true, FadeOutDuration := 1, ExpireDuration := 5,
               Image := "MessageLog.Note", ButtonDetails := [] }]
           else [])) := by
  have key : (ParsedOperations Deserialize s PatchJson ≠ [] ∧
      AllSucceed (ApplyStart Deserialize s PatchJson)
        (ParsedOperations Deserialize s PatchJson)) →
      ApplyJsonPatch Deserialize s PatchJson = _ :=
    fun h => ApplyJsonPatch_success Deserialize s PatchJson h.2 h.1
  have hiff : (ApplyJsonPatch Deserialize s PatchJson).1 = true ↔
      (ParsedOperations Deserialize s PatchJson ≠ [] ∧
        AllSucceed (ApplyStart Deserialize s PatchJson)
          (ParsedOperations Deserialize s PatchJson)) := by
    constructor
    · intro ht
      by_cases hne : ParsedOperations Deserialize s PatchJson = []
      · rw [ApplyJsonPatch_empty _ _ _ hne] at ht
        simp at ht
      · refine ⟨hne, ?_⟩
        by_contra hall
        rw [ApplyJsonPatch_failure _ _ _ hall] at ht
        simp at ht
    · intro h
      rw [key h]
  refine ⟨hiff, fun ht => ?_⟩
  have h := hiff.mp ht
  obtain ⟨g1, g2, g3, g4⟩ := ApplyOperations_services (ParsedOperations Deserialize s PatchJson)
    (ApplyStart Deserialize s PatchJson)
  rw [ApplyOperations_StateAfter _ _ h.2] at g1 g2 g3 g4
  simp only at g1 g2 g3 g4
  rw [ApplyStart_CurrentTransaction] at g1
  rw [ApplyStart_Transactions] at g2
  rw [(ApplyStart_Notifications Deserialize s PatchJson).1] at g3
  rw [(ApplyStart_Notifications Deserialize s PatchJson).2] at g4
  rw [key h]
  obtain ⟨a1, _, a3, a4, a5, _⟩ := ShowUserNotification_frame
    (UE_LOG (EndTransaction (StateAfter (ApplyStart Deserialize s PatchJson)
      (ParsedOperations Deserialize s PatchJson))) ELogVerbosity.Log
      ("Successfully applied patch with " ++
        toString (ParsedOperations Deserialize s PatchJson).length ++ " operations"))
    ("Successfully applied AI patch with " ++
      toString (ParsedOperations Deserialize s PatchJson).length ++ " operations") 5 "Info"
  simp only [a1, a3, a4, a5]
  refine ⟨?_, ?_, ?_, ?_, ?_⟩
  · simp [EndTransaction, g1, g2]
  · simp [EndTransaction, g1]
  · simp [EndTransaction, g1]
  · simp
  · cases hg : s.GEditor <;> simp [ShowUserNotification, EndTransaction, g1, g3, g4, hg]

/-- C3 at the single rename: the call returns true, the history is the begin and
the end of the scope, and the success line counts one operation. -/
theorem ApplyJsonPatch_true_iff_witness :
    (ApplyJsonPatch SampleDeserialize SampleState "rename").1 = true ∧
    (ApplyJsonPatch SampleDeserialize SampleState "rename").2.Transactions =
      [ETransactionEvent.Begin "Apply AI Patch", ETransactionEvent.End] ∧
    (ApplyJsonPatch SampleDeserialize SampleState "rename").2.OutputLog.getLast? =
      some (ELogVerbosity.Log, "Successfully applied patch with 1 operations") :=
  have ht : (ApplyJsonPatch SampleDeserialize SampleState "rename").1 = true := by decide
  have h := (ApplyJsonPatch_true_iff SampleDeserialize SampleState "rename").2 ht
  ⟨ht, h.1, h.2.2.2.1⟩

/-! ## C4: the first failing operation -/

/-- C4. When the parsed operations split into operations that succeed in order,
a first operation `bad` that fails, and any rest, `ApplyJsonPatch` returns false
and its final state is built from the state the failing operation left alone:
the transaction is cancelled and `HandlePatchError` is called with the raw patch
text and the reason of the failing operation. So the rest is never attempted
(the log ends with the lines of the failing operation and of the report), the
model is the one before the call, the scope is cancelled and not committed,
`GetLastError` is the reason the failing operation set (non-empty, the same
whatever the last error was before that operation), and the log and the
notifications carry that reason and the raw patch text. -/
theorem ApplyJsonPatch_first_failure (Deserialize : FDeserialize) (s : EditorState)
    (PatchJson : String) (pre post : List (TSharedPtr FJsonObject))
    (bad : TSharedPtr FJsonObject)
    (hsplit : ParsedOperations Deserialize s PatchJson = pre ++ bad :: post)
    (hpre : AllSucceed (ApplyStart Deserialize s PatchJson) pre)
    (hbad : (ApplyPatchOperation (StateAfter (ApplyStart Deserialize s PatchJson) pre) bad).1
      = false) :
    ApplyJsonPatch Deserialize s PatchJson =
      (false, HandlePatchError
        (CancelTransaction (UE_LOG
          (ApplyPatchOperation (StateAfter (ApplyStart Deserialize s PatchJson) pre) bad).2
          ELogVerbosity.Error "Failed to apply patch operation"))
        PatchJson
        (ApplyPatchOperation (StateAfter (ApplyStart Deserialize s PatchJson) pre) bad).2.LastErrorMessage) ∧
    GetLastError (ApplyJsonPatch Deserialize s PatchJson).2 =
      (ApplyPatchOperation (StateAfter (ApplyStart Deserialize s PatchJson) pre) bad).2.LastErrorMessage ∧
    GetLastError (ApplyJsonPatch Deserialize s PatchJson).2 ≠ "" ∧
    (∀ e : String,
      (ApplyPatchOperation (WithError (StateAfter (ApplyStart Deserialize s PatchJson) pre) e)
        bad).2.LastErrorMessage =
      (ApplyPatchOperation (StateAfter (ApplyStart Deserialize s PatchJson) pre) bad).2.LastErrorMessage) ∧
    (ApplyJsonPatch Deserialize s PatchJson).2.Model = s.Model ∧
    (ApplyJsonPatch Deserialize s PatchJson).2.CurrentTransaction = none ∧
    (ApplyJsonPatch Deserialize s PatchJson).2.Transactions =
      s.Transactions ++ (if s.CurrentTransaction.isSome then [ETransactionEvent.End] else []) ++
        [ETransactionEvent.Begin "Apply AI Patch", ETransactionEvent.Cancel] ∧
    (ApplyJsonPatch Deserialize s PatchJson).2.OutputLog =
      (ApplyPatchOperation (StateAfter (ApplyStart Deserialize s PatchJson) pre) bad).2.OutputLog ++
        [(ELogVerbosity.Error, "Failed to apply patch operation"),
         (ELogVerbosity.Error, "SurrealPilot: " ++ ("Failed to apply AI patch: " ++
           (ApplyPatchOperation (StateAfter (ApplyStart Deserialize s PatchJson) pre)
             bad).2.LastErrorMessage)),
         (ELogVerbosity.Verbose, "SurrealPilot: " ++ ("Patch JSON: " ++ PatchJson))] ∧
    (s.GEditor = true →
      ((ApplyJsonPatch Deserialize s PatchJson).2.Notifications.map
          (fun n => (n.Text, n.ExpireDuration))).take (s.Notifications.length + 1) =
        s.Notifications.map (fun n => (n.Text, n.ExpireDuration)) ++
          [("Failed to apply AI patch: " ++
            (ApplyPatchOperation (StateAfter (ApplyStart Deserialize s PatchJson) pre)
              bad).2.LastErrorMessage, 15)]) := by
  have hloop := ApplyOperations_first_failure pre post bad _ hpre hbad
  have hall : ¬ AllSucceed (ApplyStart Deserialize s PatchJson)
      (ParsedOperations Deserialize s PatchJson) := by
    intro h
    have h1 := (ApplyOperations_true_iff _ _).mpr h
    rw [hsplit, hloop] at h1
    simp at h1
  have hout := ApplyJsonPatch_failure Deserialize s PatchJson hall
  obtain ⟨c1, c2, c3⟩ := CancelTransaction_after_loop Deserialize s PatchJson
    (ParsedOperations Deserialize s PatchJson)
  obtain ⟨g1, g2, g3, g4⟩ := ApplyOperations_services (ParsedOperations Deserialize s PatchJson)
    (ApplyStart Deserialize s PatchJson)
  rw [hsplit] at hout c1 c2 c3 g1 g2 g3 g4
  rw [hloop] at hout c1 c2 c3 g1 g2 g3 g4
  simp only [CancelTransaction_LastErrorMessage, UE_LOG_LastErrorMessage] at hout
  have herr := ApplyPatchOperation_error (StateAfter (ApplyStart Deserialize s PatchJson) pre) bad
  obtain ⟨f1, f2, f3, f4⟩ := HandlePatchError_frame
    (CancelTransaction (UE_LOG
      (ApplyPatchOperation (StateAfter (ApplyStart Deserialize s PatchJson) pre) bad).2
      ELogVerbosity.Error "Failed to apply patch operation"))
    PatchJson
    (ApplyPatchOperation (StateAfter (ApplyStart Deserialize s PatchJson) pre) bad).2.LastErrorMessage
  refine ⟨hout, ?_, ?_, ?_, ?_, ?_, ?_, ?_, ?_⟩
  · rw [hout]
    simp [GetLastError, f2, CancelTransaction_LastErrorMessage]
  · rw [hout]
    simpa [GetLastError, f2, CancelTransaction_LastErrorMessage] using herr.2 hbad
  · intro e
    rw [ApplyPatchOperation_WithError]
    simp [OutcomeWithError, hbad]
  · rw [hout]
    exact f1.trans c1
  · rw [hout]
    exact f3.trans c2
  · rw [hout]
    simp only [f4, c3, ApplyStart_Transactions]
    simp
  · rw [hout, HandlePatchError_OutputLog]
    have hl : (CancelTransaction (UE_LOG
        (ApplyPatchOperation (StateAfter (ApplyStart Deserialize s PatchJson) pre) bad).2
        ELogVerbosity.Error "Failed to apply patch operation")).OutputLog =
        (ApplyPatchOperation (StateAfter (ApplyStart Deserialize s PatchJson) pre) bad).2.OutputLog
          ++ [(ELogVerbosity.Error, "Failed to apply patch operation")] := by
      unfold CancelTransaction
      split <;> rfl
    simp [hl]
  · intro hg
    have hge : (CancelTransaction (UE_LOG
        (ApplyPatchOperation (StateAfter (ApplyStart Deserialize s PatchJson) pre) bad).2
        ELogVerbosity.Error "Failed to apply patch operation")).GEditor = true := by
      have : (CancelTransaction (UE_LOG
          (ApplyPatchOperation (StateAfter (ApplyStart Deserialize s PatchJson) pre) bad).2
          ELogVerbosity.Error "Failed to apply patch operation")).GEditor =
          (ApplyPatchOperation (StateAfter (ApplyStart Deserialize s PatchJson) pre) bad).2.GEditor := by
        unfold CancelTransaction
        split <;> rfl
      rw [this]
      simpa [(ApplyStart_Notifications Deserialize s PatchJson).2, hg] using g4
    have hno : (CancelTransaction (UE_LOG
        (ApplyPatchOperation (StateAfter (ApplyStart Deserialize s PatchJson) pre) bad).2
        ELogVerbosity.Error "Failed to apply patch operation")).Notifications =
        s.Notifications := by
      have : (CancelTransaction (UE_LOG
          (ApplyPatchOperation (StateAfter (ApplyStart Deserialize s PatchJson) pre) bad).2
          ELogVerbosity.Error "Failed to apply patch operation")).Notifications =
          (ApplyPatchOperation (StateAfter (ApplyStart Deserialize s PatchJson) pre) bad).2.Notifications := by
        unfold CancelTransaction
        split <;> rfl
      rw [this]
      simpa [(ApplyStart_Notifications Deserialize s PatchJson).1] using g3
    rw [hout]
    simp only [HandlePatchError_Notifications _ _ _ hge, hno]
    simp [List.take_append_eq_append_take]

/-- C4 at the batch of the deletion of a missing node followed by a rename: the
deletion fails, the rename after it is not attempted, the reason is that of the
deletion and the model is the one before the call. -/
theorem ApplyJsonPatch_first_failure_witness :
    ParsedOperations SampleDeserialize SampleState "delete+rename" =
      [] ++ some DeleteMissingOp :: [some RenameOp] ∧
    (ApplyJsonPatch SampleDeserialize SampleState "delete+rename").1 = false ∧
    GetLastError (ApplyJsonPatch SampleDeserialize SampleState "delete+rename").2 =
      "Node not found: NoSuchNode" ∧
    (ApplyJsonPatch SampleDeserialize SampleState "delete+rename").2.Model = SampleState.Model ∧
    (ApplyJsonPatch SampleDeserialize SampleState "delete+rename").2.Transactions =
      [ETransactionEvent.Begin "Apply AI Patch", ETransactionEvent.Cancel] :=
  have h := ApplyJsonPatch_first_failure SampleDeserialize SampleState "delete+rename"
    [] [some RenameOp] (some DeleteMissingOp) rfl trivial (by decide)
  ⟨rfl, congrArg Prod.fst h.1, h.2.1, h.2.2.2.2.1, h.2.2.2.2.2.2.1⟩

/-! ## C5 and C6: `CanApplyPatch` -/

theorem ValidateOperations_all (ops : List (TSharedPtr FJsonObject)) (s : EditorState)
    (h : ∀ op ∈ ops, (ValidatePatchOperation s op).1 = true) :
    ValidateOperations s ops = (true, s) := by
  induction ops with
  | nil => rfl
  | cons op rest ih =>
    have h1 := ValidatePatchOperation_true s op (h op (List.mem_cons_self _ _))
    simp only [ValidateOperations, h1, if_true]
    exact ih fun o ho => h o (List.mem_cons_of_mem _ ho)

/-- The validation loop returns at the first operation that does not validate:
what follows it has no part in the outcome. -/
theorem ValidateOperations_first_failure (pre post : List (TSharedPtr FJsonObject))
    (bad : TSharedPtr FJsonObject) (s : EditorState)
    (hpre : ∀ op ∈ pre, (ValidatePatchOperation s op).1 = true)
    (hbad : (ValidatePatchOperation s bad).1 = false) :
    ValidateOperations s (pre ++ bad :: post) = (false, (ValidatePatchOperation s bad).2) := by
  induction pre with
  | nil => simp [ValidateOperations, hbad]
  | cons op rest ih =>
    have h1 := ValidatePatchOperation_true s op (hpre op (List.mem_cons_self _ _))
    simp only [List.cons_append, ValidateOperations, h1, if_true]
    exact ih fun o ho => hpre o (List.mem_cons_of_mem _ ho)

theorem ValidateOperations_true_iff (ops : List (TSharedPtr FJsonObject)) (s : EditorState) :
    (ValidateOperations s ops).1 = true ↔ ∀ op ∈ ops, (ValidatePatchOperation s op).1 = true := by
  constructor
  · intro h
    induction ops with
    | nil => simp
    | cons op rest ih =>
      cases h1 : (ValidatePatchOperation s op).1 with
      | false => simp [ValidateOperations, h1] at h
      | true =>
        have h2 := ValidatePatchOperation_true s op h1
        simp only [ValidateOperations, h2, if_true] at h
        intro o ho
        rcases List.mem_cons.mp ho with rfl | ho
        · exact h1
        · exact ih h o ho
  · intro h
    rw [ValidateOperations_all ops s h]

theorem ValidateOperations_frame (ops : List (TSharedPtr FJsonObject)) (s : EditorState) :
    (ValidateOperations s ops).2.Model = s.Model ∧
    (ValidateOperations s ops).2.CurrentTransaction = s.CurrentTransaction ∧
    (ValidateOperations s ops).2.Transactions = s.Transactions ∧
    ((ValidateOperations s ops).1 = true → (ValidateOperations s ops).2 = s) ∧
    ((ValidateOperations s ops).1 = false → (ValidateOperations s ops).2.LastErrorMessage ≠ "") := by
  induction ops with
  | nil => simp [ValidateOperations]
  | cons op rest ih =>
    cases h1 : (ValidatePatchOperation s op).1 with
    | false =>
      obtain ⟨msg, hne, h2⟩ := ValidatePatchOperation_false s op h1
      simp [ValidateOperations, h2, hne]
    | true =>
      have h2 := ValidatePatchOperation_true s op h1
      simpa [ValidateOperations, h2] using ih

/-- C5. `CanApplyPatch` never mutates the graph model: for every text and every
state, the graph model (the Blueprints with their variables, graphs and nodes)
after the call is the one before it, and no transaction is opened: the
transaction pointer and the transaction history are unchanged. -/
theorem CanApplyPatch_readonly (Deserialize : FDeserialize) (s : EditorState)
    (PatchJson : String) :
    (CanApplyPatch Deserialize s PatchJson).2.Model = s.Model ∧
    (CanApplyPatch Deserialize s PatchJson).2.CurrentTransaction = s.CurrentTransaction ∧
    (CanApplyPatch Deserialize s PatchJson).2.Transactions = s.Transactions := by
  by_cases hne : ParsedOperations Deserialize s PatchJson = []
  · obtain ⟨f1, f2, f3⟩ := ValidateStart_frame Deserialize s PatchJson
    rw [CanApplyPatch_empty _ _ _ hne]
    exact ⟨f1, f2, f3⟩
  · obtain ⟨f1, f2, f3, _⟩ := ValidateOperations_frame (ParsedOperations Deserialize s PatchJson)
      (WithError s "")
    rw [CanApplyPatch_nonempty _ _ _ hne]
    exact ⟨f1, f2, f3⟩

/-- C6. `CanApplyPatch` returns true exactly when the patch parses to at least
one operation and every operation validates. Validation is fail-fast: when the
parsed operations split into operations that validate, a first operation `bad`
that does not, and any rest, the call returns false in the state validation of
`bad` left (the rest is not validated), and `GetLastError` is the reason of
`bad`. -/
theorem CanApplyPatch_true_iff (Deserialize : FDeserialize) (s : EditorState)
    (PatchJson : String) :
    ((CanApplyPatch Deserialize s PatchJson).1 = true ↔
      (ParsedOperations Deserialize s PatchJson ≠ [] ∧
        ∀ op ∈ ParsedOperations Deserialize s PatchJson,
          (ValidatePatchOperation s op).1 = true)) ∧
    (∀ (pre post : List (TSharedPtr FJsonObject)) (bad : TSharedPtr FJsonObject),
      ParsedOperations Deserialize s PatchJson = pre ++ bad :: post →
      (∀ op ∈ pre, (ValidatePatchOperation s op).1 = true) →
      (ValidatePatchOperation s bad).1 = false →
        CanApplyPatch Deserialize s PatchJson =
          (false, (ValidatePatchOperation (WithError s "") bad).2) ∧
        GetLastError (CanApplyPatch Deserialize s PatchJson).2 =
          (ValidatePatchOperation s bad).2.LastErrorMessage) := by
  have hm : ∀ op, (ValidatePatchOperation (WithError s "") op).1 =
      (ValidatePatchOperation s op).1 := fun op => ValidatePatchOperation_model _ _ op rfl
  constructor
  · by_cases hne : ParsedOperations Deserialize s PatchJson = []
    · rw [CanApplyPatch_empty _ _ _ hne]
      simp [hne]
    · rw [CanApplyPatch_nonempty _ _ _ hne, ValidateOperations_true_iff]
      simp [hne, hm]
  · intro pre post bad hsplit hpre hbad
    have hne : ParsedOperations Deserialize s PatchJson ≠ [] := by
      rw [hsplit]
      simp
    have hout : CanApplyPatch Deserialize s PatchJson =
        (false, (ValidatePatchOperation (WithError s "") bad).2) := by
      rw [CanApplyPatch_nonempty _ _ _ hne, hsplit]
      exact ValidateOperations_first_failure pre post bad _
        (fun o ho => (hm o).trans (hpre o ho)) ((hm bad).trans hbad)
    refine ⟨hout, ?_⟩
    rw [hout]
    rcases ValidatePatchOperation_cases s.Model bad with hc | ⟨msg, _, hc⟩
    · rw [hc s rfl] at hbad
      simp at hbad
    · rw [hc s rfl, hc (WithError s "") rfl]
      rfl

/-- C6 at the batch of the deletion of a missing node and the rename, on a state
without Blueprints: the first operation does not validate, the call returns
false and the reason is that of the first operation. -/
theorem CanApplyPatch_true_iff_witness :
    (CanApplyPatch SampleDeserialize { SampleState with Model := ⟨[], []⟩ } "delete+rename").1
      = false ∧
    GetLastError
      (CanApplyPatch SampleDeserialize { SampleState with Model := ⟨[], []⟩ } "delete+rename").2
      = "Blueprint not found: TestBlueprint" ∧
    (CanApplyPatch SampleDeserialize SampleState "rename").1 = true :=
  have h := (CanApplyPatch_true_iff SampleDeserialize { SampleState with Model := ⟨[], []⟩ }
    "delete+rename").2 [] [some RenameOp] (some DeleteMissingOp) rfl (by simp) (by decide)
  ⟨congrArg Prod.fst h.1, h.2,
    by decide⟩

/-! ## C7 and C8: `ParsePatchOperations` -/

/-- Every element of the array becomes an operation: `AsObject` never returns a
null pointer, so the validity test in the loop never drops an element. -/
theorem CollectOperations_eq (Values : List FJsonValue) :
    CollectOperations Values = Values.map AsObject := by
  induction Values with
  | nil => rfl
  | cons v rest ih =>
    cases v <;> simp [CollectOperations, AsObject, ih]

theorem ParsePatchOperations_array_all (Deserialize : FDeserialize) (s : EditorState)
    (PatchJson : String) (JsonObject : FJsonObject) (OperationsArray : List FJsonValue)
    (hdoc : Deserialize PatchJson = (true, some JsonObject))
    (harr : FindField JsonObject "operations" = some (FJsonValue.Array OperationsArray)) :
    ParsePatchOperations Deserialize s PatchJson = (OperationsArray.map AsObject, s) := by
  simp [ParsePatchOperations, hdoc, HasField, TryGetArrayField, harr, CollectOperations_eq]

/-- C7, at the failing input. The array of `MixedArrayDoc` holds the rename, the
number 7 and the deletion of a missing node. Its object-valued elements are the
two operations, but parsing yields three: the number is not dropped, it becomes
an operation that is an empty object. So the patch of the rename and a number
does not validate (the empty operation has no `type`), while the rename alone
does. An array whose elements are all objects yields them as they are. -/
theorem non_object_elements_kept :
    ObjectElements [FJsonValue.Object RenameOp, FJsonValue.Number (FDouble.OfInt 7) "7",
      FJsonValue.Object DeleteMissingOp] = [RenameOp, DeleteMissingOp] ∧
    (ParsePatchOperations (DeserializeAs MixedArrayDoc) SampleState "patch").1 =
      [some RenameOp, some [], some DeleteMissingOp] ∧
    (CanApplyPatch (DeserializeAs RenameAndNumberDoc) SampleState "patch").1 = false ∧
    GetLastError (CanApplyPatch (DeserializeAs RenameAndNumberDoc) SampleState "patch").2 =
      "Operation missing \x27type\x27 field" ∧
    (CanApplyPatch (DeserializeAs RenameOp) SampleState "patch").1 = true ∧
    (ParsePatchOperations SampleDeserialize SampleState "rename+delete").1 =
      [some RenameOp, some DeleteMissingOp] :=
  ⟨rfl, rfl, by decide, by decide, by decide, rfl⟩

/-- C8. For every JSON object (what the deserializer made of the text) without
an `operations` field, parsing yields exactly one operation, the object itself,
when it has a `type` field, and zero operations otherwise; the state is left as
it is. -/
theorem ParsePatchOperations_single (Deserialize : FDeserialize) (s : EditorState)
    (PatchJson : String) (JsonObject : FJsonObject)
    (hdoc : Deserialize PatchJson = (true, some JsonObject))
    (hno : HasField JsonObject "operations" = false) :
    ParsePatchOperations Deserialize s PatchJson =
      (if HasField JsonObject "type" = true then [some JsonObject] else [], s) := by
  cases ht : HasField JsonObject "type" <;> simp [ParsePatchOperations, hdoc, hno, ht]

/-- C8 at the single rename document and at the empty object: one operation, the
object itself, and none. -/
theorem ParsePatchOperations_single_witness :
    (ParsePatchOperations SampleDeserialize SampleState "rename").1 = [some RenameOp] ∧
    (ParsePatchOperations SampleDeserialize SampleState "\x7b\x7d").1 = [] :=
  ⟨congrArg Prod.fst
      (ParsePatchOperations_single SampleDeserialize SampleState "rename" RenameOp rfl rfl),
    congrArg Prod.fst
      (ParsePatchOperations_single SampleDeserialize SampleState "\x7b\x7d" [] rfl rfl)⟩

/-! ## C9: the last error is cleared at the start of a call -/

/-- C9. The last error is cleared at the start of every `ApplyJsonPatch` and
`CanApplyPatch` call: the outcome of a call does not depend on the error `e` an
earlier call left; after a call that returns true `GetLastError` is the empty
string, and after a call that returns false it is a non-empty reason set by that
call. -/
theorem LastError_cleared (Deserialize : FDeserialize) (s : EditorState) (PatchJson : String)
    (e : String) :
    ApplyJsonPatch Deserialize (WithError s e) PatchJson = ApplyJsonPatch Deserialize s PatchJson ∧
    CanApplyPatch Deserialize (WithError s e) PatchJson = CanApplyPatch Deserialize s PatchJson ∧
    ((ApplyJsonPatch Deserialize s PatchJson).1 = true →
      GetLastError (ApplyJsonPatch Deserialize s PatchJson).2 = "") ∧
    ((ApplyJsonPatch Deserialize s PatchJson).1 = false →
      GetLastError (ApplyJsonPatch Deserialize s PatchJson).2 ≠ "") ∧
    ((CanApplyPatch Deserialize s PatchJson).1 = true →
      GetLastError (CanApplyPatch Deserialize s PatchJson).2 = "") ∧
    ((CanApplyPatch Deserialize s PatchJson).1 = false →
      GetLastError (CanApplyPatch Deserialize s PatchJson).2 ≠ "") := by
  refine ⟨rfl, rfl, ?_, ?_, ?_, ?_⟩
  · intro ht
    by_cases hne : ParsedOperations Deserialize s PatchJson = []
    · rw [ApplyJsonPatch_empty _ _ _ hne] at ht
      simp at ht
    · by_cases hall : AllSucceed (ApplyStart Deserialize s PatchJson)
          (ParsedOperations Deserialize s PatchJson)
      · have h1 := (ApplyOperations_error (ParsedOperations Deserialize s PatchJson)
          (ApplyStart Deserialize s PatchJson)).1 ((ApplyOperations_true_iff _ _).mpr hall)
        rw [ApplyOperations_StateAfter _ _ hall, ApplyStart_LastErrorMessage _ _ _ hne] at h1
        rw [ApplyJsonPatch_success _ _ _ hall hne]
        simp only [GetLastError, (ShowUserNotification_frame _ _ _ _).2.1,
          UE_LOG_LastErrorMessage]
        unfold EndTransaction
        split <;> exact h1
      · rw [ApplyJsonPatch_failure _ _ _ hall] at ht
        simp at ht
  · intro hf
    by_cases hne : ParsedOperations Deserialize s PatchJson = []
    · rw [ApplyJsonPatch_empty _ _ _ hne]
      simp [GetLastError]
    · by_cases hall : AllSucceed (ApplyStart Deserialize s PatchJson)
          (ParsedOperations Deserialize s PatchJson)
      · rw [ApplyJsonPatch_success _ _ _ hall hne] at hf
        simp at hf
      · have hb : (ApplyOperations (ApplyStart Deserialize s PatchJson)
            (ParsedOperations Deserialize s PatchJson)).1 = false := by
          cases hb : (ApplyOperations (ApplyStart Deserialize s PatchJson)
            (ParsedOperations Deserialize s PatchJson)).1
          · rfl
          · exact absurd ((ApplyOperations_true_iff _ _).mp hb) hall
        have h1 := (ApplyOperations_error (ParsedOperations Deserialize s PatchJson)
          (ApplyStart Deserialize s PatchJson)).2 hb
        rw [ApplyJsonPatch_failure _ _ _ hall]
        simpa [GetLastError, (HandlePatchError_frame _ _ _).2.1,
          CancelTransaction_LastErrorMessage] using h1
  · intro ht
    by_cases hne : ParsedOperations Deserialize s PatchJson = []
    · rw [CanApplyPatch_empty _ _ _ hne] at ht
      simp at ht
    · rw [CanApplyPatch_nonempty _ _ _ hne] at ht ⊢
      rw [(ValidateOperations_frame _ _).2.2.2.1 ht]
      rfl
  · intro hf
    by_cases hne : ParsedOperations Deserialize s PatchJson = []
    · rw [CanApplyPatch_empty _ _ _ hne]
      simp [GetLastError]
    · rw [CanApplyPatch_nonempty _ _ _ hne] at hf ⊢
      exact (ValidateOperations_frame _ _).2.2.2.2 hf

/-- C9 at the sample state, whose last error is a stale message: after the
rename succeeds the last error is empty, and after the failing batch it is the
reason of that batch. -/
theorem LastError_cleared_witness :
    GetLastError SampleState = "stale" ∧
    GetLastError (ApplyJsonPatch SampleDeserialize SampleState "rename").2 = "" ∧
    GetLastError (ApplyJsonPatch SampleDeserialize SampleState "rename+delete").2 ≠ "" ∧
    GetLastError (CanApplyPatch SampleDeserialize SampleState "rename").2 = "" :=
  have h := LastError_cleared SampleDeserialize SampleState "rename" ""
  have h2 := LastError_cleared SampleDeserialize SampleState "rename+delete" ""
  ⟨rfl, h.2.2.1 (by decide), h2.2.2.2.1 (by decide), h.2.2.2.2.1 (by decide)⟩

/-! ## C10: `variable_rename` -/

theorem FindLoadedBlueprint_get (Blueprints : List UBlueprint) (k : Nat) (path : String)
    (i : Nat) (Blueprint : UBlueprint)
    (h : FindLoadedBlueprint Blueprints k path = some (i, Blueprint)) :
    k ≤ i ∧ Blueprints[i - k]? = some Blueprint := by
  induction Blueprints generalizing k with
  | nil => simp [FindLoadedBlueprint] at h
  | cons b rest ih =>
    simp only [FindLoadedBlueprint] at h
    split at h
    · simp only [Option.some.injEq, Prod.mk.injEq] at h
      obtain ⟨rfl, rfl⟩ := h
      simp
    · obtain ⟨h1, h2⟩ := ih (k + 1) h
      refine ⟨by omega, ?_⟩
      have : i - k = (i - (k + 1)) + 1 := by omega
      rw [this]
      simpa using h2

/-- The pointer `FindBlueprint` returns points at the Blueprint it returns. -/
theorem FindBlueprint_get (m : GraphModel) (path : String) (i : Nat) (Blueprint : UBlueprint)
    (h : FindBlueprint m path = some (i, Blueprint)) : m.Blueprints[i]? = some Blueprint := by
  simp only [FindBlueprint] at h
  split at h
  · split at h
    · rename_i j _
      cases hj : m.Blueprints[j]? with
      | none => simp [hj] at h
      | some b =>
        simp only [hj, Option.map_some', Option.some.injEq, Prod.mk.injEq] at h
        obtain ⟨rfl, rfl⟩ := h
        exact hj
    · simp at h
  · simpa using (FindLoadedBlueprint_get _ _ _ _ _ h).2

/-- The pointer `FindVariable` returns: the first variable with the name. -/
theorem FindVariableIn_some (Variables : List FBPVariableDescription) (Name : String)
    (h : ∃ v ∈ Variables, FStringEquals v.VarName Name) :
    ∃ k v, FindVariableIn Variables Name = some k ∧ Variables[k]? = some v ∧
      FStringEquals v.VarName Name ∧
      ∀ j w, j < k → Variables[j]? = some w → ¬ FStringEquals w.VarName Name := by
  induction Variables with
  | nil => simp at h
  | cons x rest ih =>
    by_cases hx : FStringEquals x.VarName Name
    · exact ⟨0, x, by simp [FindVariableIn, hx], by simp, hx, fun j w hj => absurd hj (by omega)⟩
    · have h2 : ∃ v ∈ rest, FStringEquals v.VarName Name := by
        obtain ⟨v, hv, hn⟩ := h
        rcases List.mem_cons.mp hv with rfl | hv
        · exact absurd hn hx
        · exact ⟨v, hv, hn⟩
      obtain ⟨k, v, e1, e2, e3, e4⟩ := ih h2
      refine ⟨k + 1, v, by simp [FindVariableIn, hx, e1], by simpa using e2, e3, ?_⟩
      intro j w hj hw
      cases j with
      | zero =>
        simp only [List.getElem?_cons_zero, Option.some.injEq] at hw
        subst hw
        exact hx
      | succ j => exact e4 j w (by omega) (by simpa using hw)

/-- What `ApplyPatchOperation` does with a `variable_rename` whose Blueprint and
variable are found. -/
theorem ApplyPatchOperation_rename_model (s : EditorState) (Op : FJsonObject)
    (BlueprintPath OldName NewName : String) (i k : Nat) (Blueprint : UBlueprint)
    (hty : TryGetStringField Op "type" = some "variable_rename")
    (hbp : TryGetStringField Op "blueprint" = some BlueprintPath)
    (hold : TryGetStringField Op "old_name" = some OldName)
    (hnew : TryGetStringField Op "new_name" = some NewName)
    (hfind : FindBlueprint s.Model BlueprintPath = some (i, Blueprint))
    (hvar : FindVariableIn Blueprint.NewVariables OldName = some k) :
    (ApplyPatchOperation s (some Op)).1 = true ∧
    (ApplyPatchOperation s (some Op)).2.Model.Blueprints = s.Model.Blueprints.set i
      { Blueprint with
        NewVariables := SetVarName Blueprint.NewVariables k NewName,
        Graphs := UpdateVariableReferences OldName NewName Blueprint.Graphs,
        Modified := true } := by
  simp [ApplyPatchOperation, hty, ApplyVariableRename, hbp, hold, hnew, hfind, FindVariable, hvar,
    StoreBlueprint, MarkBlueprintAsModified]

/-- When the first parsed operation fails, `ApplyJsonPatch` returns false with the
reason that operation set, and the model is the one before the call. -/
theorem ApplyJsonPatch_head_failure (D : FDeserialize) (s : EditorState) (json : String)
    (Op : TSharedPtr FJsonObject) (rest : List (TSharedPtr FJsonObject))
    (hparse : ParsedOperations D s json = Op :: rest)
    (hfail : (ApplyPatchOperation (ApplyStart D s json) Op).1 = false) :
    (ApplyJsonPatch D s json).1 = false ∧
    GetLastError (ApplyJsonPatch D s json).2 =
      (ApplyPatchOperation (ApplyStart D s json) Op).2.LastErrorMessage ∧
    (ApplyJsonPatch D s json).2.Model = s.Model := by
  have hloop := ApplyOperations_first_failure [] rest Op (ApplyStart D s json) trivial
    (by simpa [StateAfter] using hfail)
  simp only [List.nil_append, StateAfter] at hloop
  have hall : ¬ AllSucceed (ApplyStart D s json) (ParsedOperations D s json) := by
    rw [hparse]
    intro h
    rw [h.1] at hfail
    exact Bool.noConfusion hfail
  have hout := ApplyJsonPatch_failure D s json hall
  have hc := (CancelTransaction_after_loop D s json (ParsedOperations D s json)).1
  rw [hout]
  refine ⟨rfl, ?_, ?_⟩
  · simp only [GetLastError, (HandlePatchError_frame _ _ _).2.1,
      CancelTransaction_LastErrorMessage]
    rw [hparse, hloop]
    rfl
  · rw [(HandlePatchError_frame _ _ _).1]
    exact hc

/-- With a first operation that does not validate, after operations that do,
`CanApplyPatch` returns false in the state validation of that operation left. -/
theorem CanApplyPatch_first_invalid (D : FDeserialize) (s : EditorState) (json : String)
    (pre post : List (TSharedPtr FJsonObject)) (bad : TSharedPtr FJsonObject)
    (hsplit : ParsedOperations D s json = pre ++ bad :: post)
    (hpre : ∀ op ∈ pre, (ValidatePatchOperation s op).1 = true)
    (hbad : (ValidatePatchOperation s bad).1 = false) :
    CanApplyPatch D s json = (false, (ValidatePatchOperation (WithError s "") bad).2) := by
  have hm : ∀ op, (ValidatePatchOperation (WithError s "") op).1 =
      (ValidatePatchOperation s op).1 := fun op => ValidatePatchOperation_model _ _ op rfl
  have hne : ParsedOperations D s json ≠ [] := by
    rw [hsplit]
    simp
  rw [CanApplyPatch_nonempty _ _ _ hne, hsplit]
  exact ValidateOperations_first_failure pre post bad _
    (fun o ho => (hm o).trans (hpre o ho)) ((hm bad).trans hbad)

/-- When the patch has operations and all of them validate, `CanApplyPatch`
returns true. -/
theorem CanApplyPatch_all_valid (D : FDeserialize) (s : EditorState) (json : String)
    (hne : ParsedOperations D s json ≠ [])
    (hall : ∀ op ∈ ParsedOperations D s json, (ValidatePatchOperation s op).1 = true) :
    (CanApplyPatch D s json).1 = true := by
  have hm : ∀ op, (ValidatePatchOperation (WithError s "") op).1 =
      (ValidatePatchOperation s op).1 := fun op => ValidatePatchOperation_model _ _ op rfl
  rw [CanApplyPatch_nonempty _ _ _ hne, ValidateOperations_true_iff]
  exact fun op hop => (hm op).trans (hall op hop)

/-- An operation of an unimplemented kind fails in every state, with the reason
of its kind, and leaves the model as it is. -/
theorem ApplyPatchOperation_unimplemented (s : EditorState) (Op : FJsonObject)
    (OperationType : String) (hty : TryGetStringField Op "type" = some OperationType)
    (hkind : OperationType = "node_modify" ∨ OperationType = "connection_add" ∨
      OperationType = "connection_remove") :
    (ApplyPatchOperation s (some Op)).1 = false ∧
    (ApplyPatchOperation s (some Op)).2.LastErrorMessage =
      (if OperationType = "node_modify" then "Node modification not yet implemented"
       else "Connection operations not yet implemented") ∧
    (ApplyPatchOperation s (some Op)).2.Model = s.Model := by
  rcases hkind with rfl | rfl | rfl <;>
    simp [ApplyPatchOperation, hty, ApplyNodeModification, ApplyConnectionOperation]

/-! ## C15: the unimplemented kinds -/

/-- C15. For every operation of type `node_modify`, `connection_add` or
`connection_remove`, whatever its other fields and whatever the state, applying
it fails with the not-implemented reason of its kind and leaves the model as it
is; so `ApplyJsonPatch` on a patch whose first (or only) operation is such an
operation returns false, `GetLastError` is that reason, and the graph model is
the one before the call. -/
theorem unimplemented_kinds_fail (s : EditorState) (Op : FJsonObject) (OperationType : String)
    (hty : TryGetStringField Op "type" = some OperationType)
    (hkind : OperationType = "node_modify" ∨ OperationType = "connection_add" ∨
      OperationType = "connection_remove") :
    (ApplyPatchOperation s (some Op)).1 = false ∧
    GetLastError (ApplyPatchOperation s (some Op)).2 =
      (if OperationType = "node_modify" then "Node modification not yet implemented"
       else "Connection operations not yet implemented") ∧
    (ApplyPatchOperation s (some Op)).2.Model = s.Model ∧
    ∀ (Deserialize : FDeserialize) (PatchJson : String) (rest : List (TSharedPtr FJsonObject)),
      ParsedOperations Deserialize s PatchJson = some Op :: rest →
        (ApplyJsonPatch Deserialize s PatchJson).1 = false ∧
        GetLastError (ApplyJsonPatch Deserialize s PatchJson).2 =
          (if OperationType = "node_modify" then "Node modification not yet implemented"
           else "Connection operations not yet implemented") ∧
        (ApplyJsonPatch Deserialize s PatchJson).2.Model = s.Model := by
  obtain ⟨a1, a2, a3⟩ := ApplyPatchOperation_unimplemented s Op OperationType hty hkind
  refine ⟨a1, a2, a3, ?_⟩
  intro D json rest hparse
  obtain ⟨b1, b2, _⟩ := ApplyPatchOperation_unimplemented (ApplyStart D s json) Op OperationType
    hty hkind
  obtain ⟨c1, c2, c3⟩ := ApplyJsonPatch_head_failure D s json (some Op) rest hparse b1
  exact ⟨c1, c2.trans b2, c3⟩

/-- C15 at the document that is a single `node_modify` operation: the call
returns false with the not-implemented reason and the model is unchanged. -/
theorem unimplemented_kinds_fail_witness :
    (ApplyJsonPatch (DeserializeAs NodeModifyOp) SampleState "node_modify").1 = false ∧
    GetLastError (ApplyJsonPatch (DeserializeAs NodeModifyOp) SampleState "node_modify").2 =
      "Node modification not yet implemented" ∧
    (ApplyJsonPatch (DeserializeAs NodeModifyOp) SampleState "node_modify").2.Model =
      SampleState.Model :=
  (unimplemented_kinds_fail SampleState NodeModifyOp "node_modify" rfl (Or.inl rfl)).2.2.2
    (DeserializeAs NodeModifyOp) "node_modify" [] rfl

/-! ## C16: the generic checks of validation -/

/-- C16. Validation runs its generic checks before any kind-specific one. For
every operation, whatever its other fields: when `type` is absent (or holds
nothing that can be read as text) it fails with the missing-type reason;
otherwise, when `blueprint` is absent (or cannot be read as text), with the
missing-blueprint reason; otherwise, when the Blueprint cannot be resolved, with
`Blueprint not found:` followed by the path. So `CanApplyPatch` on a patch whose
first operation that does not validate names a Blueprint that does not exist
returns false with that reason. -/
theorem validation_generic_checks (s : EditorState) (Op : FJsonObject) :
    (HasField Op "type" = false → TryGetStringField Op "type" = none) ∧
    (HasField Op "blueprint" = false → TryGetStringField Op "blueprint" = none) ∧
    (TryGetStringField Op "type" = none →
      ValidatePatchOperation s (some Op) =
        (false, SetLastError s "Operation missing \x27type\x27 field")) ∧
    (∀ OperationType : String, TryGetStringField Op "type" = some OperationType →
      TryGetStringField Op "blueprint" = none →
      ValidatePatchOperation s (some Op) =
        (false, SetLastError s "Operation missing \x27blueprint\x27 field")) ∧
    (∀ OperationType BlueprintPath : String,
      TryGetStringField Op "type" = some OperationType →
      TryGetStringField Op "blueprint" = some BlueprintPath →
      FindBlueprint s.Model BlueprintPath = none →
      ValidatePatchOperation s (some Op) =
          (false, SetLastError s ("Blueprint not found: " ++ BlueprintPath)) ∧
        ∀ (Deserialize : FDeserialize) (PatchJson : String)
          (pre post : List (TSharedPtr FJsonObject)),
          ParsedOperations Deserialize s PatchJson = pre ++ some Op :: post →
          (∀ op ∈ pre, (ValidatePatchOperation s op).1 = true) →
            (CanApplyPatch Deserialize s PatchJson).1 = false ∧
            GetLastError (CanApplyPatch Deserialize s PatchJson).2 =
              "Blueprint not found: " ++ BlueprintPath) := by
  have habsent : ∀ FieldName : String, HasField Op FieldName = false →
      TryGetStringField Op FieldName = none := by
    intro FieldName h
    unfold HasField at h
    cases hf : FindField Op FieldName with
    | none => simp [TryGetStringField, hf]
    | some Field => simp [hf] at h
  refine ⟨habsent "type", habsent "blueprint", ?_, ?_, ?_⟩
  · intro hty
    simp [ValidatePatchOperation, hty]
  · intro ty hty hbp
    simp [ValidatePatchOperation, hty, hbp]
  · intro ty path hty hbp hfind
    have hv : ∀ t : EditorState, t.Model = s.Model → ValidatePatchOperation t (some Op) =
        (false, SetLastError t ("Blueprint not found: " ++ path)) := by
      intro t ht
      simp [ValidatePatchOperation, hty, hbp, ht, hfind]
    refine ⟨hv s rfl, ?_⟩
    intro D json pre post hsplit hpre
    have hbad : (ValidatePatchOperation s (some Op)).1 = false := by rw [hv s rfl]
    rw [CanApplyPatch_first_invalid D s json pre post (some Op) hsplit hpre hbad,
      hv (WithError s "") rfl]
    exact ⟨rfl, rfl⟩

/-- C16 at an operation that names the Blueprint `/Game/Nowhere` and lacks the
name fields of a rename: validation fails on the Blueprint, not on the fields. -/
theorem validation_generic_checks_witness :
    (CanApplyPatch (DeserializeAs MissingBlueprintOp) SampleState "patch").1 = false ∧
    GetLastError (CanApplyPatch (DeserializeAs MissingBlueprintOp) SampleState "patch").2 =
      "Blueprint not found: /Game/Nowhere" :=
  ((validation_generic_checks SampleState MissingBlueprintOp).2.2.2.2 "variable_rename"
    "/Game/Nowhere" rfl rfl rfl).2 (DeserializeAs MissingBlueprintOp) "patch" [] [] rfl
    (fun _ h => absurd h (List.not_mem_nil _))

/-! ## C17: types that are not a known kind -/

/-- C17, at the failing input. The operation with type `frobnicate` on the
sample Blueprint, and the one with the empty type, pass validation:
`ValidatePatchOperation` and `CanApplyPatch` return true for them, although
`ApplyJsonPatch` on the same patch fails with the unknown-type reason. -/
theorem unknown_type_passes_validation :
    (ValidatePatchOperation SampleState (some UnknownTypeOp)).1 = true ∧
    (CanApplyPatch (DeserializeAs UnknownTypeOp) SampleState "patch").1 = true ∧
    (ApplyJsonPatch (DeserializeAs UnknownTypeOp) SampleState "patch").1 = false ∧
    GetLastError (ApplyJsonPatch (DeserializeAs UnknownTypeOp) SampleState "patch").2 =
      "Unknown operation type: frobnicate" ∧
    (CanApplyPatch (DeserializeAs [("type", FJsonValue.String "" none),
      ("blueprint", FJsonValue.String "TestBlueprint" none)]) SampleState "patch").1 = true := by
  decide

/-! ## C18: validation of `variable_rename` -/

theorem FindVariableIn_isSome_iff (Variables : List FBPVariableDescription) (Name : String) :
    (FindVariableIn Variables Name).isSome = true ↔
      ∃ v ∈ Variables, FStringEquals v.VarName Name := by
  constructor
  · intro h
    induction Variables with
    | nil => simp [FindVariableIn] at h
    | cons x rest ih =>
      by_cases hx : FStringEquals x.VarName Name
      · exact ⟨x, List.mem_cons_self _ _, hx⟩
      · simp only [FindVariableIn, hx, if_false, Option.isSome_map'] at h
        obtain ⟨v, hv, hn⟩ := ih h
        exact ⟨v, List.mem_cons_of_mem _ hv, hn⟩
  · intro h
    obtain ⟨k, _, e1, _⟩ := FindVariableIn_some Variables Name h
    simp [e1]

/-- C18. For every `variable_rename` operation whose Blueprint resolves,
validation succeeds exactly when `old_name` and `new_name` are both present
(can be read as text) and a variable named `old_name` exists on the Blueprint,
names being compared as the engine compares them, ignoring case; when both
names are present and no such variable exists it fails with `Variable not
found:` followed by the old name. -/
theorem rename_validation_iff (s : EditorState) (Op : FJsonObject) (BlueprintPath : String)
    (i : Nat) (Blueprint : UBlueprint)
    (hty : TryGetStringField Op "type" = some "variable_rename")
    (hbp : TryGetStringField Op "blueprint" = some BlueprintPath)
    (hfind : FindBlueprint s.Model BlueprintPath = some (i, Blueprint)) :
    ((ValidatePatchOperation s (some Op)).1 = true ↔
      ∃ OldName NewName : String, TryGetStringField Op "old_name" = some OldName ∧
        TryGetStringField Op "new_name" = some NewName ∧
        ∃ v ∈ Blueprint.NewVariables, FStringEquals v.VarName OldName) ∧
    (∀ OldName NewName : String, TryGetStringField Op "old_name" = some OldName →
      TryGetStringField Op "new_name" = some NewName →
      (¬ ∃ v ∈ Blueprint.NewVariables, FStringEquals v.VarName OldName) →
      ValidatePatchOperation s (some Op) =
        (false, SetLastError s ("Variable not found: " ++ OldName))) := by
  constructor
  · cases hold : TryGetStringField Op "old_name" with
    | none => simp [ValidatePatchOperation, hty, hbp, hfind, hold]
    | some OldName =>
      cases hnew : TryGetStringField Op "new_name" with
      | none => simp [ValidatePatchOperation, hty, hbp, hfind, hold, hnew]
      | some NewName =>
        have hiff := FindVariableIn_isSome_iff Blueprint.NewVariables OldName
        cases hv : FindVariableIn Blueprint.NewVariables OldName with
        | none =>
          rw [hv] at hiff
          simp only [Option.isSome_none, Bool.false_eq_true, false_iff] at hiff
          simp [ValidatePatchOperation, hty, hbp, hfind, hold, hnew, FindVariable, hv]
          simpa using hiff
        | some k =>
          rw [hv] at hiff
          simp only [Option.isSome_some, true_iff] at hiff
          simp [ValidatePatchOperation, hty, hbp, hfind, hold, hnew, FindVariable, hv]
          simpa using hiff
  · intro OldName NewName hold hnew hno
    have hiff := FindVariableIn_isSome_iff Blueprint.NewVariables OldName
    cases hv : FindVariableIn Blueprint.NewVariables OldName with
    | none => simp [ValidatePatchOperation, hty, hbp, hfind, hold, hnew, FindVariable, hv]
    | some k =>
      rw [hv] at hiff
      exact absurd (hiff.mp rfl) hno

/-- C18 at the rename of the variable `Health` to `PlayerHealth` on
`TestBlueprint`: the operation validates, and so does the patch whose
`operations` array holds it. -/
theorem rename_validation_iff_witness :
    (ValidatePatchOperation SampleState (some HealthRenameOp)).1 = true ∧
    (CanApplyPatch (DeserializeAs [("operations",
      FJsonValue.Array [FJsonValue.Object HealthRenameOp])]) SampleState "patch").1 = true :=
  ⟨(rename_validation_iff SampleState HealthRenameOp "TestBlueprint" 0 SampleBlueprint
    rfl rfl rfl).1.mpr
    ⟨"Health", "PlayerHealth", rfl, rfl, ⟨"Health", "int"⟩, by decide, rfl⟩, by decide⟩

/-! ## C19 and C20: what validation does not check -/

theorem FindGraphIn_none_iff (Graphs : List UEdGraph) (k : Nat) (GraphName : String) :
    FindGraphIn Graphs k GraphName = none ↔
      ∀ Graph ∈ Graphs, ¬ FStringEquals Graph.Name GraphName := by
  induction Graphs generalizing k with
  | nil => simp [FindGraphIn]
  | cons G rest ih =>
    by_cases hG : FStringEquals G.Name GraphName
    · simp [FindGraphIn, hG]
    · simp [FindGraphIn, hG, ih]

/-- The pointer the graph search returns: the first graph with the name. -/
theorem FindGraphIn_some (Graphs : List UEdGraph) (k : Nat) (GraphName : String) (g : Nat)
    (Graph : UEdGraph) (h : FindGraphIn Graphs k GraphName = some (g, Graph)) :
    k ≤ g ∧ Graphs[g - k]? = some Graph ∧ FStringEquals Graph.Name GraphName ∧
      ∀ j G, j < g - k → Graphs[j]? = some G → ¬ FStringEquals G.Name GraphName := by
  induction Graphs generalizing k with
  | nil => simp [FindGraphIn] at h
  | cons G rest ih =>
    by_cases hG : FStringEquals G.Name GraphName
    · simp only [FindGraphIn, hG, if_true, Option.some.injEq, Prod.mk.injEq] at h
      obtain ⟨rfl, rfl⟩ := h
      refine ⟨le_refl _, by simp, hG, ?_⟩
      intro j G' hj
      omega
    · simp only [FindGraphIn, hG, if_false] at h
      obtain ⟨h1, h2, h3, h4⟩ := ih (k + 1) h
      have e : g - k = (g - (k + 1)) + 1 := by omega
      refine ⟨by omega, ?_, h3, ?_⟩
      · rw [e]
        simpa using h2
      · intro j G' hj hG'
        cases j with
        | zero =>
          simp only [List.getElem?_cons_zero, Option.some.injEq] at hG'
          subst hG'
          exact hG
        | succ j => exact h4 j G' (by omega) (by simpa using hG')

/-- A `node_add` whose Blueprint resolves and whose target graph is not there
fails with the graph-not-found reason. -/
theorem ApplyPatchOperation_node_add_no_graph (s : EditorState) (Op : FJsonObject)
    (BlueprintPath NodeType : String) (i : Nat) (Blueprint : UBlueprint)
    (hty : TryGetStringField Op "type" = some "node_add")
    (hbp : TryGetStringField Op "blueprint" = some BlueprintPath)
    (hnt : TryGetStringField Op "node_type" = some NodeType)
    (hfind : FindBlueprint s.Model BlueprintPath = some (i, Blueprint))
    (hgraph : FindGraphIn Blueprint.Graphs 0 (TargetGraphName Op) = none) :
    (ApplyPatchOperation s (some Op)).1 = false ∧
    (ApplyPatchOperation s (some Op)).2.LastErrorMessage =
      "Graph not found: " ++ TargetGraphName Op ∧
    (ApplyPatchOperation s (some Op)).2.Model = s.Model := by
  unfold TargetGraphName at hgraph
  simp [ApplyPatchOperation, hty, ApplyNodeAddition, hbp, hnt, hfind, hgraph, TargetGraphName]

/-- C19. For every `node_add` operation whose Blueprint resolves, validation
succeeds exactly when `node_type` is present; the target graph plays no part.
So when the patch is such an operation with `node_type` present and the
Blueprint has no graph with the target name, `CanApplyPatch` returns true while
`ApplyJsonPatch` returns false with the graph-not-found reason. -/
theorem node_add_validation_iff (s : EditorState) (Op : FJsonObject) (BlueprintPath : String)
    (i : Nat) (Blueprint : UBlueprint)
    (hty : TryGetStringField Op "type" = some "node_add")
    (hbp : TryGetStringField Op "blueprint" = some BlueprintPath)
    (hfind : FindBlueprint s.Model BlueprintPath = some (i, Blueprint)) :
    ((ValidatePatchOperation s (some Op)).1 = true ↔
      (TryGetStringField Op "node_type").isSome = true) ∧
    (∀ (Deserialize : FDeserialize) (PatchJson : String),
      ParsedOperations Deserialize s PatchJson = [some Op] →
      (TryGetStringField Op "node_type").isSome = true →
      (∀ Graph ∈ Blueprint.Graphs, ¬ FStringEquals Graph.Name (TargetGraphName Op)) →
        (CanApplyPatch Deserialize s PatchJson).1 = true ∧
        (ApplyJsonPatch Deserialize s PatchJson).1 = false ∧
        GetLastError (ApplyJsonPatch Deserialize s PatchJson).2 =
          "Graph not found: " ++ TargetGraphName Op) := by
  have hiff : (ValidatePatchOperation s (some Op)).1 = true ↔
      (TryGetStringField Op "node_type").isSome = true := by
    cases hnt : TryGetStringField Op "node_type" <;>
      simp [ValidatePatchOperation, hty, hbp, hfind, hnt]
  refine ⟨hiff, ?_⟩
  intro D json hparse hnt hnograph
  obtain ⟨NodeType, hnt'⟩ := Option.isSome_iff_exists.mp hnt
  have hg := (FindGraphIn_none_iff Blueprint.Graphs 0 (TargetGraphName Op)).mpr hnograph
  have hfind' : FindBlueprint (ApplyStart D s json).Model BlueprintPath = some (i, Blueprint) := by
    rw [ApplyStart_Model]
    exact hfind
  obtain ⟨a1, a2, _⟩ := ApplyPatchOperation_node_add_no_graph (ApplyStart D s json) Op
    BlueprintPath NodeType i Blueprint hty hbp hnt' hfind' hg
  obtain ⟨c1, c2, _⟩ := ApplyJsonPatch_head_failure D s json (some Op) [] hparse a1
  refine ⟨?_, c1, c2.trans a2⟩
  apply CanApplyPatch_all_valid
  · rw [hparse]
    simp
  · intro op hop
    rw [hparse] at hop
    rw [List.mem_singleton.mp hop]
    exact hiff.mpr hnt

/-- C19 at a `node_add` into the graph `NoSuchGraph`, which the sample Blueprint
does not have: the patch passes `CanApplyPatch` and fails in `ApplyJsonPatch`. -/
theorem node_add_validation_iff_witness :
    (CanApplyPatch (DeserializeAs NodeAddNoGraphOp) SampleState "patch").1 = true ∧
    (ApplyJsonPatch (DeserializeAs NodeAddNoGraphOp) SampleState "patch").1 = false ∧
    GetLastError (ApplyJsonPatch (DeserializeAs NodeAddNoGraphOp) SampleState "patch").2 =
      "Graph not found: NoSuchGraph" :=
  (node_add_validation_iff SampleState NodeAddNoGraphOp "TestBlueprint" 0 SampleBlueprint
    rfl rfl rfl).2 (DeserializeAs NodeAddNoGraphOp) "patch" rfl rfl (by decide)

/-- C20. Validation does not reject the unimplemented kinds: for every patch
that is one `node_modify`, `connection_add` or `connection_remove` operation
whose Blueprint resolves, `CanApplyPatch` returns true although `ApplyJsonPatch`
on the same patch and state returns false. -/
theorem unimplemented_kinds_validate (Deserialize : FDeserialize) (s : EditorState)
    (PatchJson : String) (Op : FJsonObject) (OperationType BlueprintPath : String)
    (i : Nat) (Blueprint : UBlueprint)
    (hparse : ParsedOperations Deserialize s PatchJson = [some Op])
    (hty : TryGetStringField Op "type" = some OperationType)
    (hkind : OperationType = "node_modify" ∨ OperationType = "connection_add" ∨
      OperationType = "connection_remove")
    (hbp : TryGetStringField Op "blueprint" = some BlueprintPath)
    (hfind : FindBlueprint s.Model BlueprintPath = some (i, Blueprint)) :
    (CanApplyPatch Deserialize s PatchJson).1 = true ∧
    (ApplyJsonPatch Deserialize s PatchJson).1 = false := by
  constructor
  · apply CanApplyPatch_all_valid
    · rw [hparse]
      simp
    · intro op hop
      rw [hparse] at hop
      rw [List.mem_singleton.mp hop]
      rcases hkind with rfl | rfl | rfl <;>
        simp [ValidatePatchOperation, hty, hbp, hfind]
  · have b1 := (ApplyPatchOperation_unimplemented (ApplyStart Deserialize s PatchJson) Op
      OperationType hty hkind).1
    exact (ApplyJsonPatch_head_failure Deserialize s PatchJson (some Op) [] hparse b1).1

/-- C20 at the `node_modify` operation on the sample Blueprint. -/
theorem unimplemented_kinds_validate_witness :
    (CanApplyPatch (DeserializeAs NodeModifyOp) SampleState "patch").1 = true ∧
    (ApplyJsonPatch (DeserializeAs NodeModifyOp) SampleState "patch").1 = false :=
  unimplemented_kinds_validate (DeserializeAs NodeModifyOp) SampleState "patch" NodeModifyOp
    "node_modify" "TestBlueprint" 0 SampleBlueprint rfl rfl (Or.inl rfl) rfl rfl

/-! ## C12 and C13: `node_add` -/

theorem CreateNode_unsupported (s : EditorState) (Op : FJsonObject) (NodeType : String)
    (h : ¬ IsSupportedNode Op NodeType) : CreateNode s Op NodeType = (none, s) := by
  unfold IsSupportedNode at h
  simp only [CreateNode]
  repeat' split
  all_goals first
    | rfl
    | (exfalso; apply h; simp_all)

theorem CreateNode_supported (s : EditorState) (Op : FJsonObject) (NodeType : String)
    (h : IsSupportedNode Op NodeType) :
    ∃ NewNode : UEdGraphNode, (CreateNode s Op NodeType).1 = some NewNode ∧
      (CreateNode s Op NodeType).2.Model = s.Model := by
  unfold IsSupportedNode at h
  rcases h with ⟨h | h, hv⟩ | ⟨h, hf⟩
  · obtain ⟨v, hv⟩ := Option.isSome_iff_exists.mp hv
    exact ⟨(NewObject s ENodeClass.K2Node_VariableGet "K2Node_VariableGet" v).1,
      by simp [CreateNode, hv, h], by simp [CreateNode, hv, h, NewObject]⟩
  · obtain ⟨v, hv⟩ := Option.isSome_iff_exists.mp hv
    have h1 : ¬ FStringEquals NodeType "VariableGet" :=
      fun h2 => FStringEquals_VariableSet_VariableGet (h.symm.trans h2)
    exact ⟨(NewObject s ENodeClass.K2Node_VariableSet "K2Node_VariableSet" v).1,
      by simp [CreateNode, hv, h, h1], by simp [CreateNode, hv, h, h1, NewObject]⟩
  · obtain ⟨v, hf⟩ := Option.isSome_iff_exists.mp hf
    have h1 : ¬ FStringEquals NodeType "VariableGet" :=
      fun h2 => FStringEquals_FunctionCall_VariableGet (h.symm.trans h2)
    have h2 : ¬ FStringEquals NodeType "VariableSet" :=
      fun h3 => FStringEquals_FunctionCall_VariableSet (h.symm.trans h3)
    exact ⟨(NewObject s ENodeClass.K2Node_CallFunction "K2Node_CallFunction" v).1,
      by simp [CreateNode, hf, h, h1, h2], by simp [CreateNode, hf, h, h1, h2, NewObject]⟩

/-- A `node_add` whose Blueprint and target graph are found and whose node can
be created succeeds: the node, placed at the position of the operation, is
appended to the target graph, and the Blueprint is marked as modified. -/
theorem ApplyPatchOperation_node_add_success (s : EditorState) (Op : FJsonObject)
    (BlueprintPath NodeType : String) (i g : Nat) (Blueprint : UBlueprint) (Graph : UEdGraph)
    (hty : TryGetStringField Op "type" = some "node_add")
    (hbp : TryGetStringField Op "blueprint" = some BlueprintPath)
    (hnt : TryGetStringField Op "node_type" = some NodeType)
    (hfind : FindBlueprint s.Model BlueprintPath = some (i, Blueprint))
    (hgraph : FindGraphIn Blueprint.Graphs 0 (TargetGraphName Op) = some (g, Graph))
    (hnode : IsSupportedNode Op NodeType) :
    (ApplyPatchOperation s (some Op)).1 = true ∧
    ∃ NewNode : UEdGraphNode,
      NewNode.NodePosX = DoubleToInt32 (NodePosition Op).1 ∧
      NewNode.NodePosY = DoubleToInt32 (NodePosition Op).2 ∧
      (ApplyPatchOperation s (some Op)).2.Model =
        { s.Model with Blueprints := s.Model.Blueprints.set i (
          { Blueprint with
            Graphs := Blueprint.Graphs.set g { Graph with Nodes := Graph.Nodes ++ [NewNode] },
            Modified := true }) } := by
  obtain ⟨n, hn, hm⟩ := CreateNode_supported (LogPatchOperation s (some Op) false) Op NodeType
    hnode
  unfold TargetGraphName at hgraph
  simp only [LogPatchOperation_Model] at hm
  refine ⟨?_, ⟨n.Name, n.NodeGuid, n.Class, n.MemberName, DoubleToInt32 (NodePosition Op).1,
    DoubleToInt32 (NodePosition Op).2, true, n.Reconstructions + 1⟩, rfl, rfl, ?_⟩
  · simp [ApplyPatchOperation, hty, ApplyNodeAddition, hbp, hnt, hfind, hgraph, hn]
  · simp [ApplyPatchOperation, hty, ApplyNodeAddition, hbp, hnt, hfind, hgraph, hn,
      StoreBlueprint, MarkBlueprintAsModified, hm]

/-- A `node_add` whose Blueprint and target graph are found but whose node type
is not supported, or lacks its name field, fails with the create-node reason. -/
theorem ApplyPatchOperation_node_add_unsupported (s : EditorState) (Op : FJsonObject)
    (BlueprintPath NodeType : String) (i g : Nat) (Blueprint : UBlueprint) (Graph : UEdGraph)
    (hty : TryGetStringField Op "type" = some "node_add")
    (hbp : TryGetStringField Op "blueprint" = some BlueprintPath)
    (hnt : TryGetStringField Op "node_type" = some NodeType)
    (hfind : FindBlueprint s.Model BlueprintPath = some (i, Blueprint))
    (hgraph : FindGraphIn Blueprint.Graphs 0 (TargetGraphName Op) = some (g, Graph))
    (hnode : ¬ IsSupportedNode Op NodeType) :
    (ApplyPatchOperation s (some Op)).1 = false ∧
    (ApplyPatchOperation s (some Op)).2.LastErrorMessage =
      "Failed to create node of type: " ++ NodeType ∧
    (ApplyPatchOperation s (some Op)).2.Model = s.Model := by
  have hc := CreateNode_unsupported (LogPatchOperation s (some Op) false) Op NodeType hnode
  unfold TargetGraphName at hgraph
  simp [ApplyPatchOperation, hty, ApplyNodeAddition, hbp, hnt, hfind, hgraph, hc]

/-- A `node_add` that lacks `blueprint` or `node_type`, or whose Blueprint does
not resolve, fails. -/
theorem ApplyPatchOperation_node_add_early (s : EditorState) (Op : FJsonObject)
    (hty : TryGetStringField Op "type" = some "node_add")
    (h : TryGetStringField Op "blueprint" = none ∨ TryGetStringField Op "node_type" = none ∨
      ∃ BlueprintPath, TryGetStringField Op "blueprint" = some BlueprintPath ∧
        FindBlueprint s.Model BlueprintPath = none) :
    (ApplyPatchOperation s (some Op)).1 = false := by
  rcases h with h | h | ⟨path, h1, h2⟩
  · simp [ApplyPatchOperation, hty, ApplyNodeAddition, h]
  · cases hb : TryGetStringField Op "blueprint" <;>
      simp [ApplyPatchOperation, hty, ApplyNodeAddition, h, hb]
  · cases hn : TryGetStringField Op "node_type" <;>
      simp [ApplyPatchOperation, hty, ApplyNodeAddition, h1, h2, hn]

/-- What a successful `node_add` went through: the fields were there, the
Blueprint and the target graph were found and the node could be created. -/
theorem ApplyPatchOperation_node_add_inv (s : EditorState) (Op : FJsonObject)
    (hty : TryGetStringField Op "type" = some "node_add")
    (hok : (ApplyPatchOperation s (some Op)).1 = true) :
    ∃ (BlueprintPath NodeType : String) (i g : Nat) (Blueprint : UBlueprint) (Graph : UEdGraph),
      TryGetStringField Op "blueprint" = some BlueprintPath ∧
      TryGetStringField Op "node_type" = some NodeType ∧
      FindBlueprint s.Model BlueprintPath = some (i, Blueprint) ∧
      FindGraphIn Blueprint.Graphs 0 (TargetGraphName Op) = some (g, Graph) ∧
      IsSupportedNode Op NodeType := by
  cases hbp : TryGetStringField Op "blueprint" with
  | none =>
    rw [ApplyPatchOperation_node_add_early s Op hty (Or.inl hbp)] at hok
    exact Bool.noConfusion hok
  | some path =>
    cases hnt : TryGetStringField Op "node_type" with
    | none =>
      rw [ApplyPatchOperation_node_add_early s Op hty (Or.inr (Or.inl hnt))] at hok
      exact Bool.noConfusion hok
    | some ty =>
      cases hfind : FindBlueprint s.Model path with
      | none =>
        rw [ApplyPatchOperation_node_add_early s Op hty (Or.inr (Or.inr ⟨path, hbp, hfind⟩))]
          at hok
        exact Bool.noConfusion hok
      | some found =>
        obtain ⟨i, bp⟩ := found
        cases hgraph : FindGraphIn bp.Graphs 0 (TargetGraphName Op) with
        | none =>
          rw [(ApplyPatchOperation_node_add_no_graph s Op path ty i bp hty hbp hnt hfind
            hgraph).1] at hok
          exact Bool.noConfusion hok
        | some fg =>
          obtain ⟨g, Graph⟩ := fg
          by_cases hnode : IsSupportedNode Op ty
          · exact ⟨path, ty, i, g, bp, Graph, rfl, rfl, hfind, hgraph, hnode⟩
          · rw [(ApplyPatchOperation_node_add_unsupported s Op path ty i g bp Graph hty hbp hnt
              hfind hgraph hnode).1] at hok
            exact Bool.noConfusion hok

/-- C13. Texts are compared as the engine compares them, ignoring case, and a
field is present when it can be read as text. Applying a `node_add` succeeds
exactly when the Blueprint resolves,
`node_type` is present, the Blueprint has a graph whose name is the `graph`
field (or `EventGraph` when there is none), and `node_type` is `VariableGet` or
`VariableSet` with `variable_name` present, or `FunctionCall` with
`function_name` present. With the Blueprint resolved and `node_type` present,
an absent graph fails with `Graph not found:` and the graph name; with the graph
found, an unsupported type or a missing name field fails with `Failed to create
node of type:` and the type. -/
theorem node_add_succeeds_iff (s : EditorState) (Op : FJsonObject)
    (hty : TryGetStringField Op "type" = some "node_add") :
    ((ApplyPatchOperation s (some Op)).1 = true ↔
      ∃ (BlueprintPath NodeType : String) (i : Nat) (Blueprint : UBlueprint),
        TryGetStringField Op "blueprint" = some BlueprintPath ∧
        TryGetStringField Op "node_type" = some NodeType ∧
        FindBlueprint s.Model BlueprintPath = some (i, Blueprint) ∧
        (∃ Graph ∈ Blueprint.Graphs, FStringEquals Graph.Name (TargetGraphName Op)) ∧
        IsSupportedNode Op NodeType) ∧
    (∀ (BlueprintPath NodeType : String) (i : Nat) (Blueprint : UBlueprint),
      TryGetStringField Op "blueprint" = some BlueprintPath →
      TryGetStringField Op "node_type" = some NodeType →
      FindBlueprint s.Model BlueprintPath = some (i, Blueprint) →
      ((∀ Graph ∈ Blueprint.Graphs, ¬ FStringEquals Graph.Name (TargetGraphName Op)) →
        (ApplyPatchOperation s (some Op)).1 = false ∧
        GetLastError (ApplyPatchOperation s (some Op)).2 =
          "Graph not found: " ++ TargetGraphName Op) ∧
      ((∃ Graph ∈ Blueprint.Graphs, FStringEquals Graph.Name (TargetGraphName Op)) →
        ¬ IsSupportedNode Op NodeType →
        (ApplyPatchOperation s (some Op)).1 = false ∧
        GetLastError (ApplyPatchOperation s (some Op)).2 =
          "Failed to create node of type: " ++ NodeType)) := by
  have hsome : ∀ bp : UBlueprint,
      (∃ Graph ∈ bp.Graphs, FStringEquals Graph.Name (TargetGraphName Op)) →
      ∃ g Graph, FindGraphIn bp.Graphs 0 (TargetGraphName Op) = some (g, Graph) := by
    intro bp hex
    cases hg : FindGraphIn bp.Graphs 0 (TargetGraphName Op) with
    | none =>
      obtain ⟨G, hG, hn⟩ := hex
      exact absurd hn ((FindGraphIn_none_iff _ _ _).mp hg G hG)
    | some fg => exact ⟨fg.1, fg.2, rfl⟩
  refine ⟨⟨?_, ?_⟩, ?_⟩
  · intro hok
    obtain ⟨path, ty, i, g, bp, Graph, hbp, hnt, hfind, hgraph, hnode⟩ :=
      ApplyPatchOperation_node_add_inv s Op hty hok
    obtain ⟨_, hg, hname, _⟩ := FindGraphIn_some _ _ _ _ _ hgraph
    exact ⟨path, ty, i, bp, hbp, hnt, hfind,
      ⟨Graph, List.mem_iff_getElem?.mpr ⟨_, hg⟩, hname⟩, hnode⟩
  · rintro ⟨path, ty, i, bp, hbp, hnt, hfind, hex, hnode⟩
    obtain ⟨g, Graph, hgraph⟩ := hsome bp hex
    exact (ApplyPatchOperation_node_add_success s Op path ty i g bp Graph hty hbp hnt hfind
      hgraph hnode).1
  · intro path ty i bp hbp hnt hfind
    constructor
    · intro hno
      have hg := (FindGraphIn_none_iff bp.Graphs 0 (TargetGraphName Op)).mpr hno
      obtain ⟨a1, a2, _⟩ := ApplyPatchOperation_node_add_no_graph s Op path ty i bp hty hbp hnt
        hfind hg
      exact ⟨a1, a2⟩
    · intro hex hnode
      obtain ⟨g, Graph, hgraph⟩ := hsome bp hex
      obtain ⟨a1, a2, _⟩ := ApplyPatchOperation_node_add_unsupported s Op path ty i g bp Graph
        hty hbp hnt hfind hgraph hnode
      exact ⟨a1, a2⟩

/-- C13 at the sample operations: the `node_add` into `EventGraph` succeeds, and
the one into `NoSuchGraph` fails with the graph-not-found reason. -/
theorem node_add_succeeds_iff_witness :
    (ApplyPatchOperation SampleState (some NodeAddOp)).1 = true ∧
    (ApplyPatchOperation SampleState (some NodeAddNoGraphOp)).1 = false ∧
    GetLastError (ApplyPatchOperation SampleState (some NodeAddNoGraphOp)).2 =
      "Graph not found: NoSuchGraph" :=
  ⟨(node_add_succeeds_iff SampleState NodeAddOp rfl).1.mpr
      ⟨"TestBlueprint", "VariableGet", 0, SampleBlueprint, rfl, rfl, rfl, by decide, by decide⟩,
    ((node_add_succeeds_iff SampleState NodeAddNoGraphOp rfl).2 "TestBlueprint" "VariableGet" 0
      SampleBlueprint rfl rfl rfl).1 (by decide)⟩

/-! ## C14: `node_delete` -/

theorem FindNodeIn_none_iff (Nodes : List UEdGraphNode) (NodeIdentifier : String) :
    FindNodeIn Nodes NodeIdentifier = none ↔ ∀ N ∈ Nodes, ¬ IsNodeMatch NodeIdentifier N := by
  induction Nodes with
  | nil => simp [FindNodeIn]
  | cons x rest ih =>
    by_cases hx : IsNodeMatch NodeIdentifier x
    · have hx' := hx
      unfold IsNodeMatch at hx'
      simp [FindNodeIn, hx', hx]
    · have hx' := hx
      unfold IsNodeMatch at hx'
      simp [FindNodeIn, hx', hx, ih]

/-- The node search of one graph returns the first node that passes the test. -/
theorem FindNodeIn_first (Nodes : List UEdGraphNode) (NodeIdentifier : String) (n : Nat)
    (Node : UEdGraphNode) (hn : Nodes[n]? = some Node) (hm : IsNodeMatch NodeIdentifier Node)
    (hfirst : ∀ j N, j < n → Nodes[j]? = some N → ¬ IsNodeMatch NodeIdentifier N) :
    FindNodeIn Nodes NodeIdentifier = some n := by
  induction Nodes generalizing n with
  | nil => simp at hn
  | cons x rest ih =>
    cases n with
    | zero =>
      simp only [List.getElem?_cons_zero, Option.some.injEq] at hn
      subst hn
      unfold IsNodeMatch at hm
      simp [FindNodeIn, hm]
    | succ n =>
      have hx : ¬ IsNodeMatch NodeIdentifier x := hfirst 0 x (by omega) (by simp)
      have hx' := hx
      unfold IsNodeMatch at hx'
      have hrec := ih n (by simpa using hn)
        (fun j N hj hN => hfirst (j + 1) N (by omega) (by simpa using hN))
      simp [FindNodeIn, hx', hrec]

theorem FindNodeInGraphs_none_iff (Graphs : List UEdGraph) (NodeIdentifier : String) :
    FindNodeInGraphs Graphs NodeIdentifier = none ↔
      ∀ G ∈ Graphs, ∀ N ∈ G.Nodes, ¬ IsNodeMatch NodeIdentifier N := by
  induction Graphs with
  | nil => simp [FindNodeInGraphs]
  | cons G rest ih =>
    cases hG : FindNodeIn G.Nodes NodeIdentifier with
    | none =>
      have h1 := (FindNodeIn_none_iff G.Nodes NodeIdentifier).mp hG
      simp only [FindNodeInGraphs, hG, Option.map_eq_none', ih, List.mem_cons, forall_eq_or_imp]
      exact ⟨fun h => ⟨h1, h⟩, fun h => h.2⟩
    | some k =>
      have h1 : ¬ ∀ N ∈ G.Nodes, ¬ IsNodeMatch NodeIdentifier N := by
        intro h
        rw [(FindNodeIn_none_iff G.Nodes NodeIdentifier).mpr h] at hG
        exact Option.noConfusion hG
      simp only [FindNodeInGraphs, hG, List.mem_cons, forall_eq_or_imp]
      constructor
      · intro h
        exact Option.noConfusion h
      · intro h
        exact absurd h.1 h1

/-- The node search over the graphs returns the first node, in the order of the
graphs and of their nodes, that passes the test. -/
theorem FindNodeInGraphs_first (Graphs : List UEdGraph) (NodeIdentifier : String) (g n : Nat)
    (Graph : UEdGraph) (Node : UEdGraphNode) (hg : Graphs[g]? = some Graph)
    (hn : Graph.Nodes[n]? = some Node) (hm : IsNodeMatch NodeIdentifier Node)
    (hfirst : ∀ (g1 n1 : Nat) (G1 : UEdGraph) (N1 : UEdGraphNode),
      (g1 < g ∨ (g1 = g ∧ n1 < n)) → Graphs[g1]? = some G1 → G1.Nodes[n1]? = some N1 →
      ¬ IsNodeMatch NodeIdentifier N1) :
    FindNodeInGraphs Graphs NodeIdentifier = some (g, n) := by
  induction Graphs generalizing g with
  | nil => simp at hg
  | cons G rest ih =>
    cases g with
    | zero =>
      simp only [List.getElem?_cons_zero, Option.some.injEq] at hg
      subst hg
      have h1 := FindNodeIn_first G.Nodes NodeIdentifier n Node hn hm
        (fun j N hj hN => hfirst 0 j G N (Or.inr ⟨rfl, hj⟩) (by simp) hN)
      simp [FindNodeInGraphs, h1]
    | succ g =>
      have h0 : FindNodeIn G.Nodes NodeIdentifier = none := by
        rw [FindNodeIn_none_iff]
        intro N hN
        obtain ⟨j, hj⟩ := List.mem_iff_getElem?.mp hN
        exact hfirst 0 j G N (Or.inl (by omega)) (by simp) hj
      have hrec := ih g (by simpa using hg)
        (fun g1 n1 G1 N1 hlt hG1 hN1 => hfirst (g1 + 1) n1 G1 N1
          (by rcases hlt with h | ⟨h, h'⟩
              · exact Or.inl (by omega)
              · exact Or.inr ⟨by omega, h'⟩)
          (by simpa using hG1) hN1)
      simp [FindNodeInGraphs, h0, hrec]

theorem FindNodeIn_some (Nodes : List UEdGraphNode) (NodeIdentifier : String) (k : Nat)
    (h : FindNodeIn Nodes NodeIdentifier = some k) :
    ∃ Node, Nodes[k]? = some Node ∧ IsNodeMatch NodeIdentifier Node := by
  induction Nodes generalizing k with
  | nil => simp [FindNodeIn] at h
  | cons x xs ih =>
    by_cases hx : IsNodeMatch NodeIdentifier x
    · have hx' := hx
      unfold IsNodeMatch at hx'
      rw [FindNodeIn, if_pos hx'] at h
      simp only [Option.some.injEq] at h
      subst h
      exact ⟨x, by simp, hx⟩
    · have hx' := hx
      unfold IsNodeMatch at hx'
      rw [FindNodeIn, if_neg hx'] at h
      simp only [Option.map_eq_some'] at h
      obtain ⟨k', hk', rfl⟩ := h
      obtain ⟨Node, e1, e2⟩ := ih k' hk'
      exact ⟨Node, by simpa using e1, e2⟩

/-- What the node search returns is a node of a graph of the list that passes
the test. -/
theorem FindNodeInGraphs_some (Graphs : List UEdGraph) (NodeIdentifier : String) (g n : Nat)
    (h : FindNodeInGraphs Graphs NodeIdentifier = some (g, n)) :
    ∃ (Graph : UEdGraph) (Node : UEdGraphNode), Graphs[g]? = some Graph ∧
      Graph.Nodes[n]? = some Node ∧ IsNodeMatch NodeIdentifier Node := by
  induction Graphs generalizing g with
  | nil => simp [FindNodeInGraphs] at h
  | cons G rest ih =>
    cases hG : FindNodeIn G.Nodes NodeIdentifier with
    | some k =>
      simp only [FindNodeInGraphs, hG, Option.some.injEq, Prod.mk.injEq] at h
      obtain ⟨rfl, rfl⟩ := h
      obtain ⟨Node, e1, e2⟩ := FindNodeIn_some G.Nodes NodeIdentifier k hG
      exact ⟨G, Node, by simp, e1, e2⟩
    | none =>
      simp only [FindNodeInGraphs, hG, Option.map_eq_some'] at h
      obtain ⟨p, hp, he⟩ := h
      obtain ⟨g', n'⟩ := p
      simp only [Prod.mk.injEq] at he
      obtain ⟨rfl, rfl⟩ := he
      obtain ⟨Graph, Node, e1, e2, e3⟩ := ih g' hp
      exact ⟨Graph, Node, by simpa using e1, e2, e3⟩

/-- A `node_delete` whose Blueprint is found and whose search returns the node
`(g, n)` removes that node from its graph. -/
theorem ApplyPatchOperation_node_delete_found (s : EditorState) (Op : FJsonObject)
    (BlueprintPath NodeId : String) (i g n : Nat) (Blueprint : UBlueprint) (Graph : UEdGraph)
    (hty : TryGetStringField Op "type" = some "node_delete")
    (hbp : TryGetStringField Op "blueprint" = some BlueprintPath)
    (hid : TryGetStringField Op "node_id" = some NodeId)
    (hfind : FindBlueprint s.Model BlueprintPath = some (i, Blueprint))
    (hnode : FindNodeInGraphs Blueprint.Graphs NodeId = some (g, n))
    (hg : Blueprint.Graphs[g]? = some Graph) :
    (ApplyPatchOperation s (some Op)).1 = true ∧
    (ApplyPatchOperation s (some Op)).2.Model.Blueprints = s.Model.Blueprints.set i
      ⟨Blueprint.Name, Blueprint.PathName, Blueprint.NewVariables,
        Blueprint.Graphs.set g ⟨Graph.Name, Graph.Nodes.eraseIdx n⟩, true⟩ := by
  simp [ApplyPatchOperation, hty, ApplyNodeDeletion, hbp, hid, hfind, FindNode, hnode, hg,
    StoreBlueprint, MarkBlueprintAsModified]

/-- C14, as amended. Applying a `node_delete` whose Blueprint resolves looks, over
all graphs of the Blueprint in order, for the first K2 node (a node of class
`UK2Node`; other graph nodes are skipped) whose name or unique identifier equals
`node_id`, as the engine compares texts, ignoring case. When no K2 node passes it fails with `Node not found:` and the
identifier and leaves the model as it is; when one does it succeeds; and when
the first one is node `n` of graph `g`, the result is the Blueprint with exactly
that node removed from the node list of that graph, every other node, graph and
Blueprint staying in place. -/
theorem node_delete_effect (s : EditorState) (Op : FJsonObject)
    (BlueprintPath NodeId : String) (i : Nat) (Blueprint : UBlueprint)
    (hty : TryGetStringField Op "type" = some "node_delete")
    (hbp : TryGetStringField Op "blueprint" = some BlueprintPath)
    (hid : TryGetStringField Op "node_id" = some NodeId)
    (hfind : FindBlueprint s.Model BlueprintPath = some (i, Blueprint)) :
    ((∀ G ∈ Blueprint.Graphs, ∀ N ∈ G.Nodes, ¬ IsNodeMatch NodeId N) →
      (ApplyPatchOperation s (some Op)).1 = false ∧
      GetLastError (ApplyPatchOperation s (some Op)).2 = "Node not found: " ++ NodeId ∧
      (ApplyPatchOperation s (some Op)).2.Model = s.Model) ∧
    ((∃ G ∈ Blueprint.Graphs, ∃ N ∈ G.Nodes, IsNodeMatch NodeId N) →
      (ApplyPatchOperation s (some Op)).1 = true) ∧
    (∀ (g n : Nat) (Graph : UEdGraph) (Node : UEdGraphNode),
      Blueprint.Graphs[g]? = some Graph → Graph.Nodes[n]? = some Node →
      IsNodeMatch NodeId Node →
      (∀ (g1 n1 : Nat) (G1 : UEdGraph) (N1 : UEdGraphNode),
        (g1 < g ∨ (g1 = g ∧ n1 < n)) → Blueprint.Graphs[g1]? = some G1 →
        G1.Nodes[n1]? = some N1 → ¬ IsNodeMatch NodeId N1) →
      (ApplyPatchOperation s (some Op)).1 = true ∧
      (ApplyPatchOperation s (some Op)).2.Model.Blueprints = s.Model.Blueprints.set i
        ⟨Blueprint.Name, Blueprint.PathName, Blueprint.NewVariables,
          Blueprint.Graphs.set g ⟨Graph.Name, Graph.Nodes.eraseIdx n⟩, true⟩ ∧
      (Graph.Nodes.eraseIdx n).length + 1 = Graph.Nodes.length) := by
  refine ⟨?_, ?_, ?_⟩
  · intro hno
    have hn := (FindNodeInGraphs_none_iff Blueprint.Graphs NodeId).mpr hno
    simp [ApplyPatchOperation, hty, ApplyNodeDeletion, hbp, hid, hfind, FindNode, hn,
      GetLastError]
  · intro hex
    cases hn : FindNodeInGraphs Blueprint.Graphs NodeId with
    | none =>
      obtain ⟨G, hG, N, hN, hm⟩ := hex
      exact absurd hm ((FindNodeInGraphs_none_iff Blueprint.Graphs NodeId).mp hn G hG N hN)
    | some p =>
      obtain ⟨g, n⟩ := p
      obtain ⟨Graph, _, hg, _, _⟩ := FindNodeInGraphs_some _ _ _ _ hn
      exact (ApplyPatchOperation_node_delete_found s Op BlueprintPath NodeId i g n Blueprint
        Graph hty hbp hid hfind hn hg).1
  · intro g n Graph Node hg hn hm hfirst
    have hnode := FindNodeInGraphs_first Blueprint.Graphs NodeId g n Graph Node hg hn hm hfirst
    obtain ⟨a1, a2⟩ := ApplyPatchOperation_node_delete_found s Op BlueprintPath NodeId i g n
      Blueprint Graph hty hbp hid hfind hnode hg
    have hlt : n < Graph.Nodes.length := (List.getElem?_eq_some.mp hn).1
    refine ⟨a1, a2, ?_⟩
    rw [List.length_eraseIdx]
    simp only [hlt, if_true]
    omega

/-- C14 (amended) at the deletion of the variable-set node of the sample
Blueprint: the node is the second of `EventGraph`, and afterwards the graph holds
the other two nodes. -/
theorem node_delete_effect_witness :
    (ApplyPatchOperation SampleState (some DeleteSetNodeOp)).1 = true ∧
    (ApplyPatchOperation SampleState (some DeleteSetNodeOp)).2.Model.Blueprints.map
      (fun b => b.Graphs.map (fun G => G.Nodes.map (fun N => N.Name))) =
      [[["K2Node_VariableGet_0", "K2Node_Event_0"]]] :=
  have h := (node_delete_effect SampleState DeleteSetNodeOp "TestBlueprint"
    "K2Node_VariableSet_0" 0 SampleBlueprint rfl rfl rfl rfl).2.2 0 1
    ⟨"EventGraph", _⟩ _ rfl rfl (by decide) (by
      intro g1 n1 G1 N1 hlt hG hN
      rcases hlt with hlt | ⟨rfl, hlt⟩
      · omega
      · have hn1 : n1 = 0 := by omega
        subst hn1
        simp only [SampleBlueprint, List.getElem?_cons_zero, Option.some.injEq] at hG
        subst hG
        simp only [List.getElem?_cons_zero, Option.some.injEq] at hN
        subst hN
        decide)
  ⟨h.1, by rw [h.2.1]; decide⟩

/-- C14 as stated fails. In `EventGraph` of the state with the comment box the
first node is named `EdGraphNode_Comment_0`, yet the `node_delete` of
`EdGraphNode_Comment_0` fails with the node-not-found reason and removes
nothing: the comment box is not a `UK2Node` and the search skips it. -/
theorem node_delete_skips_other_nodes :
    CommentState.Model.Blueprints.map
      (fun b => b.Graphs.map (fun G => G.Nodes.map (fun N => N.Name))) =
      [[["EdGraphNode_Comment_0", "K2Node_VariableGet_0", "K2Node_VariableSet_0",
         "K2Node_Event_0"]]] ∧
    (ApplyPatchOperation CommentState (some DeleteCommentOp)).1 = false ∧
    GetLastError (ApplyPatchOperation CommentState (some DeleteCommentOp)).2 =
      "Node not found: EdGraphNode_Comment_0" ∧
    (ApplyPatchOperation CommentState (some DeleteCommentOp)).2.Model = CommentState.Model := by
  decide

/-! ## C11: renaming there and back -/

/-- The variable search returns the first variable with the name. -/
theorem FindVariableIn_first (Variables : List FBPVariableDescription) (Name : String)
    (k : Nat) (v : FBPVariableDescription) (hk : Variables[k]? = some v)
    (hv : FStringEquals v.VarName Name)
    (hfirst : ∀ j w, j < k → Variables[j]? = some w → ¬ FStringEquals w.VarName Name) :
    FindVariableIn Variables Name = some k := by
  induction Variables generalizing k with
  | nil => simp at hk
  | cons x rest ih =>
    cases k with
    | zero =>
      simp only [List.getElem?_cons_zero, Option.some.injEq] at hk
      subst hk
      simp [FindVariableIn, hv]
    | succ k =>
      have hx : ¬ FStringEquals x.VarName Name := hfirst 0 x (by omega) (by simp)
      have hrec := ih k (by simpa using hk)
        (fun j w hj hw => hfirst (j + 1) w (by omega) (by simpa using hw))
      simp [FindVariableIn, hx, hrec]

theorem FindLoadedBlueprint_set (Blueprints : List UBlueprint) (k : Nat) (path : String)
    (i : Nat) (Blueprint After : UBlueprint)
    (h : FindLoadedBlueprint Blueprints k path = some (i, Blueprint))
    (hn : After.Name = Blueprint.Name) (hp : After.PathName = Blueprint.PathName) :
    FindLoadedBlueprint (Blueprints.set (i - k) After) k path = some (i, After) := by
  induction Blueprints generalizing k with
  | nil => simp [FindLoadedBlueprint] at h
  | cons b rest ih =>
    simp only [FindLoadedBlueprint] at h
    split at h
    · rename_i hb
      simp only [Option.some.injEq, Prod.mk.injEq] at h
      obtain ⟨rfl, rfl⟩ := h
      simp [FindLoadedBlueprint, hn, hp, hb]
    · rename_i hb
      have hle := (FindLoadedBlueprint_get _ _ _ _ _ h).1
      have e : i - k = (i - (k + 1)) + 1 := by omega
      rw [e]
      simp only [List.set_cons_succ, FindLoadedBlueprint, hb, if_false]
      exact ih (k + 1) h

/-- Storing, through the pointer `FindBlueprint` returned, a Blueprint with the
same name and path does not change what the path resolves to. -/
theorem FindBlueprint_set (m : GraphModel) (path : String) (i : Nat)
    (Blueprint After : UBlueprint) (h : FindBlueprint m path = some (i, Blueprint))
    (hn : After.Name = Blueprint.Name) (hp : After.PathName = Blueprint.PathName) :
    FindBlueprint { m with Blueprints := m.Blueprints.set i After } path = some (i, After) := by
  have hget := FindBlueprint_get m path i Blueprint h
  have hi : i < m.Blueprints.length := (List.getElem?_eq_some.mp hget).1
  simp only [FindBlueprint] at h ⊢
  split at h
  · split at h
    · rename_i j hj
      cases hb : m.Blueprints[j]? with
      | none => simp [hb] at h
      | some b =>
        simp only [hb, Option.map_some', Option.some.injEq, Prod.mk.injEq] at h
        obtain ⟨rfl, rfl⟩ := h
        simp [List.getElem?_set_self hi]
    · simp at h
  · have := FindLoadedBlueprint_set m.Blueprints 0 path i Blueprint After h hn hp
    simpa using this

/-- The state a `variable_rename` leaves when its Blueprint and variable are
found: the whole model. -/
theorem ApplyPatchOperation_rename_state (s : EditorState) (Op : FJsonObject)
    (BlueprintPath OldName NewName : String) (i k : Nat) (Blueprint : UBlueprint)
    (hty : TryGetStringField Op "type" = some "variable_rename")
    (hbp : TryGetStringField Op "blueprint" = some BlueprintPath)
    (hold : TryGetStringField Op "old_name" = some OldName)
    (hnew : TryGetStringField Op "new_name" = some NewName)
    (hfind : FindBlueprint s.Model BlueprintPath = some (i, Blueprint))
    (hvar : FindVariableIn Blueprint.NewVariables OldName = some k) :
    (ApplyPatchOperation s (some Op)).1 = true ∧
    (ApplyPatchOperation s (some Op)).2.Model =
      { s.Model with Blueprints := s.Model.Blueprints.set i (
        ⟨Blueprint.Name, Blueprint.PathName, SetVarName Blueprint.NewVariables k NewName,
          UpdateVariableReferences OldName NewName Blueprint.Graphs, true⟩) } := by
  simp [ApplyPatchOperation, hty, ApplyVariableRename, hbp, hold, hnew, hfind, FindVariable, hvar,
    StoreBlueprint, MarkBlueprintAsModified]

/-- A text the deserializer rejects leaves `Invalid JSON format` as the last
error of the parser. -/
theorem ParsePatchOperations_rejected_state (D : FDeserialize) (s : EditorState)
    (json : String) (h : (D json).1 = false ∨ (D json).2 = none) :
    ParsePatchOperations D s json = ([], SetLastError s "Invalid JSON format") := by
  simp only [ParsePatchOperations]
  split
  · rename_i heq
    rw [heq] at h
    simp at h
  · rfl

/-- Parsing a document the deserializer accepts leaves the state as it is. -/
theorem ParsePatchOperations_accepted_state (D : FDeserialize) (s : EditorState)
    (json : String) (JsonObject : FJsonObject) (h : D json = (true, some JsonObject)) :
    (ParsePatchOperations D s json).2 = s := by
  simp only [ParsePatchOperations, h]
  repeat' split
  all_goals rfl

/-- C21. A text the deserializer rejects yields zero operations, like a
well-formed document without operations: the returned sequence does not tell
them apart. The last error does. After parsing the rejected text it is
`Invalid JSON format`; parsing a well-formed document leaves the whole state,
and so the last error, as it was. So the two cases leave different last errors
whenever the last error before parsing was not that message; in particular
where `ApplyJsonPatch` and `CanApplyPatch` parse, with the last error cleared,
they leave `Invalid JSON format` and the empty text. -/
theorem parse_reason_in_last_error (Deserialize : FDeserialize) (s : EditorState)
    (Malformed WellFormed : String) (JsonObject : FJsonObject)
    (hbad : (Deserialize Malformed).1 = false ∨ (Deserialize Malformed).2 = none)
    (hdoc : Deserialize WellFormed = (true, some JsonObject))
    (hnone : (ParsePatchOperations Deserialize s WellFormed).1 = []) :
    (ParsePatchOperations Deserialize s Malformed).1 = [] ∧
    (ParsePatchOperations Deserialize s Malformed).1 =
      (ParsePatchOperations Deserialize s WellFormed).1 ∧
    GetLastError (ParsePatchOperations Deserialize s Malformed).2 = "Invalid JSON format" ∧
    (ParsePatchOperations Deserialize s WellFormed).2 = s ∧
    GetLastError (ParsePatchOperations Deserialize s WellFormed).2 = GetLastError s ∧
    (GetLastError s ≠ "Invalid JSON format" →
      GetLastError (ParsePatchOperations Deserialize s Malformed).2 ≠
        GetLastError (ParsePatchOperations Deserialize s WellFormed).2) ∧
    GetLastError (ValidateStart Deserialize s Malformed) = "Invalid JSON format" ∧
    GetLastError (ValidateStart Deserialize s WellFormed) = "" ∧
    GetLastError (ValidateStart Deserialize s Malformed) ≠
      GetLastError (ValidateStart Deserialize s WellFormed) := by
  have h1 := ParsePatchOperations_rejected_state Deserialize s Malformed hbad
  have h2 := ParsePatchOperations_accepted_state Deserialize s WellFormed JsonObject hdoc
  have h3 := ParsePatchOperations_rejected_state Deserialize (WithError s "") Malformed hbad
  have h4 := ParsePatchOperations_accepted_state Deserialize (WithError s "") WellFormed
    JsonObject hdoc
  have e3 : GetLastError (ValidateStart Deserialize s Malformed) = "Invalid JSON format" := by
    simp only [ValidateStart, h3]
    rfl
  have e4 : GetLastError (ValidateStart Deserialize s WellFormed) = "" := by
    simp only [ValidateStart, h4]
    rfl
  refine ⟨by rw [h1], by rw [h1, hnone], by rw [h1]; rfl, h2, by rw [h2], ?_, e3, e4, ?_⟩
  · intro hne
    rw [h1, h2]
    exact fun h => hne h.symm
  · rw [e3, e4]
    decide

/-- C21 at the sample state, whose last error is a stale message, with the
rejected text `"\x7b invalid json \x7d"` and the empty object `"\x7b\x7d"`: both
parse to no operations; parsing the first leaves `Invalid JSON format`, parsing
the second leaves the stale message. -/
theorem parse_reason_in_last_error_witness :
    (ParsePatchOperations SampleDeserialize SampleState "\x7b invalid json \x7d").1 = [] ∧
    (ParsePatchOperations SampleDeserialize SampleState "\x7b\x7d").1 = [] ∧
    GetLastError (ParsePatchOperations SampleDeserialize SampleState
      "\x7b invalid json \x7d").2 = "Invalid JSON format" ∧
    GetLastError (ParsePatchOperations SampleDeserialize SampleState "\x7b\x7d").2 = "stale" :=
  have h := parse_reason_in_last_error SampleDeserialize SampleState "\x7b invalid json \x7d"
    "\x7b\x7d" [] (Or.inl (by decide)) rfl rfl
  ⟨h.1, h.2.1.symm.trans h.1, h.2.2.1, h.2.2.2.2.1⟩

/-- C24. When the top-level object (what the deserializer made of the text) has
an `operations` field that is not an array, parsing yields zero operations and
leaves the state as it is, whether or not the object has a `type` field. -/
theorem ParsePatchOperations_not_array (Deserialize : FDeserialize) (s : EditorState)
    (PatchJson : String) (JsonObject : FJsonObject)
    (hdoc : Deserialize PatchJson = (true, some JsonObject))
    (hfield : HasField JsonObject "operations" = true)
    (hnot : TryGetArrayField JsonObject "operations" = none) :
    ParsePatchOperations Deserialize s PatchJson = ([], s) := by
  simp [ParsePatchOperations, hdoc, hfield, hnot]

/-- C24 at a document whose `operations` field is a string and which has the
fields of a rename: no operation is parsed, and `CanApplyPatch` returns false. -/
theorem ParsePatchOperations_not_array_witness :
    HasField OperationsNotArrayDoc "type" = true ∧
    (ParsePatchOperations (DeserializeAs OperationsNotArrayDoc) SampleState "patch").1 = [] ∧
    (CanApplyPatch (DeserializeAs OperationsNotArrayDoc) SampleState "patch").1 = false :=
  ⟨by decide,
    congrArg Prod.fst (ParsePatchOperations_not_array (DeserializeAs OperationsNotArrayDoc)
      SampleState "patch" OperationsNotArrayDoc rfl (by decide) rfl),
    by decide⟩

/-- C26. After `CanApplyPatch` or `ApplyJsonPatch` is called on a text that
parses to zero operations, `GetLastError` is the fixed message `No valid
operations found in patch JSON`. This is so for a well-formed document without
operations and for a text the deserializer rejects alike: for the latter the
parser sets `Invalid JSON format`, and the call overwrites it before it
returns. -/
theorem no_operations_message (Deserialize : FDeserialize) (s : EditorState)
    (PatchJson : String) :
    (ParsedOperations Deserialize s PatchJson = [] →
      GetLastError (CanApplyPatch Deserialize s PatchJson).2 =
        "No valid operations found in patch JSON" ∧
      GetLastError (ApplyJsonPatch Deserialize s PatchJson).2 =
        "No valid operations found in patch JSON") ∧
    (((Deserialize PatchJson).1 = false ∨ (Deserialize PatchJson).2 = none) →
      ParsedOperations Deserialize s PatchJson = [] ∧
      (ValidateStart Deserialize s PatchJson).LastErrorMessage = "Invalid JSON format" ∧
      GetLastError (CanApplyPatch Deserialize s PatchJson).2 =
        "No valid operations found in patch JSON" ∧
      GetLastError (ApplyJsonPatch Deserialize s PatchJson).2 =
        "No valid operations found in patch JSON") := by
  have hfix : ParsedOperations Deserialize s PatchJson = [] →
      GetLastError (CanApplyPatch Deserialize s PatchJson).2 =
        "No valid operations found in patch JSON" ∧
      GetLastError (ApplyJsonPatch Deserialize s PatchJson).2 =
        "No valid operations found in patch JSON" := by
    intro h
    rw [CanApplyPatch_empty _ _ _ h, ApplyJsonPatch_empty _ _ _ h]
    exact ⟨rfl, rfl⟩
  refine ⟨hfix, fun hbad => ?_⟩
  have h0 : ParsedOperations Deserialize s PatchJson = [] :=
    ParsePatchOperations_rejected _ _ _ hbad
  refine ⟨h0, ?_, (hfix h0).1, (hfix h0).2⟩
  simp only [ValidateStart, ParsePatchOperations]
  split
  · rename_i heq
    rw [heq] at hbad
    simp at hbad
  · rfl

/-- C26 at the rejected text and at the empty object: the same message. -/
theorem no_operations_message_witness :
    GetLastError (CanApplyPatch SampleDeserialize SampleState "\x7b invalid json \x7d").2 =
      GetLastError (CanApplyPatch SampleDeserialize SampleState "\x7b\x7d").2 ∧
    GetLastError (ApplyJsonPatch SampleDeserialize SampleState "\x7b invalid json \x7d").2 =
      "No valid operations found in patch JSON" :=
  have h1 := (no_operations_message SampleDeserialize SampleState "\x7b invalid json \x7d").2
    (Or.inl (by decide))
  have h2 := (no_operations_message SampleDeserialize SampleState "\x7b\x7d").1 rfl
  ⟨h1.2.2.1.trans h2.1.symm, h1.2.2.2⟩

/-! ## C22: one transaction at a time -/

theorem OpenScopes_append (h k : List ETransactionEvent) :
    OpenScopes (h ++ k) = OpenScopes h + OpenScopes k := by
  induction h with
  | nil => simp [OpenScopes]
  | cons e rest ih =>
    cases e <;>
      (show OpenScopes (_ :: (rest ++ k)) = _
       simp only [OpenScopes, ih]
       ring)

theorem HoldsItsScopes_EndTransaction (s : EditorState) (h : HoldsItsScopes s) :
    HoldsItsScopes (EndTransaction s) := by
  unfold HoldsItsScopes at h ⊢
  unfold EndTransaction
  cases hc : s.CurrentTransaction with
  | none => simpa [hc] using h
  | some t =>
    simp only [hc, Option.isSome_some, if_true] at h
    simp [OpenScopes_append, OpenScopes, h]

theorem HoldsItsScopes_CancelTransaction (s : EditorState) (h : HoldsItsScopes s) :
    HoldsItsScopes (CancelTransaction s) := by
  unfold HoldsItsScopes at h ⊢
  unfold CancelTransaction
  cases hc : s.CurrentTransaction with
  | none => simpa [hc] using h
  | some t =>
    simp only [hc, Option.isSome_some, if_true] at h
    simp [OpenScopes_append, OpenScopes, h]

theorem HoldsItsScopes_BeginTransaction (s : EditorState) (d : String)
    (h : HoldsItsScopes s) : HoldsItsScopes (BeginTransaction s d) := by
  unfold HoldsItsScopes at h ⊢
  cases hc : s.CurrentTransaction with
  | none =>
    simp only [hc, Option.isSome_none, Bool.false_eq_true, if_false] at h
    simp [BeginTransaction, hc, OpenScopes_append, OpenScopes, h]
  | some t =>
    simp only [hc, Option.isSome_some, if_true] at h
    simp [BeginTransaction, EndTransaction, hc, OpenScopes_append, OpenScopes, h]

/-- Two states with the same transaction pointer and history hold their scopes
alike. -/
theorem HoldsItsScopes_congr (s t : EditorState)
    (h1 : t.CurrentTransaction = s.CurrentTransaction) (h2 : t.Transactions = s.Transactions)
    (h : HoldsItsScopes s) : HoldsItsScopes t := by
  unfold HoldsItsScopes at h ⊢
  rw [h1, h2]
  exact h

theorem HoldsItsScopes_ApplyJsonPatch (D : FDeserialize) (s : EditorState) (json : String)
    (h : HoldsItsScopes s) : HoldsItsScopes (ApplyJsonPatch D s json).2 := by
  have hstart : HoldsItsScopes (ApplyStart D s json) := by
    obtain ⟨⟨p1, p2, _, _⟩, _⟩ := ParsePatchOperations_services D (WithError s "") json
    exact HoldsItsScopes_BeginTransaction _ _ (HoldsItsScopes_congr s _ p1 p2 h)
  have hloop : HoldsItsScopes
      (ApplyOperations (ApplyStart D s json) (ParsedOperations D s json)).2 := by
    obtain ⟨g1, g2, _, _⟩ := ApplyOperations_services (ParsedOperations D s json)
      (ApplyStart D s json)
    exact HoldsItsScopes_congr _ _ g1 g2 hstart
  by_cases hne : ParsedOperations D s json = []
  · obtain ⟨_, f2, f3⟩ := ValidateStart_frame D s json
    rw [ApplyJsonPatch_empty _ _ _ hne]
    exact HoldsItsScopes_congr s _ f2 f3 h
  · by_cases hall : AllSucceed (ApplyStart D s json) (ParsedOperations D s json)
    · rw [ApplyJsonPatch_success _ _ _ hall hne]
      obtain ⟨_, _, a3, a4, _, _⟩ := ShowUserNotification_frame
        (UE_LOG (EndTransaction (StateAfter (ApplyStart D s json) (ParsedOperations D s json)))
          ELogVerbosity.Log
          ("Successfully applied patch with " ++
            toString (ParsedOperations D s json).length ++ " operations"))
        ("Successfully applied AI patch with " ++
          toString (ParsedOperations D s json).length ++ " operations") 5 "Info"
      rw [ApplyOperations_StateAfter _ _ hall] at hloop
      exact HoldsItsScopes_congr _ _ a3 a4 (HoldsItsScopes_EndTransaction _ hloop)
    · rw [ApplyJsonPatch_failure _ _ _ hall]
      obtain ⟨_, _, f3, f4⟩ := HandlePatchError_frame
        (CancelTransaction (ApplyOperations (ApplyStart D s json) (ParsedOperations D s json)).2)
        json
        (CancelTransaction
          (ApplyOperations (ApplyStart D s json) (ParsedOperations D s json)).2).LastErrorMessage
      exact HoldsItsScopes_congr _ _ f3 f4 (HoldsItsScopes_CancelTransaction _ hloop)

/-- C22. The patch applier holds at most one live transaction: its transaction
pointer holds one scope or none, and, counting the begins, ends and cancels of
the history, exactly that many scopes are open; this is kept by
`BeginTransaction`, `EndTransaction`, `CancelTransaction`, `ApplyJsonPatch` and
`CanApplyPatch`. Beginning a transaction while one is open first ends the
previous one (the history grows by an end and then a begin, not by a cancel),
raises no error (last error, log and notifications are as before), does not
roll back (the model stays the current one, not the one the previous scope had
recorded), and then holds the new scope. -/
theorem one_transaction_at_a_time (s : EditorState) (Description : String) :
    (BeginTransaction s Description).CurrentTransaction =
      some { Description := Description, Saved := s.Model } ∧
    (HoldsItsScopes s →
      OpenScopes s.Transactions ≤ 1 ∧
      HoldsItsScopes (BeginTransaction s Description) ∧
      OpenScopes (BeginTransaction s Description).Transactions = 1 ∧
      HoldsItsScopes (EndTransaction s) ∧ HoldsItsScopes (CancelTransaction s) ∧
      ∀ (Deserialize : FDeserialize) (PatchJson : String),
        HoldsItsScopes (ApplyJsonPatch Deserialize s PatchJson).2 ∧
        HoldsItsScopes (CanApplyPatch Deserialize s PatchJson).2) ∧
    (∀ Previous : FScopedTransaction, s.CurrentTransaction = some Previous →
      (BeginTransaction s Description).Transactions =
        s.Transactions ++ [ETransactionEvent.End, ETransactionEvent.Begin Description] ∧
      (BeginTransaction s Description).Model = s.Model ∧
      (BeginTransaction s Description).LastErrorMessage = s.LastErrorMessage ∧
      (BeginTransaction s Description).OutputLog = s.OutputLog ∧
      (BeginTransaction s Description).Notifications = s.Notifications) := by
  refine ⟨?_, ?_, ?_⟩
  · cases hc : s.CurrentTransaction <;> simp [BeginTransaction, EndTransaction, hc]
  · intro h
    have hb := HoldsItsScopes_BeginTransaction s Description h
    refine ⟨?_, hb, ?_, HoldsItsScopes_EndTransaction s h, HoldsItsScopes_CancelTransaction s h,
      fun D json => ⟨HoldsItsScopes_ApplyJsonPatch D s json h, ?_⟩⟩
    · unfold HoldsItsScopes at h
      rw [h]
      split <;> decide
    · unfold HoldsItsScopes at hb
      rw [hb]
      cases hc : s.CurrentTransaction <;> simp [BeginTransaction, EndTransaction, hc]
    · have hro : (CanApplyPatch D s json).2.CurrentTransaction = s.CurrentTransaction ∧
          (CanApplyPatch D s json).2.Transactions = s.Transactions := by
        by_cases hne : ParsedOperations D s json = []
        · obtain ⟨_, f2, f3⟩ := ValidateStart_frame D s json
          rw [CanApplyPatch_empty _ _ _ hne]
          exact ⟨f2, f3⟩
        · obtain ⟨_, f2, f3, _⟩ := ValidateOperations_frame (ParsedOperations D s json)
            (WithError s "")
          rw [CanApplyPatch_nonempty _ _ _ hne]
          exact ⟨f2, f3⟩
      exact HoldsItsScopes_congr s _ hro.1 hro.2 h
  · intro Previous hc
    simp [BeginTransaction, EndTransaction, hc]

/-- C22 at the sample state after a transaction was begun and not ended: the
second begin ends the first and opens its own, nothing is cancelled, and one
scope is open. -/
theorem one_transaction_at_a_time_witness :
    (BeginTransaction (BeginTransaction SampleState "first") "second").Transactions =
      [ETransactionEvent.Begin "first", ETransactionEvent.End,
       ETransactionEvent.Begin "second"] ∧
    OpenScopes (BeginTransaction (BeginTransaction SampleState "first") "second").Transactions
      = 1 :=
  have h := one_transaction_at_a_time (BeginTransaction SampleState "first") "second"
  ⟨(h.2.2 ⟨"first", SampleState.Model⟩ rfl).1, (h.2.1 (by unfold HoldsItsScopes; decide)).2.2.1⟩

/-! ## C29: a failing operation leaves the model alone -/

theorem ApplyVariableRename_failure_Model (s : EditorState) (op : FJsonObject)
    (h : (ApplyVariableRename s op).1 = false) : (ApplyVariableRename s op).2.Model = s.Model := by
  revert h
  simp only [ApplyVariableRename]
  repeat' split
  all_goals simp

theorem CreateNode_Model (s : EditorState) (op : FJsonObject) (t : String) :
    (CreateNode s op t).2.Model = s.Model := by
  unfold CreateNode NewObject
  repeat' split
  all_goals rfl

theorem ApplyNodeAddition_failure_Model (s : EditorState) (op : FJsonObject)
    (h : (ApplyNodeAddition s op).1 = false) : (ApplyNodeAddition s op).2.Model = s.Model := by
  revert h
  simp only [ApplyNodeAddition]
  repeat' split
  all_goals simp [CreateNode_Model]

theorem ApplyNodeDeletion_failure_Model (s : EditorState) (op : FJsonObject)
    (h : (ApplyNodeDeletion s op).1 = false) : (ApplyNodeDeletion s op).2.Model = s.Model := by
  revert h
  simp only [ApplyNodeDeletion]
  repeat' split
  all_goals simp

theorem ApplyPatchOperation_failure_Model (s : EditorState) (op : TSharedPtr FJsonObject)
    (h : (ApplyPatchOperation s op).1 = false) : (ApplyPatchOperation s op).2.Model = s.Model := by
  revert h
  simp only [ApplyPatchOperation]
  repeat' split
  all_goals first
    | (intro _; rfl)
    | (intro h
       simp only [LogPatchOperation_Model]
       first
         | exact (ApplyVariableRename_failure_Model _ _ h).trans (LogPatchOperation_Model _ _ _)
         | exact (ApplyNodeAddition_failure_Model _ _ h).trans (LogPatchOperation_Model _ _ _)
         | exact (ApplyNodeDeletion_failure_Model _ _ h).trans (LogPatchOperation_Model _ _ _))

/-- C29. Whenever applying a single operation returns failure (whatever the
operation is: null, without a type, of an unknown type, or of any of the kinds)
the graph model after it is exactly the model before it, so the variable table
and every node list of every blueprint are as they were; this is what the
routine itself leaves behind, before and without any rollback: the transaction
pointer and the transaction history are as before the operation, no cancel has
taken place. The same holds for each of the per-kind routines. -/
theorem failed_operation_keeps_model (s : EditorState) (Operation : TSharedPtr FJsonObject)
    (h : (ApplyPatchOperation s Operation).1 = false) :
    (ApplyPatchOperation s Operation).2.Model = s.Model ∧
    VariableNames (ApplyPatchOperation s Operation).2 = VariableNames s ∧
    (ApplyPatchOperation s Operation).2.Model.Blueprints.map NodeBindings =
      s.Model.Blueprints.map NodeBindings ∧
    (ApplyPatchOperation s Operation).2.CurrentTransaction = s.CurrentTransaction ∧
    (ApplyPatchOperation s Operation).2.Transactions = s.Transactions ∧
    (∀ Op : FJsonObject,
      ((ApplyVariableRename s Op).1 = false → (ApplyVariableRename s Op).2.Model = s.Model) ∧
      ((ApplyNodeAddition s Op).1 = false → (ApplyNodeAddition s Op).2.Model = s.Model) ∧
      (ApplyNodeModification s Op).2.Model = s.Model ∧
      ((ApplyNodeDeletion s Op).1 = false → (ApplyNodeDeletion s Op).2.Model = s.Model) ∧
      (ApplyConnectionOperation s Op).2.Model = s.Model) := by
  have hm := ApplyPatchOperation_failure_Model s Operation h
  obtain ⟨g1, g2, _, _⟩ := ApplyPatchOperation_services s Operation
  refine ⟨hm, ?_, ?_, g1, g2, fun Op => ⟨ApplyVariableRename_failure_Model s Op,
    ApplyNodeAddition_failure_Model s Op, rfl, ApplyNodeDeletion_failure_Model s Op, rfl⟩⟩
  · simp only [VariableNames, hm]
  · rw [hm]

/-- C29 at the sample state: deleting a node that does not exist fails and the
model is the sample model. -/
theorem failed_operation_keeps_model_witness :
    (ApplyPatchOperation SampleState (some DeleteMissingOp)).1 = false ∧
    (ApplyPatchOperation SampleState (some DeleteMissingOp)).2.Model = SampleState.Model :=
  ⟨by decide, (failed_operation_keeps_model SampleState (some DeleteMissingOp) (by decide)).1⟩

/-! ## Shared facts for the claims on validation against application -/

theorem EndTransaction_Model (s : EditorState) : (EndTransaction s).Model = s.Model := by
  unfold EndTransaction
  split <;> rfl

/-- When every parsed operation succeeds, `ApplyJsonPatch` returns true and the
model is the one the last operation left. -/
theorem ApplyJsonPatch_success_Model (D : FDeserialize) (s : EditorState) (json : String)
    (hne : ParsedOperations D s json ≠ [])
    (hall : AllSucceed (ApplyStart D s json) (ParsedOperations D s json)) :
    (ApplyJsonPatch D s json).1 = true ∧
    (ApplyJsonPatch D s json).2.Model =
      (StateAfter (ApplyStart D s json) (ParsedOperations D s json)).Model := by
  rw [ApplyJsonPatch_success _ _ _ hall hne]
  refine ⟨rfl, ?_⟩
  rw [(ShowUserNotification_frame _ _ _ _).1, UE_LOG_Model, EndTransaction_Model]

/-- For a patch of one operation the verdict of `ApplyJsonPatch` is the verdict
of that operation in the state the transaction was begun in. -/
theorem ApplyJsonPatch_single_verdict (D : FDeserialize) (s : EditorState) (json : String)
    (Op : TSharedPtr FJsonObject) (hparse : ParsedOperations D s json = [Op]) :
    (ApplyJsonPatch D s json).1 = (ApplyPatchOperation (ApplyStart D s json) Op).1 := by
  cases hb : (ApplyPatchOperation (ApplyStart D s json) Op).1
  · exact (ApplyJsonPatch_head_failure D s json Op [] hparse hb).1
  · have hall : AllSucceed (ApplyStart D s json) (ParsedOperations D s json) := by
      rw [hparse]
      exact ⟨hb, trivial⟩
    exact (ApplyJsonPatch_success_Model D s json (by rw [hparse]; simp) hall).1

/-- For a patch of one operation the verdict of `CanApplyPatch` is the verdict
of the validation of that operation. -/
theorem CanApplyPatch_single_verdict (D : FDeserialize) (s : EditorState) (json : String)
    (Op : TSharedPtr FJsonObject) (hparse : ParsedOperations D s json = [Op]) :
    (CanApplyPatch D s json).1 = (ValidatePatchOperation s Op).1 := by
  cases hb : (ValidatePatchOperation s Op).1
  · rw [CanApplyPatch_first_invalid D s json [] [] Op hparse (by simp) hb]
  · exact CanApplyPatch_all_valid D s json (by rw [hparse]; simp)
      (by rw [hparse]; simpa using hb)

/-- On a `variable_rename` validation and application reach the same verdict
when they see the same model. -/
theorem rename_verdicts_agree (s t : EditorState) (Op : FJsonObject)
    (hty : TryGetStringField Op "type" = some "variable_rename") (hm : t.Model = s.Model) :
    (ValidatePatchOperation s (some Op)).1 = (ApplyPatchOperation t (some Op)).1 := by
  cases hbp : TryGetStringField Op "blueprint" with
  | none => simp [ValidatePatchOperation, ApplyPatchOperation, ApplyVariableRename, hty, hbp]
  | some BlueprintPath =>
    cases hfb : FindBlueprint s.Model BlueprintPath with
    | none =>
      cases hold : TryGetStringField Op "old_name" <;>
        cases hnew : TryGetStringField Op "new_name" <;>
          simp [ValidatePatchOperation, ApplyPatchOperation, ApplyVariableRename, hty, hbp,
            hfb, hm, hold, hnew]
    | some found =>
      obtain ⟨i, Blueprint⟩ := found
      cases hold : TryGetStringField Op "old_name" with
      | none =>
        simp [ValidatePatchOperation, ApplyPatchOperation, ApplyVariableRename, hty, hbp,
          hfb, hm, hold]
      | some OldName =>
        cases hnew : TryGetStringField Op "new_name" with
        | none =>
          simp [ValidatePatchOperation, ApplyPatchOperation, ApplyVariableRename, hty, hbp,
            hfb, hm, hold, hnew]
        | some NewName =>
          cases hv : FindVariable (some Blueprint) OldName <;>
            simp [ValidatePatchOperation, ApplyPatchOperation, ApplyVariableRename, hty, hbp,
              hfb, hm, hold, hnew, hv]

/-- A variable the table has is found, at an entry with that name. -/
theorem FindVariableIn_of_mem (Variables : List FBPVariableDescription) (Name : String)
    (h : ∃ v ∈ Variables, FStringEquals v.VarName Name) :
    ∃ k v, FindVariableIn Variables Name = some k ∧ Variables[k]? = some v ∧
      FStringEquals v.VarName Name := by
  obtain ⟨k, v, e1, e2, e3, _⟩ := FindVariableIn_some Variables Name h
  exact ⟨k, v, e1, e2, e3⟩

/-- A name the table does not have is not found. -/
theorem FindVariableIn_none (Variables : List FBPVariableDescription) (Name : String)
    (h : ∀ v ∈ Variables, ¬ FStringEquals v.VarName Name) :
    FindVariableIn Variables Name = none := by
  cases hf : FindVariableIn Variables Name with
  | none => rfl
  | some k =>
    obtain ⟨v, hv, hn⟩ := (FindVariableIn_isSome_iff Variables Name).mp (by simp [hf])
    exact absurd hn (h v hv)

/-- The rename of `A` to `B` followed by the rename of `B` to `C` succeeds twice
on a Blueprint that has a variable `A`. -/
theorem rename_chain_succeeds (s : EditorState) (Op1 Op2 : FJsonObject)
    (BlueprintPath A B C : String) (i : Nat) (Blueprint : UBlueprint)
    (hty1 : TryGetStringField Op1 "type" = some "variable_rename")
    (hbp1 : TryGetStringField Op1 "blueprint" = some BlueprintPath)
    (hold1 : TryGetStringField Op1 "old_name" = some A)
    (hnew1 : TryGetStringField Op1 "new_name" = some B)
    (hty2 : TryGetStringField Op2 "type" = some "variable_rename")
    (hbp2 : TryGetStringField Op2 "blueprint" = some BlueprintPath)
    (hold2 : TryGetStringField Op2 "old_name" = some B)
    (hnew2 : TryGetStringField Op2 "new_name" = some C)
    (hfind : FindBlueprint s.Model BlueprintPath = some (i, Blueprint))
    (hvar : ∃ v ∈ Blueprint.NewVariables, FStringEquals v.VarName A) :
    (ApplyPatchOperation s (some Op1)).1 = true ∧
    (ApplyPatchOperation (ApplyPatchOperation s (some Op1)).2 (some Op2)).1 = true := by
  obtain ⟨k, v, e1, e2, _⟩ := FindVariableIn_of_mem Blueprint.NewVariables A hvar
  have hk : k < Blueprint.NewVariables.length := (List.getElem?_eq_some.mp e2).1
  obtain ⟨r1, m1⟩ := ApplyPatchOperation_rename_state s Op1 BlueprintPath A B i k Blueprint
    hty1 hbp1 hold1 hnew1 hfind e1
  have hset1 : SetVarName Blueprint.NewVariables k B =
      Blueprint.NewVariables.set k ⟨B, v.VarType⟩ := by
    simp [SetVarName, e2]
  have hfind1 : FindBlueprint (ApplyPatchOperation s (some Op1)).2.Model BlueprintPath =
      some (i, ⟨Blueprint.Name, Blueprint.PathName, SetVarName Blueprint.NewVariables k B,
        UpdateVariableReferences A B Blueprint.Graphs, true⟩) := by
    rw [m1]
    exact FindBlueprint_set s.Model BlueprintPath i Blueprint _ hfind rfl rfl
  have hvar1 : ∃ w ∈ SetVarName Blueprint.NewVariables k B, FStringEquals w.VarName B := by
    rw [hset1]
    exact ⟨⟨B, v.VarType⟩, List.mem_iff_getElem?.mpr ⟨k, List.getElem?_set_self hk⟩,
      FStringEquals_refl B⟩
  obtain ⟨k2, _, f1, _⟩ := FindVariableIn_of_mem (SetVarName Blueprint.NewVariables k B) B hvar1
  exact ⟨r1, (ApplyPatchOperation_rename_state (ApplyPatchOperation s (some Op1)).2 Op2
    BlueprintPath B C i k2 _ hty2 hbp2 hold2 hnew2 hfind1 f1).1⟩

/-! ## C28: `CanApplyPatch` as a dry run of a single `variable_rename` -/

/-- C28. For a patch text that parses to a single operation of type
`variable_rename`, and every state, `CanApplyPatch` returns true if and only if
`ApplyJsonPatch` on the same state returns true. -/
theorem rename_dry_run_exact (Deserialize : FDeserialize) (s : EditorState)
    (PatchJson : String) (Op : FJsonObject)
    (hparse : ParsedOperations Deserialize s PatchJson = [some Op])
    (hty : TryGetStringField Op "type" = some "variable_rename") :
    ((CanApplyPatch Deserialize s PatchJson).1 = true ↔
      (ApplyJsonPatch Deserialize s PatchJson).1 = true) := by
  rw [CanApplyPatch_single_verdict _ _ _ _ hparse, ApplyJsonPatch_single_verdict _ _ _ _ hparse,
    rename_verdicts_agree s (ApplyStart Deserialize s PatchJson) Op hty (ApplyStart_Model _ _ _)]

/-- C28 at the sample state: the rename of `OldVar` is accepted by both, the
rename of `NewVar`, which the Blueprint does not have, by neither. -/
theorem rename_dry_run_exact_witness :
    (CanApplyPatch (DeserializeAs RenameOp) SampleState "patch").1 = true ∧
    (ApplyJsonPatch (DeserializeAs RenameOp) SampleState "patch").1 = true ∧
    (CanApplyPatch (DeserializeAs RenameAgainOp) SampleState "patch").1 = false ∧
    (ApplyJsonPatch (DeserializeAs RenameAgainOp) SampleState "patch").1 = false :=
  have h1 := rename_dry_run_exact (DeserializeAs RenameOp) SampleState "patch" RenameOp rfl rfl
  have h2 := rename_dry_run_exact (DeserializeAs RenameAgainOp) SampleState "patch"
    RenameAgainOp rfl rfl
  have c1 : (CanApplyPatch (DeserializeAs RenameOp) SampleState "patch").1 = true := by decide
  have c2 : (CanApplyPatch (DeserializeAs RenameAgainOp) SampleState "patch").1 = false := by
    decide
  ⟨c1, h1.mp c1, c2, Bool.eq_false_iff.mpr (fun h => Bool.noConfusion (c2.symm.trans (h2.mpr h)))⟩

/-! ## C23: a rename onto a name that is taken -/

/-- C23. A patch of a single `variable_rename` from `OldName` to `NewName` on a
Blueprint that has a variable `OldName` (first at entry `k`) and, at another
entry `j`, a variable that already has the name `NewName`, is not rejected:
`CanApplyPatch` returns true and `ApplyJsonPatch` returns true, and afterwards
the variable table of that Blueprint has the name `NewName` at the two distinct
entries `k` and `j`. -/
theorem rename_collision_accepted (Deserialize : FDeserialize) (s : EditorState)
    (PatchJson : String) (Op : FJsonObject) (BlueprintPath OldName NewName : String)
    (i k j : Nat) (Blueprint : UBlueprint) (Other : FBPVariableDescription)
    (hparse : ParsedOperations Deserialize s PatchJson = [some Op])
    (hty : TryGetStringField Op "type" = some "variable_rename")
    (hbp : TryGetStringField Op "blueprint" = some BlueprintPath)
    (hold : TryGetStringField Op "old_name" = some OldName)
    (hnew : TryGetStringField Op "new_name" = some NewName)
    (hfind : FindBlueprint s.Model BlueprintPath = some (i, Blueprint))
    (hvar : FindVariableIn Blueprint.NewVariables OldName = some k)
    (hother : Blueprint.NewVariables[j]? = some Other)
    (hjk : j ≠ k) (hname : Other.VarName = NewName) :
    (CanApplyPatch Deserialize s PatchJson).1 = true ∧
    (ApplyJsonPatch Deserialize s PatchJson).1 = true ∧
    ∃ (After : UBlueprint) (Renamed : FBPVariableDescription),
      (ApplyJsonPatch Deserialize s PatchJson).2.Model.Blueprints[i]? = some After ∧
      After.NewVariables[k]? = some Renamed ∧ Renamed.VarName = NewName ∧
      After.NewVariables[j]? = some Other ∧ Other.VarName = NewName ∧ j ≠ k := by
  have hfind1 : FindBlueprint (ApplyStart Deserialize s PatchJson).Model BlueprintPath =
      some (i, Blueprint) := by
    rw [ApplyStart_Model]
    exact hfind
  obtain ⟨r1, m1⟩ := ApplyPatchOperation_rename_model (ApplyStart Deserialize s PatchJson) Op
    BlueprintPath OldName NewName i k Blueprint hty hbp hold hnew hfind1 hvar
  have hall : AllSucceed (ApplyStart Deserialize s PatchJson)
      (ParsedOperations Deserialize s PatchJson) := by
    rw [hparse]
    exact ⟨r1, trivial⟩
  obtain ⟨a1, a2⟩ := ApplyJsonPatch_success_Model Deserialize s PatchJson
    (by rw [hparse]; simp) hall
  have hcan : (CanApplyPatch Deserialize s PatchJson).1 = true := by
    rw [CanApplyPatch_single_verdict _ _ _ _ hparse,
      rename_verdicts_agree s (ApplyStart Deserialize s PatchJson) Op hty (ApplyStart_Model _ _ _)]
    exact r1
  have hi : i < s.Model.Blueprints.length :=
    (List.getElem?_eq_some.mp (FindBlueprint_get s.Model BlueprintPath i Blueprint hfind)).1
  obtain ⟨v, hv⟩ : ∃ v, Blueprint.NewVariables[k]? = some v := by
    have hsome : ∃ w ∈ Blueprint.NewVariables, FStringEquals w.VarName OldName :=
      (FindVariableIn_isSome_iff _ _).mp (by simp [hvar])
    obtain ⟨k2, v, e1, e2, _⟩ := FindVariableIn_of_mem _ _ hsome
    rw [hvar] at e1
    simp only [Option.some.injEq] at e1
    subst e1
    exact ⟨v, e2⟩
  have hk : k < Blueprint.NewVariables.length := (List.getElem?_eq_some.mp hv).1
  have hset : SetVarName Blueprint.NewVariables k NewName =
      Blueprint.NewVariables.set k ⟨NewName, v.VarType⟩ := by
    simp [SetVarName, hv]
  refine ⟨hcan, a1, ⟨Blueprint.Name, Blueprint.PathName,
    SetVarName Blueprint.NewVariables k NewName,
    UpdateVariableReferences OldName NewName Blueprint.Graphs, true⟩, ⟨NewName, v.VarType⟩,
    ?_, ?_, rfl, ?_, hname, hjk⟩
  · rw [a2, hparse]
    simp only [StateAfter]
    rw [m1, ApplyStart_Model]
    exact List.getElem?_set_self hi
  · show (SetVarName Blueprint.NewVariables k NewName)[k]? = _
    rw [hset]
    exact List.getElem?_set_self hk
  · show (SetVarName Blueprint.NewVariables k NewName)[j]? = _
    rw [hset, List.getElem?_set_ne (Ne.symm hjk)]
    exact hother

/-- C23 at the sample Blueprint, with the variables `OldVar` and `Health`: the
patch that renames `Health` to `OldVar` validates and applies, and the table
then reads `OldVar`, `OldVar`. -/
theorem rename_collision_accepted_witness :
    (CanApplyPatch (DeserializeAs RenameHealthOp) SampleState "patch").1 = true ∧
    (ApplyJsonPatch (DeserializeAs RenameHealthOp) SampleState "patch").1 = true ∧
    VariableNames (ApplyJsonPatch (DeserializeAs RenameHealthOp) SampleState "patch").2 =
      [["OldVar", "OldVar"]] :=
  have h := rename_collision_accepted (DeserializeAs RenameHealthOp) SampleState "patch"
    RenameHealthOp "TestBlueprint" "Health" "OldVar" 0 1 0 SampleBlueprint ⟨"OldVar", "float"⟩
    rfl rfl rfl rfl rfl rfl rfl rfl (by decide) rfl
  ⟨h.1, h.2.1, by decide⟩

/-! ## C27: validation looks at the state before the patch -/

/-- C27. `CanApplyPatch` validates every operation against the state before the
patch: on a patch with operations it returns true exactly when every operation
validates in that state. So on a Blueprint that has a variable `A` and no
variable `B` (names compared as the engine compares them, ignoring case), the
patch of the rename of `A` to `B` and then the rename of `B` to
`C` makes `CanApplyPatch` return false with the reason `Variable not found: B`,
although `ApplyJsonPatch` on the same state returns true. -/
theorem validation_uses_state_before (Deserialize : FDeserialize) (s : EditorState)
    (PatchJson : String) (Op1 Op2 : FJsonObject)
    (BlueprintPath A B C : String) (i : Nat) (Blueprint : UBlueprint)
    (hparse : ParsedOperations Deserialize s PatchJson = [some Op1, some Op2])
    (hty1 : TryGetStringField Op1 "type" = some "variable_rename")
    (hbp1 : TryGetStringField Op1 "blueprint" = some BlueprintPath)
    (hold1 : TryGetStringField Op1 "old_name" = some A)
    (hnew1 : TryGetStringField Op1 "new_name" = some B)
    (hty2 : TryGetStringField Op2 "type" = some "variable_rename")
    (hbp2 : TryGetStringField Op2 "blueprint" = some BlueprintPath)
    (hold2 : TryGetStringField Op2 "old_name" = some B)
    (hnew2 : TryGetStringField Op2 "new_name" = some C)
    (hfind : FindBlueprint s.Model BlueprintPath = some (i, Blueprint))
    (hA : ∃ v ∈ Blueprint.NewVariables, FStringEquals v.VarName A)
    (hB : ∀ v ∈ Blueprint.NewVariables, ¬ FStringEquals v.VarName B) :
    ((CanApplyPatch Deserialize s PatchJson).1 = true ↔
      ∀ Operation ∈ ParsedOperations Deserialize s PatchJson,
        (ValidatePatchOperation s Operation).1 = true) ∧
    (ValidatePatchOperation s (some Op1)).1 = true ∧
    (ValidatePatchOperation s (some Op2)).1 = false ∧
    (ValidatePatchOperation (ApplyPatchOperation (ApplyStart Deserialize s PatchJson)
      (some Op1)).2 (some Op2)).1 = true ∧
    (CanApplyPatch Deserialize s PatchJson).1 = false ∧
    GetLastError (CanApplyPatch Deserialize s PatchJson).2 = "Variable not found: " ++ B ∧
    (ApplyJsonPatch Deserialize s PatchJson).1 = true := by
  obtain ⟨k, v, e1, _, _⟩ := FindVariableIn_of_mem Blueprint.NewVariables A hA
  have hnone := FindVariableIn_none Blueprint.NewVariables B hB
  have hv1 : (ValidatePatchOperation s (some Op1)).1 = true := by
    simp [ValidatePatchOperation, hty1, hbp1, hold1, hnew1, hfind, FindVariable, e1]
  have hv2 : (ValidatePatchOperation s (some Op2)).1 = false := by
    simp [ValidatePatchOperation, hty2, hbp2, hold2, hnew2, hfind, FindVariable, hnone]
  have hfind1 : FindBlueprint (ApplyStart Deserialize s PatchJson).Model BlueprintPath =
      some (i, Blueprint) := by
    rw [ApplyStart_Model]
    exact hfind
  obtain ⟨r1, r2⟩ := rename_chain_succeeds (ApplyStart Deserialize s PatchJson) Op1 Op2
    BlueprintPath A B C i Blueprint hty1 hbp1 hold1 hnew1 hty2 hbp2 hold2 hnew2 hfind1 hA
  have hcan := CanApplyPatch_first_invalid Deserialize s PatchJson [some Op1] [] (some Op2)
    hparse (by simpa using hv1) hv2
  have hne : ParsedOperations Deserialize s PatchJson ≠ [] := by
    rw [hparse]
    simp
  refine ⟨⟨fun h => ?_, CanApplyPatch_all_valid Deserialize s PatchJson hne⟩, hv1, hv2, ?_, ?_,
    ?_, ?_⟩
  · rw [hcan] at h
    exact Bool.noConfusion h
  · rw [rename_verdicts_agree _
      (ApplyPatchOperation (ApplyStart Deserialize s PatchJson) (some Op1)).2 Op2 hty2 rfl]
    exact r2
  · rw [hcan]
  · rw [hcan]
    simp [GetLastError, ValidatePatchOperation, hty2, hbp2, hold2, hnew2, hfind, FindVariable,
      hnone]
  · exact (ApplyJsonPatch_success_Model Deserialize s PatchJson hne
      (by rw [hparse]; exact ⟨r1, r2, trivial⟩)).1


/-- C27 at the sample Blueprint, which has `OldVar` and no `NewVar`: the patch
that renames `OldVar` to `NewVar` and then `NewVar` to `FinalVar` does not
validate, the reason being that `NewVar` is not found, and it applies. -/
theorem validation_uses_state_before_witness :
    (CanApplyPatch (DeserializeAs RenameChainDoc) SampleState "patch").1 = false ∧
    GetLastError (CanApplyPatch (DeserializeAs RenameChainDoc) SampleState "patch").2 =
      "Variable not found: NewVar" ∧
    (ApplyJsonPatch (DeserializeAs RenameChainDoc) SampleState "patch").1 = true ∧
    VariableNames (ApplyJsonPatch (DeserializeAs RenameChainDoc) SampleState "patch").2 =
      [["FinalVar", "Health"]] :=
  have h := validation_uses_state_before (DeserializeAs RenameChainDoc) SampleState "patch"
    RenameOp RenameAgainOp "TestBlueprint" "OldVar" "NewVar" "FinalVar" 0 SampleBlueprint
    rfl rfl rfl rfl rfl rfl rfl rfl rfl rfl ⟨⟨"OldVar", "float"⟩, by decide, rfl⟩ (by decide)
  ⟨h.2.2.2.2.1, h.2.2.2.2.2.1, h.2.2.2.2.2.2, by decide⟩

/-! ## C30: the payloads of a server-sent-events response -/

theorem CollectChunks_eq (StartsWith Equals : String → String → Bool) (Lines : List String) :
    CollectChunks StartsWith Equals Lines = DataPayloads StartsWith Equals Lines := by
  induction Lines with
  | nil => rfl
  | cons Line rest ih =>
    simp only [CollectChunks, DataPayloads] at ih ⊢
    by_cases h1 : StartsWith Line "data: " = true
    · by_cases h2 : Mid Line 6 ≠ "" ∧ Equals (Mid Line 6) "[DONE]" = false
      · simp only [h1, if_true, h2, List.filter_cons_of_pos, List.map_cons,
          decide_True, and_self, ne_eq, not_false_eq_true, ih]
      · simp [h1, h2, ih]
    · simp [h1, ih]

/-- C30. `ParseSSEData` returns exactly the payloads of the lines of the
response: of the lines that start with `data: `, in line order, what follows
these six characters, leaving out the payloads that are empty or equal to
`[DONE]`; a line without the prefix contributes nothing, and so does a line
whose payload is empty or the end marker. This holds for every line splitter
and for every prefix test and comparison of the engine (which decide whether
case counts). -/
theorem ParseSSEData_payloads (ParseIntoArrayLines : String → List String)
    (StartsWith Equals : String → String → Bool) (ResponseData : String) :
    ParseSSEData ParseIntoArrayLines StartsWith Equals ResponseData =
      DataPayloads StartsWith Equals (ParseIntoArrayLines ResponseData) ∧
    (∀ Before After : List String,
      CollectChunks StartsWith Equals (Before ++ After) =
        CollectChunks StartsWith Equals Before ++ CollectChunks StartsWith Equals After) ∧
    (∀ Line : String,
      CollectChunks StartsWith Equals [Line] =
        if StartsWith Line "data: " = true ∧ Mid Line 6 ≠ "" ∧ Equals (Mid Line 6) "[DONE]" = false
        then [Mid Line 6] else []) := by
  refine ⟨CollectChunks_eq _ _ _, fun Before After => ?_, fun Line => ?_⟩
  · simp only [CollectChunks_eq, DataPayloads, List.filter_append, List.map_append]
  · by_cases h1 : StartsWith Line "data: " = true
    · by_cases h2 : Mid Line 6 ≠ "" ∧ Equals (Mid Line 6) "[DONE]" = false
      · simp only [CollectChunks, h1, if_true, h2, and_self, ne_eq, not_false_eq_true]
      · simp only [CollectChunks, h1, if_true, h2, if_false, true_and]
    · simp [CollectChunks, h1]

/-- C30 at a sample response, cut at line feeds: the payloads are `Hello` and
`world` when case counts, and `up` as well, from the line `DATA: up`, when it
does not. -/
theorem ParseSSEData_payloads_witness :
    ParseSSEData SplitAtLineFeeds StartsWithCaseSensitive EqualsCaseSensitive SampleResponse =
      ["Hello", "world"] ∧
    ParseSSEData SplitAtLineFeeds StartsWithIgnoreCase EqualsIgnoreCase SampleResponse =
      ["Hello", "world", "up"] ∧
    SplitAtLineFeeds SampleResponse =
      ["data: Hello", "", ": keep-alive", "data: world", "data: ", "event: done", "DATA: up",
       "data: [DONE]"] :=
  ⟨(ParseSSEData_payloads SplitAtLineFeeds StartsWithCaseSensitive EqualsCaseSensitive
      SampleResponse).1.trans (by decide),
    (ParseSSEData_payloads SplitAtLineFeeds StartsWithIgnoreCase EqualsIgnoreCase
      SampleResponse).1.trans (by decide),
    by decide⟩

/-! ## C25: the two states of build-error capture -/

theorem Serialize_Log (IsBuildMessage : String → String → Bool) (Now : String)
    (Device : FSurrealPilotOutputDevice) (V Category : String) :
    FSurrealPilotOutputDevice.Serialize IsBuildMessage Now Device V ELogVerbosity.Log Category =
      Device := by
  simp only [FSurrealPilotOutputDevice.Serialize]
  repeat' split
  all_goals simp_all

theorem LogBuild_Log (IsBuildMessage : String → String → Bool) (Now : String)
    (Device : FSurrealPilotOutputDevice) (Message : String) :
    FSurrealPilotOutputDevice.LogBuild IsBuildMessage Now Device ELogVerbosity.Log Message =
      { Device with BuildLog := Device.BuildLog ++ [(ELogVerbosity.Log, Message)] } := by
  simp only [FSurrealPilotOutputDevice.LogBuild, Serialize_Log]
  split <;> rfl

/-- C25. Build-error capture has two states. A new output device is not
capturing; after `StartCapture` the device is capturing and after `StopCapture`
it is not, whatever its state was; `StartCapture` on a device that is not
capturing empties the captured errors and the captured warnings; `StartCapture`
on a device that is capturing changes nothing at all (and `StopCapture` on a
device that is not capturing changes nothing either). The subsystem, once
initialized, reports the same: not capturing, capturing after `StartCapture`,
not capturing after `StopCapture`. -/
theorem capture_two_states (IsBuildMessage : String → String → Bool) (Now : String)
    (Device : FSurrealPilotOutputDevice) (Self : UBuildErrorCapture) :
    FSurrealPilotOutputDevice.Construct.IsCapturing = false ∧
    (FSurrealPilotOutputDevice.StartCapture IsBuildMessage Now Device).IsCapturing = true ∧
    (FSurrealPilotOutputDevice.StopCapture IsBuildMessage Now Device).IsCapturing = false ∧
    (Device.IsCapturing = false →
      (FSurrealPilotOutputDevice.StartCapture IsBuildMessage Now Device).CapturedErrors = [] ∧
      (FSurrealPilotOutputDevice.StartCapture IsBuildMessage Now Device).CapturedWarnings = []) ∧
    (Device.IsCapturing = true →
      FSurrealPilotOutputDevice.StartCapture IsBuildMessage Now Device = Device) ∧
    (Device.IsCapturing = false →
      FSurrealPilotOutputDevice.StopCapture IsBuildMessage Now Device = Device) ∧
    (UBuildErrorCapture.Initialize Self).IsCapturing = false ∧
    (UBuildErrorCapture.StartCapture IsBuildMessage Now
      (UBuildErrorCapture.Initialize Self)).IsCapturing = true ∧
    (UBuildErrorCapture.StopCapture IsBuildMessage Now
      (UBuildErrorCapture.StartCapture IsBuildMessage Now
        (UBuildErrorCapture.Initialize Self))).IsCapturing = false := by
  have hstart : ∀ d : FSurrealPilotOutputDevice,
      (FSurrealPilotOutputDevice.StartCapture IsBuildMessage Now d).bIsCapturing = true := by
    intro d
    simp only [FSurrealPilotOutputDevice.StartCapture, LogBuild_Log,
      FSurrealPilotOutputDevice.ClearCaptured]
    cases h : d.bIsCapturing <;> simp [h]
  have hstop : ∀ d : FSurrealPilotOutputDevice,
      (FSurrealPilotOutputDevice.StopCapture IsBuildMessage Now d).bIsCapturing = false := by
    intro d
    simp only [FSurrealPilotOutputDevice.StopCapture, LogBuild_Log]
    cases h : d.bIsCapturing <;> simp [h]
  refine ⟨rfl, hstart Device, hstop Device, fun h => ?_, fun h => ?_, fun h => ?_, rfl,
    hstart _, hstop _⟩
  · simp only [FSurrealPilotOutputDevice.IsCapturing] at h
    simp [FSurrealPilotOutputDevice.StartCapture, LogBuild_Log,
      FSurrealPilotOutputDevice.ClearCaptured, h]
  · simp only [FSurrealPilotOutputDevice.IsCapturing] at h
    simp [FSurrealPilotOutputDevice.StartCapture, h]
  · simp only [FSurrealPilotOutputDevice.IsCapturing] at h
    simp [FSurrealPilotOutputDevice.StopCapture, h]

/-- C25 at a device that is idle with an error and a warning left from an
earlier capture: after `StartCapture` it is capturing with nothing captured, a
second `StartCapture` changes nothing, and after `StopCapture` it is idle. -/
theorem capture_two_states_witness :
    (FSurrealPilotOutputDevice.StartCapture (fun _ _ => true) "now"
      ⟨["old error"], ["old warning"], false, false, []⟩).CapturedErrors = [] ∧
    (FSurrealPilotOutputDevice.StartCapture (fun _ _ => true) "now"
      ⟨["old error"], ["old warning"], false, false, []⟩).CapturedWarnings = [] ∧
    FSurrealPilotOutputDevice.StartCapture (fun _ _ => true) "now"
      (FSurrealPilotOutputDevice.StartCapture (fun _ _ => true) "now"
        ⟨["old error"], ["old warning"], false, false, []⟩) =
      FSurrealPilotOutputDevice.StartCapture (fun _ _ => true) "now"
        ⟨["old error"], ["old warning"], false, false, []⟩ ∧
    (FSurrealPilotOutputDevice.StopCapture (fun _ _ => true) "now"
      (FSurrealPilotOutputDevice.StartCapture (fun _ _ => true) "now"
        ⟨["old error"], ["old warning"], false, false, []⟩)).IsCapturing = false :=
  have h := capture_two_states (fun _ _ => true) "now"
    ⟨["old error"], ["old warning"], false, false, []⟩ ⟨none⟩
  have h2 := capture_two_states (fun _ _ => true) "now"
    (FSurrealPilotOutputDevice.StartCapture (fun _ _ => true) "now"
      ⟨["old error"], ["old warning"], false, false, []⟩) ⟨none⟩
  ⟨(h.2.2.2.1 rfl).1, (h.2.2.2.1 rfl).2, h2.2.2.2.2.1 h.2.1, h2.2.2.1⟩

end SurrealPilot
